import Mathlib

/-!
# ganychain: the per-shard bulletin storage engine

A shallow embedding of `app/app.go`, `proto/tx.go` and `proto/bulletin.go`.

Conventions of the embedding.

* A Go `[]byte` is a `List Nat`; every byte the code produces is `< 256`.
  A nil slice and an empty slice are both `[]` (the code only ever tests `len`
  or compares with `nil` a slice obtained by `append`, which is nil exactly
  when it is empty).
* Go `int64` values are `Int`; arithmetic that can wrap goes through `wrap64`.
  `int` is 64 bits wide.
* A slice expression that Go would abort on is the error `Err.panic`.  Slices
  handed out by the store have capacity equal to their length.
* The libraries the code calls (SHA-256, xxhash, protobuf decoding) and the
  generated protobuf declarations are parameters, gathered in `Env`.
* The badger transaction is a finite map from keys to entries, kept in key
  order, together with the count of pending writes; `time.Now()` is the
  parameter `now` (whole seconds), the same instant for all reads of the
  clock inside one call.
-/

namespace Gany

abbrev Bytes := List Nat

/-- Errors of `proto/errors.go`, `app/errors.go`, of the store, of the protobuf
decoder, and the run-time panic of an out-of-range slice expression. -/
inductive Err where
  | ErrInvalidTxBytes
  | ErrInvalidStochasticPaymentFields
  | ErrInvalidBulletinFields
  | ErrKeyNotFound
  | ErrMainKeyHeadNotFound
  | ErrTimestampTooLong
  | ErrInvalidOldSN
  | ErrCantFindOldBulletin
  | ErrCantOverwriteBulletin
  | badgerErrKeyNotFound
  | badgerErrTxnTooBig
  | protoUnmarshal
  | panic
deriving DecidableEq, Repr

/-! ## Integers and byte strings -/

/-- Two-complement wrap of an integer into the `int64` range. -/
def wrap64 (x : Int) : Int := (x + 2 ^ 63) % 2 ^ 64 - 2 ^ 63

/-- Go conversion `uint64(x)` of an `int64`. -/
def toUint64 (x : Int) : Nat := (x % 2 ^ 64).toNat

/-- Go conversion `int64(x)` of a `uint64`. -/
def toInt64 (x : Nat) : Int := wrap64 (x : Int)

/-- The eight bytes written by `binary.BigEndian.PutUint64`. -/
def putUint64 (v : Nat) : Bytes :=
  [v / 2 ^ 56 % 256, v / 2 ^ 48 % 256, v / 2 ^ 40 % 256, v / 2 ^ 32 % 256,
   v / 2 ^ 24 % 256, v / 2 ^ 16 % 256, v / 2 ^ 8 % 256, v % 256]

/-- The four bytes written by `binary.BigEndian.PutUint32`. -/
def putUint32 (v : Nat) : Bytes :=
  [v / 2 ^ 24 % 256, v / 2 ^ 16 % 256, v / 2 ^ 8 % 256, v % 256]

/-- The value read by `binary.BigEndian.Uint32` from a four-byte slice. -/
def uint32 (b : Bytes) : Nat :=
  b.getD 0 0 * 2 ^ 24 + b.getD 1 0 * 2 ^ 16 + b.getD 2 0 * 2 ^ 8 + b.getD 3 0

/-- Go conversion `uint32(n)` of an `int`. -/
def toUint32 (n : Nat) : Nat := n % 2 ^ 32

/-- A zeroed buffer, as `make([]byte, n)` or `var b [n]byte`. -/
def zeros (n : Nat) : Bytes := List.replicate n 0

/-- Go slice expression `b[lo:hi]`. -/
def slice (b : Bytes) (lo hi : Nat) : Except Err Bytes :=
  if lo ≤ hi ∧ hi ≤ b.length then .ok ((b.take hi).drop lo) else .error .panic

/-- Go slice expression `b[lo:]`. -/
def sliceFrom (b : Bytes) (lo : Nat) : Except Err Bytes :=
  slice b lo b.length

/-- Go `copy(dst[lo:hi], src)` for `hi ≤ len(dst)`: the buffer `dst` after the
copy, which moves `min(hi - lo, len(src))` bytes. -/
def copyAt (dst : Bytes) (lo hi : Nat) (src : Bytes) : Bytes :=
  dst.take lo ++ src.take (min (hi - lo) src.length) ++
    dst.drop (lo + min (hi - lo) src.length)

/-- Result of `bytes.Compare(a, b) < 0`. -/
def bytesLt : Bytes → Bytes → Bool
  | [], [] => false
  | [], _ :: _ => true
  | _ :: _, [] => false
  | x :: xs, y :: ys => if x < y then true else if y < x then false else bytesLt xs ys

/-- Result of `bytes.HasPrefix(k, p)`. -/
def hasPrefix : Bytes → Bytes → Bool
  | _, [] => true
  | [], _ :: _ => false
  | x :: xs, y :: ys => x == y && hasPrefix xs ys

/-! ## Protobuf messages (`proto/*.pb.go`) -/

/-- The fields of the generated `Bulletin` message. -/
structure Bulletin where
  Typ : Int
  Topic : Bytes
  Timestamp : Int
  Duration : Int
  OldSn : Bytes
  From : Bytes
  ContentType : String
  ContentList : List Bytes
  CensoredStart : Int
  CensoredEnd : Int
deriving DecidableEq, Repr

/-- The fields of the generated `StochasticPayment` message read by `IsValid`;
`Payee` is `none` for a nil slice. -/
structure StochasticPayment where
  ValidatorPubkeyHashRoot : Bytes
  DueTime : Int
  Probability : Nat
  Payee : Option Bytes
  AmountToPayee : Bytes
  AmountToValidator : Bytes
  Signature : Bytes
deriving DecidableEq, Repr

/-- The libraries and generated declarations the engine is linked against.

* `sha256` is `crypto/sha256`: the digest of the bytes written to the hasher;
* `xxhash` is the 64-bit value of `xxhash.Sum64` over the bytes written;
* `unmarshalBulletin`, `unmarshalSP` are `proto.Unmarshal` into the two message
  types (`none` for a decoding error);
* the four `Bulletin_*` are the values of the generated `Bulletin_BulletinType`
  enumeration. -/
structure Env where
  sha256 : Bytes → Bytes
  sha256_len : ∀ b, (sha256 b).length = 32
  xxhash : Bytes → Nat
  unmarshalBulletin : Bytes → Option Bulletin
  unmarshalSP : Bytes → Option StochasticPayment
  Bulletin_BLOG : Int
  Bulletin_COMMENT : Int
  Bulletin_COLUMN : Int
  Bulletin_CENSOR : Int

/-! ## `proto/bulletin.go` -/

def Bulletin.CanBeOverwrittenBy (x other : Bulletin) : Bool :=
  x.Topic == other.Topic &&
    x.Typ == other.Typ &&
    x.Timestamp == other.Timestamp &&
    x.From == other.From &&
    x.Duration == other.Duration

def Bulletin.GetTopicHash (env : Env) (x : Bulletin) : Bytes :=
  env.sha256 x.Topic

/-! ## `proto/tx.go` -/

def TxFieldLengthsLen : Nat := 16

def GetBytesSlice (tx : Bytes) (start stop : Nat) : Except Err Bytes :=
  if tx.length < stop then .error .ErrInvalidTxBytes else slice tx start stop

def GetStochasticPaymentBytes (tx : Bytes) : Except Err Bytes :=
  if tx.length < TxFieldLengthsLen then .error .ErrInvalidTxBytes
  else
    let bzStart := TxFieldLengthsLen
    let bzLen := uint32 (tx.take 4)
    if bzLen = 0 then .ok [] else GetBytesSlice tx bzStart (bzStart + bzLen)

def GetBulletinBytes (tx : Bytes) : Except Err Bytes :=
  if tx.length < TxFieldLengthsLen then .error .ErrInvalidTxBytes
  else
    let bzStart := uint32 (tx.take 4) + TxFieldLengthsLen
    let bzLen := uint32 ((tx.take 8).drop 4)
    if bzLen = 0 then .ok [] else GetBytesSlice tx bzStart (bzStart + bzLen)

def GetBulletin (env : Env) (tx : Bytes) : Except Err Bulletin :=
  match GetBulletinBytes tx with
  | .error e => .error e
  | .ok bz =>
    match env.unmarshalBulletin bz with
    | none => .error .protoUnmarshal
    | some b => .ok b

def GetAuthProofBytes (tx : Bytes) : Except Err Bytes :=
  if tx.length < TxFieldLengthsLen then .error .ErrInvalidTxBytes
  else
    let bzStart :=
      toUint32 (uint32 (tx.take 4) + uint32 ((tx.take 8).drop 4)) + TxFieldLengthsLen
    let bzLen := uint32 ((tx.take 12).drop 8)
    if bzLen = 0 then .ok [] else GetBytesSlice tx bzStart (bzStart + bzLen)

def GetAuthChanllengeBytes (tx : Bytes) : Except Err Bytes :=
  if tx.length < TxFieldLengthsLen then .error .ErrInvalidTxBytes
  else
    let bzStart :=
      toUint32 (uint32 (tx.take 4) + uint32 ((tx.take 8).drop 4) +
        uint32 ((tx.take 12).drop 8)) + TxFieldLengthsLen
    let bzLen := uint32 ((tx.take 16).drop 12)
    if bzLen = 0 then .ok [] else GetBytesSlice tx bzStart (bzStart + bzLen)

/-- The 64-byte bulletin ID: the digest of what was written to the hasher from
the bulletin and auth-proof payloads, then the digest of the auth challenge. -/
def GetBulletinID (env : Env) (tx : Bytes) : Except Err Bytes :=
  match GetBulletinBytes tx with
  | .error e => .error e
  | .ok bulletinBz =>
    let w1 := if bulletinBz.length > 2 then bulletinBz.take 2 else []
    match GetAuthProofBytes tx with
    | .error e => .error e
    | .ok authProofBz =>
      let w2 := if authProofBz.length > 2 then authProofBz.take 2 else []
      let firstHash := env.sha256 (w1 ++ w2)
      let id := copyAt (zeros 64) 0 32 firstHash
      match GetAuthChanllengeBytes tx with
      | .error e => .error e
      | .ok authChallengeBz =>
        let w3 := if authChallengeBz.length > 0 then authChallengeBz else []
        let lastHash := env.sha256 w3
        .ok (copyAt id 32 64 lastHash)

/-! ## The badger transaction -/

/-- A stored entry: its value and the Unix second at which it expires
(`0`: never). -/
structure Entry where
  value : Bytes
  expiresAt : Nat
deriving DecidableEq, Repr

/-- A read-write transaction: the records it sees (committed ones and its own
pending writes), in ascending key order, the number of pending writes, and the
batch limit of the database. -/
structure Txn where
  entries : List (Bytes × Entry)
  count : Nat
  maxBatchCount : Nat
deriving DecidableEq, Repr

/-- Badger: `isDeletedOrExpired` for a live entry at the instant `now`. -/
def expired (now : Int) (e : Entry) : Bool :=
  e.expiresAt != 0 && decide (e.expiresAt ≤ toUint64 now)

/-- Badger: `Entry.WithTTL(dur)`, the expiry `uint64(time.Now().Add(dur).Unix())`
for a duration in nanoseconds. -/
def withTTL (now : Int) (dur : Int) : Nat :=
  toUint64 ((now * 10 ^ 9 + dur) / 10 ^ 9)

/-- The entry stored for `key`, whether expired or not. -/
def rawLookup (key : Bytes) : List (Bytes × Entry) → Option Entry
  | [] => none
  | (k, e) :: rest => if k = key then some e else rawLookup key rest

/-- Put `(key, e)` at its place in key order, replacing an entry of that key. -/
def insertEntry (key : Bytes) (e : Entry) : List (Bytes × Entry) → List (Bytes × Entry)
  | [] => [(key, e)]
  | (k, e0) :: rest =>
    if k = key then (key, e) :: rest
    else if bytesLt key k then (key, e) :: (k, e0) :: rest
    else (k, e0) :: insertEntry key e rest

/-- Drop the entries of `key`. -/
def eraseEntry (key : Bytes) : List (Bytes × Entry) → List (Bytes × Entry)
  | [] => []
  | (k, e) :: rest => if k = key then eraseEntry key rest else (k, e) :: eraseEntry key rest

/-- Badger: `txn.Get`. -/
def Txn.Get (txn : Txn) (now : Int) (key : Bytes) : Except Err Entry :=
  match rawLookup key txn.entries with
  | none => .error .badgerErrKeyNotFound
  | some e => if expired now e then .error .badgerErrKeyNotFound else .ok e

/-- Badger: `txn.checkSize`, the one failure of a write that is modelled: the
transaction is full. -/
def Txn.checkSize (txn : Txn) : Bool :=
  decide (txn.count + 1 ≥ txn.maxBatchCount)

/-- Badger: `txn.SetEntry(NewEntry(key, value).WithTTL(ttl))`. -/
def Txn.SetEntry (txn : Txn) (now : Int) (key value : Bytes) (ttl : Int) : Except Err Txn :=
  if txn.checkSize then .error .badgerErrTxnTooBig
  else .ok { txn with
    entries := insertEntry key ⟨value, withTTL now ttl⟩ txn.entries
    count := txn.count + 1 }

/-- Badger: `txn.Delete(key)`. -/
def Txn.Delete (txn : Txn) (key : Bytes) : Except Err Txn :=
  if txn.checkSize then .error .badgerErrTxnTooBig
  else .ok { txn with entries := eraseEntry key txn.entries, count := txn.count + 1 }

/-- Badger: the items visited by
`for iter.Seek(p); iter.ValidForPrefix(p); iter.Next()` on a forward iterator. -/
def Txn.iterPrefix (txn : Txn) (now : Int) (p : Bytes) : List (Bytes × Entry) :=
  ((txn.entries.filter (fun kv => !expired now kv.2)).dropWhile
    (fun kv => bytesLt kv.1 p)).takeWhile (fun kv => hasPrefix kv.1 p)

/-- The transaction after a write that returned `r`, with the error returned. -/
def afterWrite (txn : Txn) (r : Except Err Txn) : Txn × Option Err :=
  match r with
  | .error e => (txn, some e)
  | .ok t => (t, none)

/-! ## `app/app.go`: constants -/

def Second : Int := 10 ^ 9
def Hour : Int := 3600 * Second
def MaxTTL : Int := 180 * 24 * Hour
def MinTTL : Int := 1 * Hour

def MainKeyLen : Nat := 1 + 8 + 5 + 8 + 8
def MainKeyHeadLen : Nat := 1 + 8 + 5

def TopicHashEnd : Nat := 32
def HistoryCountEnd : Nat := 36

def TopicHashLen : Nat := 32
def HisCountLen : Nat := 4
def BulletinIdLen : Nat := 64

def MaxTimeDiff : Int := 180

def MainKeyHeadByte : Nat := 220

def CheckTxCodeOK : Nat := 0
def CheckTxCodeErrorInvalidTxBytes : Nat := 1
def CheckTxCodeErrorInvalidBulletin : Nat := 2
def CheckTxCodeErrorInvalidStochasticPayment : Nat := 3
def CheckTxCodeError : Nat := 99

def DeliverTxCodeErrorTimestampTooLong : Nat := 100
def DeliverTxCodeErrorInvalidOldSN : Nat := 101
def DeliverTxCodeErrorCannotFindOldBulletin : Nat := 102
def DeliverTxCodeErrorCannotOverwriteBulletin : Nat := 103
def DeliverTxCodeErrorOther : Nat := 104

/-! ## `app/app.go`: helpers -/

/-- The function `sum64`: `xxhash.New()` followed by `h.Sum(bz)`, which appends
the digest of the bytes written to the hasher (none) to `bz`. -/
def sum64 (env : Env) (bz : Bytes) : Bytes :=
  bz ++ putUint64 (env.xxhash [])

def toValidTTL (now : Int) (expire : Int) : Int :=
  if expire > now then
    let ttl := wrap64 (wrap64 (expire - now) * Second)
    if ttl > MaxTTL then MaxTTL else ttl
  else MinTTL

/-- The loop of `historyContainsId`: `n` entries remain, the next at `start`. -/
def historyLoop (value id : Bytes) : Nat → Nat → Except Err Bool
  | 0, _ => .ok false
  | n + 1, start =>
    match slice value start (start + BulletinIdLen) with
    | .error e => .error e
    | .ok entry =>
      if entry = id then .ok true else historyLoop value id n (start + BulletinIdLen)

def historyContainsId (value id : Bytes) : Except Err (Bool × Nat) :=
  match slice value TopicHashEnd HistoryCountEnd with
  | .error e => .error e
  | .ok c =>
    let count := uint32 c
    let stop := HistoryCountEnd + count * BulletinIdLen
    match historyLoop value id count HistoryCountEnd with
    | .error e => .error e
    | .ok found => .ok (found, stop)

def getMainKeyHead (env : Env) (bulletin : Bulletin) : Bytes :=
  let mainKeyHead := zeros MainKeyHeadLen
  let mainKeyHead := copyAt mainKeyHead 0 1 [toUint64 bulletin.Typ % 256]
  let topicHash := bulletin.GetTopicHash env
  let mainKeyHead := copyAt mainKeyHead 1 MainKeyHeadLen (sum64 env topicHash)
  let buf := putUint64 (toUint64 bulletin.Timestamp)
  copyAt mainKeyHead 9 MainKeyHeadLen (buf.drop 3)

def lookupMainKeyFromRange (mainKeyRange : Bytes) (index : Nat) : Bytes :=
  if mainKeyRange.length < (index + 1) * MainKeyHeadLen then []
  else (mainKeyRange.take ((index + 1) * MainKeyHeadLen)).drop (index * MainKeyHeadLen)

/-! ## `app/app.go`: the state machine -/

/-- The serial number minted by `createGanyTx`: `copy(sn[:5], timeBuf[3:])`
then `copy(sn[5:], indexBuf[5:])`. -/
def mintSn (blockTimestamp txIndex : Int) : Bytes :=
  let timeBuf := putUint64 (toUint64 blockTimestamp)
  let indexBuf := putUint64 (toUint64 txIndex)
  copyAt (copyAt (zeros 8) 0 5 (timeBuf.drop 3)) 5 8 (indexBuf.drop 5)

/-- The main key `bKey` composed by `createGanyTx`. -/
def createKey (env : Env) (bulletin : Bulletin) (sn : Bytes) : Bytes :=
  let bKey := zeros MainKeyLen
  let bKey := copyAt bKey 0 MainKeyLen (getMainKeyHead env bulletin)
  let bKey := copyAt bKey MainKeyHeadLen MainKeyLen sn
  copyAt bKey (MainKeyHeadLen + 8) MainKeyLen (sum64 env bulletin.From)

def createGanyTx (env : Env) (now : Int) (txn : Txn) (ganyTx : Bytes)
    (blockTimestamp txIndex : Int) : Txn × Option Err :=
  match GetBulletin env ganyTx with
  | .error e => (txn, some e)
  | .ok bulletin =>
    if bulletin.ContentList.length = 0 then (txn, none)
    else
      let timeBuf := putUint64 (toUint64 blockTimestamp)
      let indexBuf := putUint64 (toUint64 txIndex)
      let sn := mintSn blockTimestamp txIndex
      if bulletin.Typ < env.Bulletin_CENSOR ∧
          bulletin.Timestamp < wrap64 (blockTimestamp - MaxTimeDiff) then
        (txn, some .ErrTimestampTooLong)
      else
        let bKey := createKey env bulletin sn
        let topicHash := bulletin.GetTopicHash env
        let bValue := topicHash ++ [0, 0, 0, 1]
        match GetBulletinID env ganyTx with
        | .error e => (txn, some e)
        | .ok id =>
          let bValue := bValue ++ id ++ ganyTx
          match txn.SetEntry now bKey bValue (toValidTTL now bulletin.Duration) with
          | .error e => (txn, some e)
          | .ok txn1 =>
            let key := [MainKeyHeadByte] ++ timeBuf.drop 3 ++ indexBuf.drop 5
            match txn1.SetEntry now key (bKey.take MainKeyHeadLen)
                (toValidTTL now bulletin.Duration) with
            | .error e => (txn1, some e)
            | .ok txn2 =>
              let rangeKey :=
                [MainKeyHeadByte] ++ timeBuf.drop 3 ++ (indexBuf.take 7).drop 5
              match txn2.Get now rangeKey with
              | .error .badgerErrKeyNotFound =>
                afterWrite txn2 (txn2.SetEntry now rangeKey (bKey.take MainKeyHeadLen)
                  (toValidTTL now bulletin.Duration))
              | .error e => (txn2, some e)
              | .ok mainKeyRangeItem =>
                let oldMainKeyRange : Bytes := copyAt [] 0 0 mainKeyRangeItem.value
                let oldExpireAt := mainKeyRangeItem.expiresAt
                let newMainKeyRange := oldMainKeyRange ++ bKey.take MainKeyHeadLen
                let newExpireAt := withTTL now (toValidTTL now bulletin.Duration)
                if newExpireAt > oldExpireAt then
                  afterWrite txn2 (txn2.SetEntry now rangeKey newMainKeyRange
                    (toValidTTL now bulletin.Duration))
                else
                  afterWrite txn2 (txn2.SetEntry now rangeKey newMainKeyRange
                    (wrap64 (toInt64 oldExpireAt - now)))

/-- The key `mainKey` recovered by `getOldVersionOfGanyTx`. -/
def overwriteKey (env : Env) (newBulletin : Bulletin) : Bytes :=
  let mainKey := zeros MainKeyLen
  let mainKey := copyAt mainKey 0 MainKeyLen (getMainKeyHead env newBulletin)
  let mainKey := copyAt mainKey MainKeyHeadLen MainKeyLen newBulletin.OldSn
  copyAt mainKey (MainKeyHeadLen + 8) MainKeyLen (sum64 env newBulletin.From)

/-- Returns `(idHis, mainKey, oldTx)`. -/
def getOldVersionOfGanyTx (env : Env) (now : Int) (txn : Txn) (newTx : Bytes) :
    Except Err (Bytes × Bytes × Bytes) :=
  match GetBulletin env newTx with
  | .error e => .error e
  | .ok newBulletin =>
    let mainKey := overwriteKey env newBulletin
    match txn.Get now mainKey with
    | .error e => .error e
    | .ok item =>
      match GetBulletinID env newTx with
      | .error e => .error e
      | .ok id =>
        match historyContainsId item.value id with
        | .error e => .error e
        | .ok (ok, txStart) =>
          if !ok then .error .ErrInvalidOldSN
          else
            match slice item.value HistoryCountEnd txStart with
            | .error e => .error e
            | .ok idHis =>
              match sliceFrom item.value txStart with
              | .error e => .error e
              | .ok oldTx => .ok (idHis, mainKey, oldTx)

def overwriteBulletin (env : Env) (now : Int) (txn : Txn) (newTx : Bytes) :
    Txn × Option Err :=
  match getOldVersionOfGanyTx env now txn newTx with
  | .error e => (txn, some e)
  | .ok (idHis, key, oldTx) =>
    if oldTx = [] then (txn, some .ErrCantFindOldBulletin)
    else
      match GetBulletin env oldTx with
      | .error e => (txn, some e)
      | .ok oldBulletin =>
        match GetBulletin env newTx with
        | .error e => (txn, some e)
        | .ok newBulletin =>
          if !oldBulletin.CanBeOverwrittenBy newBulletin then
            (txn, some .ErrCantOverwriteBulletin)
          else if newBulletin.ContentList.length ≠ 0 then
            let value := zeros (32 + 4)
            let topicHash := newBulletin.GetTopicHash env
            let value := copyAt value 0 32 topicHash
            let value :=
              copyAt value 32 36 (putUint32 (toUint32 (idHis.length / BulletinIdLen + 1)))
            let value := value ++ idHis
            match GetBulletinID env newTx with
            | .error e => (txn, some e)
            | .ok newId =>
              let value := value ++ newId ++ newTx
              afterWrite txn (txn.SetEntry now key value
                (toValidTTL now newBulletin.Duration))
          else afterWrite txn (txn.Delete key)

def putGanyTx (env : Env) (now : Int) (txn : Txn) (ganyTx : Bytes)
    (blockTimestamp txIndex : Int) : Txn × Option Err :=
  match GetBulletin env ganyTx with
  | .error e => (txn, some e)
  | .ok bulletin =>
    if bulletin.OldSn.length = 0 then createGanyTx env now txn ganyTx blockTimestamp txIndex
    else overwriteBulletin env now txn ganyTx

/-- The body of the iteration of `getGanyTx` over the visited items. -/
def getGanyTxLoop : List (Bytes × Entry) → Bytes → Except Err Bytes
  | [], ganyTx => .ok ganyTx
  | (_, it) :: rest, ganyTx =>
    match slice it.value TopicHashEnd HistoryCountEnd with
    | .error e => .error e
    | .ok c =>
      let count := uint32 c
      let txStart := HistoryCountEnd + count * BulletinIdLen
      match sliceFrom it.value txStart with
      | .error e => .error e
      | .ok s => getGanyTxLoop rest (ganyTx ++ s)

def getGanyTx (now : Int) (txn : Txn) (ganyUrlBz : Bytes) : Except Err Bytes :=
  match slice ganyUrlBz 4 11 with
  | .error e => .error e
  | .ok u =>
    let key := [MainKeyHeadByte] ++ u
    match txn.Get now key with
    | .error .badgerErrKeyNotFound => .error .ErrKeyNotFound
    | .error e => .error e
    | .ok item =>
      match ganyUrlBz.get? 11 with
      | none => .error .panic
      | some txIndex =>
        let mainKey := zeros MainKeyLen
        let mainKeyHead := lookupMainKeyFromRange item.value txIndex
        if mainKeyHead.length = 0 then .error .ErrMainKeyHeadNotFound
        else
          let mainKey := copyAt mainKey 0 MainKeyHeadLen mainKeyHead
          let mainKey := copyAt mainKey MainKeyHeadLen MainKeyLen (ganyUrlBz.drop 4)
          let pfx := mainKey.take (MainKeyHeadLen + 8)
          getGanyTxLoop (txn.iterPrefix now pfx) []

/-! ## Validation and the ABCI connection -/

def Bulletin.IsValid (env : Env) (x : Bulletin) : Bool :=
  decide (x.Topic.length > 0) &&
    decide (x.Typ ≥ env.Bulletin_COMMENT) &&
    decide (x.Typ ≤ env.Bulletin_CENSOR) &&
    decide (x.Timestamp > 0) &&
    decide (x.From.length = 20)

def StochasticPayment.IsValid (x : StochasticPayment) : Bool :=
  decide (x.ValidatorPubkeyHashRoot.length = 32) &&
    decide (x.DueTime > 0) &&
    decide (x.Probability > 0) &&
    (x.Payee.isNone || x.Payee.any (fun p => decide (p.length = 20))) &&
    decide (x.AmountToPayee.length ≤ 12) &&
    decide (x.AmountToValidator.length ≤ 12) &&
    decide (x.Signature.length = 65)

def GetStochasticPayment (env : Env) (tx : Bytes) : Except Err StochasticPayment :=
  match GetStochasticPaymentBytes tx with
  | .error e => .error e
  | .ok bz =>
    match env.unmarshalSP bz with
    | none => .error .protoUnmarshal
    | some sp => .ok sp

/-- The error of `GanyTx.IsValid`: `none` when it returns `(true, nil)`. -/
def IsValid (env : Env) (tx : Bytes) : Option Err :=
  if tx.length ≤ TxFieldLengthsLen then some .ErrInvalidTxBytes
  else
    match GetStochasticPayment env tx with
    | .error _ => some .ErrInvalidTxBytes
    | .ok sp =>
      if !sp.IsValid then some .ErrInvalidStochasticPaymentFields
      else
        match GetBulletin env tx with
        | .error _ => some .ErrInvalidTxBytes
        | .ok b => if !b.IsValid env then some .ErrInvalidBulletinFields else none

def validateGanyTxBz (env : Env) (ganyTx : Bytes) : Option Err :=
  IsValid env ganyTx

/-- The `switch err` of `CheckTx` and of the head of `DeliverTx`. -/
def checkCode (err : Err) : Nat :=
  match err with
  | .ErrInvalidTxBytes => CheckTxCodeErrorInvalidTxBytes
  | .ErrInvalidBulletinFields => CheckTxCodeErrorInvalidBulletin
  | .ErrInvalidStochasticPaymentFields => CheckTxCodeErrorInvalidStochasticPayment
  | _ => CheckTxCodeError

/-- The `switch err` of `DeliverTx` after `putGanyTx`. -/
def deliverCode (err : Err) : Nat :=
  match err with
  | .ErrTimestampTooLong => DeliverTxCodeErrorTimestampTooLong
  | .ErrInvalidOldSN => DeliverTxCodeErrorInvalidOldSN
  | .ErrCantFindOldBulletin => DeliverTxCodeErrorCannotFindOldBulletin
  | .ErrCantOverwriteBulletin => DeliverTxCodeErrorCannotOverwriteBulletin
  | _ => DeliverTxCodeErrorOther

/-- The fields of `GanyApplication` that the block session uses; `db` holds the
committed records and `maxBatchCount` is the batch limit of the database. -/
structure GanyApplication where
  db : List (Bytes × Entry)
  maxBatchCount : Nat
  currentBatch : Txn
  currentHeight : Int
  currentTxIndex : Int
  currentBlockTimestamp : Int
deriving DecidableEq, Repr

def CheckTx (env : Env) (tx : Bytes) : Nat :=
  match validateGanyTxBz env tx with
  | some err => checkCode err
  | none => CheckTxCodeOK

def BeginBlock (app : GanyApplication) (height time : Int) : GanyApplication :=
  { app with
    currentHeight := height
    currentBlockTimestamp := time
    currentBatch := ⟨app.db, 0, app.maxBatchCount⟩
    currentTxIndex := 0 }

/-- Returns the application after the delivery and the response code. -/
def DeliverTx (env : Env) (now : Int) (app : GanyApplication) (tx : Bytes) :
    GanyApplication × Nat :=
  match validateGanyTxBz env tx with
  | some err => (app, checkCode err)
  | none =>
    match putGanyTx env now app.currentBatch tx app.currentBlockTimestamp
        app.currentTxIndex with
    | (batch, some err) => ({ app with currentBatch := batch }, deliverCode err)
    | (batch, none) =>
      ({ app with currentBatch := batch, currentTxIndex := wrap64 (app.currentTxIndex + 1) },
        CheckTxCodeOK)

def Commit (app : GanyApplication) : GanyApplication :=
  { app with db := app.currentBatch.entries }

/-! ## `app/app.go`: the range query -/

def DefaultResultLength : Nat := 8192
def DefaultValueLength : Nat := 1024
def MaxQueryResultLength : Nat := 1024 * 1024
def MaxQueryResultCount : Nat := 255

/-- One lower-case hexadecimal digit. -/
def hexDigit (n : Nat) : Char :=
  if n < 10 then Char.ofNat (48 + n) else Char.ofNat (87 + n)

/-- The string of `hexutil.Encode`: `0x`, then two lower-case hexadecimal digits
for every byte. -/
def hexEncode (b : Bytes) : String :=
  String.mk ('0' :: 'x' :: b.flatMap (fun x => [hexDigit (x / 16 % 16), hexDigit (x % 16)]))

/-- Badger: the items visited by `for iter.Seek(k); iter.Valid(); iter.Next()` on a
reverse iterator: the live entries from the greatest key not above `k` downwards. -/
def Txn.iterReverse (txn : Txn) (now : Int) (k : Bytes) : List (Bytes × Entry) :=
  ((txn.entries.filter (fun kv => !expired now kv.2)).reverse).dropWhile
    (fun kv => bytesLt k kv.1)

/-- The callback that `queryBulletins` passes to `item.Value`: `none` when the
stored topic hash differs, otherwise the bulletin of the stored envelope. -/
def queryValue (env : Env) (topicHash value : Bytes) : Except Err (Option Bulletin) :=
  match slice value 0 32 with
  | .error e => .error e
  | .ok h =>
    if h ≠ topicHash then .ok none
    else
      match slice value TopicHashEnd HistoryCountEnd with
      | .error e => .error e
      | .ok c =>
        let count := uint32 c
        let txStart := HistoryCountEnd + count * BulletinIdLen
        match sliceFrom value txStart with
        | .error e => .error e
        | .ok s =>
          let tmpTx : Bytes := [] ++ s
          match GetBulletin env tmpTx with
          | .error e => .error e
          | .ok b => .ok (some b)

/-- The loop of `queryBulletins` over the items the iterator yields. -/
def queryLoop (env : Env) (topicHash : Bytes) (excludeSNs : List String) (keyStart : Bytes) :
    List (Bytes × Entry) → List Bulletin → Nat → Except Err (List Bulletin × Nat)
  | [], result, num => .ok (result, num)
  | (key, item) :: rest, result, num =>
    if bytesLt key keyStart then .ok (result, num)
    else
      match slice key MainKeyHeadLen (MainKeyHeadLen + 8) with
      | .error e => .error e
      | .ok sn =>
        if hexEncode sn ∈ excludeSNs then
          queryLoop env topicHash excludeSNs keyStart rest result num
        else
          match queryValue env topicHash item.value with
          | .error e => .error e
          | .ok none =>
            if result.length > DefaultValueLength then .ok (result, num)
            else if num > MaxQueryResultCount then .ok (result, num)
            else queryLoop env topicHash excludeSNs keyStart rest result num
          | .ok (some b) =>
            if (result ++ [b]).length > DefaultValueLength then .ok (result ++ [b], num + 1)
            else if num + 1 > MaxQueryResultCount then .ok (result ++ [b], num + 1)
            else queryLoop env topicHash excludeSNs keyStart rest (result ++ [b]) (num + 1)

/-- The key `keyStart` that `queryBulletins` builds. -/
def queryKeyStart (env : Env) (typ : Nat) (topicHash : Bytes) (startTime : Int) : Bytes :=
  let keyStart := zeros MainKeyLen
  let keyStart := copyAt keyStart 0 1 [typ]
  let keyStart := copyAt keyStart 1 MainKeyLen (sum64 env topicHash)
  let stBuf := putUint64 (toUint64 startTime)
  let keyStart := copyAt keyStart 9 14 (stBuf.drop 3)
  copyAt keyStart 14 MainKeyLen (zeros 16)

/-- The key `keyEnd` that `queryBulletins` builds: the first fourteen bytes of
`keyStart` as they are before the start time is written, then the end time and
sixteen bytes `0xff`. -/
def queryKeyEnd (env : Env) (typ : Nat) (topicHash : Bytes) (endTime : Int) : Bytes :=
  let keyStart := zeros MainKeyLen
  let keyStart := copyAt keyStart 0 1 [typ]
  let keyStart := copyAt keyStart 1 MainKeyLen (sum64 env topicHash)
  let keyEnd := zeros MainKeyLen
  let keyEnd := copyAt keyEnd 0 MainKeyHeadLen (keyStart.take MainKeyHeadLen)
  let etBuf := putUint64 (toUint64 endTime)
  let keyEnd := copyAt keyEnd 9 14 (etBuf.drop 3)
  copyAt keyEnd 14 MainKeyLen (List.replicate 16 255)

/-- Returns the bulletins and their number. -/
def queryBulletins (env : Env) (now : Int) (txn : Txn) (typ : Nat) (topicHash : Bytes)
    (startTime endTime : Int) (excludeSNs : List String) :
    Except Err (List Bulletin × Nat) :=
  let keyStart := queryKeyStart env typ topicHash startTime
  let keyEnd := queryKeyEnd env typ topicHash endTime
  queryLoop env topicHash excludeSNs keyStart (txn.iterReverse now keyEnd) [] 0

/-! ## `proto/tx.go`: building an envelope -/

/-- The function `CreateGanyTx` on the four payloads that `proto.Marshal` returned. -/
def CreateGanyTx (stochasticPaymentBz bulletinBz authProofBz authChallengeBz : Bytes) : Bytes :=
  let txFieldLengths := zeros TxFieldLengthsLen
  let txFieldLengths := copyAt txFieldLengths 0 4 (putUint32 (toUint32 stochasticPaymentBz.length))
  let txFieldLengths := copyAt txFieldLengths 4 8 (putUint32 (toUint32 bulletinBz.length))
  let txFieldLengths := copyAt txFieldLengths 8 12 (putUint32 (toUint32 authProofBz.length))
  let txFieldLengths :=
    copyAt txFieldLengths 12 TxFieldLengthsLen (putUint32 (toUint32 authChallengeBz.length))
  txFieldLengths ++ stochasticPaymentBz ++ bulletinBz ++ authProofBz ++ authChallengeBz

/-! ## Notions used to state the properties of the range query -/

/-- The store keeps its records in strictly ascending key order. -/
def keysAscending (l : List (Bytes × Entry)) : Prop :=
  l.Pairwise (fun a b => bytesLt a.1 b.1 = true)

/-- The number a byte string denotes in big-endian. -/
def beNat : Bytes → Nat
  | [] => 0
  | x :: xs => x * 256 ^ xs.length + beNat xs

/-- The envelope slice of a main value: what follows the topic hash, the history
count and the ID list. -/
def envelopeOf (value : Bytes) : Bytes :=
  value.drop (36 + uint32 ((value.take 36).drop 32) * 64)

/-- A well-formed main record: a 30-byte key of bytes, and a value that holds
its declared number of bulletin IDs and an envelope whose bulletin decodes. -/
def isMainRecord (env : Env) (kv : Bytes × Entry) : Prop :=
  kv.1.length = 30 ∧ (∀ x ∈ kv.1, x < 256) ∧
    36 + uint32 ((kv.2.value.take 36).drop 32) * 64 ≤ kv.2.value.length ∧
    ∃ b, GetBulletin env (envelopeOf kv.2.value) = .ok b

/-- Follows the words of the claim on the range query: the key of the record has
the queried type byte and topic fingerprint, its `Timestamp5` lies in the closed
interval from `startTime` to `endTime`, the leading 32 bytes of its value are
the queried topic hash, and the hex-encoding of its serial number is not among
the excluded ones. -/
def matchesQuery (env : Env) (typ : Nat) (topicHash : Bytes) (startTime endTime : Int)
    (excludeSNs : List String) (kv : Bytes × Entry) : Bool :=
  kv.1.take 1 == [typ] &&
    (kv.1.take 9).drop 1 == (sum64 env topicHash).take 8 &&
    decide (startTime ≤ (beNat ((kv.1.take 14).drop 9) : Int)) &&
    decide ((beNat ((kv.1.take 14).drop 9) : Int) ≤ endTime) &&
    kv.2.value.take 32 == topicHash &&
    !decide (hexEncode ((kv.1.take 22).drop 14) ∈ excludeSNs)

/-! ## A concrete environment

A small instance of `Env` on which the definitions can be evaluated. -/

/-- A stand-in digest: the input, zero-padded or cut to 32 bytes. -/
def demoSha (b : Bytes) : Bytes := (b ++ zeros 32).take 32

/-- A stand-in decoder: the bytes `type, timestamp, duration, content, topic,
from` followed by the old serial number; the content list is empty when the
content byte is `0`. -/
def demoUnmarshal : Bytes → Option Bulletin
  | typ :: ts :: dur :: c :: topic :: frm :: oldSn =>
    some
      { Typ := typ
        Topic := [topic]
        Timestamp := ts
        Duration := dur
        OldSn := oldSn
        From := List.replicate 20 frm
        ContentType := ""
        ContentList := if c = 0 then [] else [[c]]
        CensoredStart := 0
        CensoredEnd := 0 }
  | _ => none

/-- A stand-in decoder of the payment record: the empty payload decodes to a
valid payment, anything else is a decoding error. -/
def demoUnmarshalSP : Bytes → Option StochasticPayment
  | [] =>
    some
      { ValidatorPubkeyHashRoot := zeros 32
        DueTime := 1
        Probability := 1
        Payee := none
        AmountToPayee := []
        AmountToValidator := []
        Signature := zeros 65 }
  | _ :: _ => none

/-- Modelled from the spec: the values `BLOG=0, COMMENT=1, COLUMN=2, CENSOR=3`
of the bulletin-type enumeration, whose generated declaration is absent. -/
def demoEnv : Env where
  sha256 := demoSha
  sha256_len := by intro b; simp [demoSha, zeros]
  xxhash := fun _ => 0xEF46DB3751D8E999
  unmarshalBulletin := demoUnmarshal
  unmarshalSP := demoUnmarshalSP
  Bulletin_BLOG := 0
  Bulletin_COMMENT := 1
  Bulletin_COLUMN := 2
  Bulletin_CENSOR := 3

/-- An instance with a bulletin-type enumeration under which a `BLOG` bulletin is
in the range that `IsValid` tests, as `TestCheckTx` requires: `COMMENT = 0`,
`BLOG = 1`, `COLUMN = 2`, `CENSOR = 3`. It differs from `demoEnv` in these two
values only. -/
def demoEnvBlog : Env :=
  { demoEnv with Bulletin_BLOG := 1, Bulletin_COMMENT := 0 }

/-- The envelope of `CreateGanyTx(nil, b, nil, nil)` for a bulletin payload. -/
def demoTx (bulletinBz : Bytes) : Bytes :=
  putUint32 0 ++ putUint32 (toUint32 bulletinBz.length) ++ putUint32 0 ++ putUint32 0 ++
    bulletinBz

/-- The bulletin that `demoUnmarshal` reads from `[1, 100, 50, 9, 18, 6]`. -/
def demoBulletin : Bulletin :=
  { Typ := 1
    Topic := [18]
    Timestamp := 100
    Duration := 50
    OldSn := []
    From := List.replicate 20 6
    ContentType := ""
    ContentList := [[9]]
    CensoredStart := 0
    CensoredEnd := 0 }

/-- An empty transaction with room for a thousand writes. -/
def demoTxn : Txn := ⟨[], 0, 1000⟩

/-- Deliver the transactions of a block in order, collecting the response codes. -/
def deliverAll (env : Env) (now : Int) :
    GanyApplication → List Bytes → GanyApplication × List Nat
  | app, [] => (app, [])
  | app, tx :: rest =>
    let r := DeliverTx env now app tx
    let rs := deliverAll env now r.1 rest
    (rs.1, r.2 :: rs.2)

/-- One block session on an application: `BeginBlock`, the deliveries, `Commit`. -/
def runBlock (env : Env) (now : Int) (app : GanyApplication) (height time : Int)
    (txs : List Bytes) : GanyApplication × List Nat :=
  let r := deliverAll env now (BeginBlock app height time) txs
  (Commit r.1, r.2)

/-- A read-only view of the committed records, as `db.View` opens. -/
def GanyApplication.view (app : GanyApplication) : Txn :=
  ⟨app.db, 0, app.maxBatchCount⟩

/-- A fresh application over an empty database. -/
def demoApp : GanyApplication := ⟨[], 1000, demoTxn, 0, 0, 0⟩

/-- The Gany URL `TopicHash4 || SN` of a creation of `topic` at `(blockTime, txIndex)`. -/
def ganyUrl (env : Env) (topic : Bytes) (blockTime txIndex : Int) : Bytes :=
  (env.sha256 topic).take 4 ++ mintSn blockTime txIndex

/-- The transaction after the creation of `demoTx [1, 100, 50, 9, 18, 6]` at
block time 110, index 0. -/
def demoTxn1 : Txn :=
  (putGanyTx demoEnv 100 demoTxn (demoTx [1, 100, 50, 9, 18, 6]) 110 0).1

/-- The payload of an overwrite of that creation with content byte `c`. -/
def demoOverwriteBz (c : Nat) : Bytes := [1, 100, 50, c, 18, 6, 0, 0, 0, 0, 110, 0, 0, 0]

/-- The bulletin that `demoUnmarshal` reads from `demoOverwriteBz c`. -/
def demoOverwrite (c : Nat) : Bulletin :=
  { demoBulletin with
    OldSn := [0, 0, 0, 0, 110, 0, 0, 0]
    ContentList := if c = 0 then [] else [[c]] }

/-- The envelope of the four raw payloads, in the layout of `CreateGanyTx`. -/
def demoTx4 (sp bulletinBz ap ac : Bytes) : Bytes :=
  putUint32 (toUint32 sp.length) ++ putUint32 (toUint32 bulletinBz.length) ++
    putUint32 (toUint32 ap.length) ++ putUint32 (toUint32 ac.length) ++
    sp ++ bulletinBz ++ ap ++ ac

/-- The main record that `demoTxn1` holds for the creation. -/
def demoItem : Entry :=
  ⟨demoSha [18] ++ [0, 0, 0, 1] ++ ([1, 100] ++ zeros 62) ++ demoTx [1, 100, 50, 9, 18, 6], 3700⟩

/-- The committed store after one block at time 110 with three creations on the
topic `[18]`, content bytes 1, 2, 3, at the indices 0, 1, 2. -/
def demoThree : Txn :=
  (runBlock demoEnv 100 demoApp 1 110
    [demoTx [1, 100, 200, 1, 18, 6], demoTx [1, 100, 201, 2, 18, 6],
      demoTx [1, 100, 202, 3, 18, 6]]).1.view

/-- An envelope of 17 bytes whose header declares the lengths `2^32 - 1`, `1`,
`1`, `0`, followed by the byte `42`. -/
def demoWrapTx : Bytes := [255, 255, 255, 255, 0, 0, 0, 1, 0, 0, 0, 1, 0, 0, 0, 0, 42]

/-- An envelope of 17 bytes whose header declares the lengths `2^32 - 1`, `0`,
`1`, `1`, followed by the byte `42`. -/
def demoWrapTx2 : Bytes := [255, 255, 255, 255, 0, 0, 0, 0, 0, 0, 0, 1, 0, 0, 0, 1, 42]

/-- The payload of an overwrite of the creation in `demoTxn1` submitted with
another from address (byte `5` instead of `6`). -/
def demoIntruderBz : Bytes := [1, 100, 50, 7, 18, 5, 0, 0, 0, 0, 110, 0, 0, 0]

/-- The bulletin that `demoUnmarshal` reads from `demoIntruderBz`. -/
def demoIntruder : Bulletin :=
  { demoBulletin with
    OldSn := [0, 0, 0, 0, 110, 0, 0, 0]
    From := List.replicate 20 5
    ContentList := [[7]] }

/-! ## Notions used to state the properties of sessions -/

/-- One call of `putGanyTx`: the reading of the clock, the envelope, the block
time and index passed, and whether the call runs in a new transaction opened on
what the previous ones left. -/
structure PutCall where
  now : Int
  tx : Bytes
  blockTimestamp : Int
  txIndex : Int
  newTxn : Bool
deriving DecidableEq, Repr

/-- The transaction after a sequence of `putGanyTx` calls, whatever each call
returned. -/
def putAll (env : Env) : Txn → List PutCall → Txn
  | txn, [] => txn
  | txn, c :: rest =>
    let t : Txn := if c.newTxn then ⟨txn.entries, 0, txn.maxBatchCount⟩ else txn
    putAll env (putGanyTx env c.now t c.tx c.blockTimestamp c.txIndex).1 rest

/-- Follows the words of the claim on main values: the history count read
big-endian from bytes 32..35 is at least one, and the value is long enough to
hold the 36-byte header and that many 64-byte IDs. -/
def mainValueWellFormed (value : Bytes) : Prop :=
  1 ≤ uint32 ((value.take 36).drop 32) ∧
    36 + 64 * uint32 ((value.take 36).drop 32) ≤ value.length

/-- A creation and then an overwrite of it with content byte `7`, the second in
a new transaction. -/
def demoCalls : List PutCall :=
  [⟨100, demoTx [1, 100, 50, 9, 18, 6], 110, 0, false⟩,
   ⟨100, demoTx (demoOverwriteBz 7), 111, 0, true⟩]

theorem copyAt_mid (a b c src : Bytes) (hi : Nat)
    (h : min (hi - a.length) src.length = b.length) :
    copyAt (a ++ b ++ c) a.length hi src = a ++ src.take b.length ++ c := by
  unfold copyAt
  rw [h]
  simp [List.take_append_eq_append_take, List.drop_append_eq_append_drop]

theorem copyAt_length (dst src : Bytes) (lo hi : Nat) (hl : lo ≤ hi) (hh : hi ≤ dst.length) :
    (copyAt dst lo hi src).length = dst.length := by
  unfold copyAt
  simp only [List.length_append, List.length_take, List.length_drop]
  omega

theorem zeros_add (m n : Nat) : zeros (m + n) = zeros m ++ zeros n := by
  unfold zeros
  exact List.replicate_add m n 0

theorem zeros_length (n : Nat) : (zeros n).length = n := by
  unfold zeros
  exact List.length_replicate n 0

theorem putUint64_length (v : Nat) : (putUint64 v).length = 8 := rfl

theorem putUint32_length (v : Nat) : (putUint32 v).length = 4 := rfl

theorem sum64_length (env : Env) (bz : Bytes) : (sum64 env bz).length = bz.length + 8 := by
  unfold sum64
  rw [List.length_append, putUint64_length]

theorem getMainKeyHead_length (env : Env) (b : Bulletin) :
    (getMainKeyHead env b).length = 14 := by
  have h0 : (zeros 14).length = 14 := zeros_length 14
  have h1 := copyAt_length (zeros 14) [toUint64 b.Typ % 256] 0 1 (by decide) (by rw [h0]; decide)
  have h2 := copyAt_length (copyAt (zeros 14) 0 1 [toUint64 b.Typ % 256])
    (sum64 env (b.GetTopicHash env)) 1 14 (by decide) (by rw [h1, h0])
  have h3 := copyAt_length (copyAt (copyAt (zeros 14) 0 1 [toUint64 b.Typ % 256]) 1 14
    (sum64 env (b.GetTopicHash env))) ((putUint64 (toUint64 b.Timestamp)).drop 3) 9 14
    (by decide) (by rw [h2, h1, h0])
  rw [h2, h1, h0] at h3
  exact h3

/-- The thirty-byte key built by three `copy` calls into a zeroed array:
the head, then eight bytes of serial number, then the leading eight bytes of
`sum64(from)`. -/
theorem key_layout (env : Env) (b : Bulletin) (sn : Bytes) (hsn : sn.length = 8) :
    copyAt (copyAt (copyAt (zeros 30) 0 30 (getMainKeyHead env b)) 14 30 sn) 22 30
        (sum64 env b.From) =
      getMainKeyHead env b ++ sn ++ (sum64 env b.From).take 8 := by
  have hh := getMainKeyHead_length env b
  have hs := sum64_length env b.From
  have e1 : copyAt (zeros 30) 0 30 (getMainKeyHead env b)
      = getMainKeyHead env b ++ zeros 8 ++ zeros 8 := by
    have := copyAt_mid [] (zeros 14) (zeros 16) (getMainKeyHead env b) 30
      (by rw [zeros_length, hh]; rfl)
    simp only [List.nil_append, List.length_nil, zeros_length] at this
    have h30 : zeros 30 = zeros 14 ++ zeros 16 := zeros_add 14 16
    have h16 : zeros 16 = zeros 8 ++ zeros 8 := zeros_add 8 8
    rw [h30, this, ← hh, List.take_length, List.append_assoc, ← h16]
  rw [e1]
  have e2 : copyAt (getMainKeyHead env b ++ zeros 8 ++ zeros 8) 14 30 sn
      = getMainKeyHead env b ++ sn ++ zeros 8 := by
    have := copyAt_mid (getMainKeyHead env b) (zeros 8) (zeros 8) sn 30
      (by rw [zeros_length, hh, hsn]; rfl)
    have t : sn.take 8 = sn := by rw [← hsn, List.take_length]
    rw [hh, zeros_length, t] at this
    exact this
  rw [e2]
  have := copyAt_mid (getMainKeyHead env b ++ sn) (zeros 8) [] (sum64 env b.From) 30
      (by rw [zeros_length, List.length_append, hh, hsn, hs]; omega)
  rw [List.append_nil, List.length_append, hh, hsn, zeros_length, List.append_nil] at this
  exact this

theorem createKey_eq (env : Env) (b : Bulletin) (sn : Bytes) (hsn : sn.length = 8) :
    createKey env b sn = getMainKeyHead env b ++ sn ++ (sum64 env b.From).take 8 :=
  key_layout env b sn hsn

theorem overwriteKey_eq (env : Env) (b : Bulletin) (hsn : b.OldSn.length = 8) :
    overwriteKey env b = getMainKeyHead env b ++ b.OldSn ++ (sum64 env b.From).take 8 :=
  key_layout env b b.OldSn hsn

theorem createKey_length (env : Env) (b : Bulletin) (sn : Bytes) (hsn : sn.length = 8) :
    (createKey env b sn).length = 30 := by
  rw [createKey_eq env b sn hsn]
  simp only [List.length_append, List.length_take, getMainKeyHead_length, hsn, sum64_length]
  omega


/-- The count field of a main value `hash || count || ids || envelope`. -/
theorem header_count (h c ids rest : Bytes) (hh : h.length = 32) (hc : c.length = 4) :
    ((h ++ c ++ ids ++ rest).take 36).drop 32 = c := by
  have h36 : (h ++ c).length = 36 := by rw [List.length_append, hh, hc]
  rw [List.append_assoc (h ++ c), ← h36, List.take_left, ← hh, List.drop_left]

/-- The envelope of a main value `hash || count || ids || envelope`. -/
theorem header_drop (h c ids rest : Bytes) (hh : h.length = 32) (hc : c.length = 4)
    (hi : ids.length = 64) : (h ++ c ++ ids ++ rest).drop (36 + 64) = rest := by
  have h100 : (h ++ c ++ ids).length = 36 + 64 := by
    rw [List.length_append, List.length_append, hh, hc, hi]
  rw [← h100, List.drop_left]

/-! ## Store lemmas -/

theorem rawLookup_insertEntry_self (k : Bytes) (e : Entry) (l : List (Bytes × Entry)) :
    rawLookup k (insertEntry k e l) = some e := by
  induction l with
  | nil => simp [insertEntry, rawLookup]
  | cons p rest ih =>
    obtain ⟨k0, e0⟩ := p
    unfold insertEntry
    by_cases h1 : k0 = k
    · simp [h1, rawLookup]
    · by_cases h2 : bytesLt k k0 = true
      · simp [h1, h2, rawLookup]
      · simp [h1, h2, rawLookup, ih]

theorem rawLookup_insertEntry_ne (k q : Bytes) (e : Entry) (l : List (Bytes × Entry))
    (h : q ≠ k) : rawLookup q (insertEntry k e l) = rawLookup q l := by
  induction l with
  | nil => simp [insertEntry, rawLookup, Ne.symm h]
  | cons p rest ih =>
    obtain ⟨k0, e0⟩ := p
    unfold insertEntry
    by_cases h1 : k0 = k
    · subst h1
      simp [rawLookup, Ne.symm h]
    · by_cases h2 : bytesLt k k0 = true
      · simp [h1, h2, rawLookup, Ne.symm h]
      · by_cases h3 : k0 = q
        · subst h3
          simp [h1, h2, rawLookup]
        · simp [h1, h2, rawLookup, h3, ih]

theorem rawLookup_eraseEntry_self (k : Bytes) (l : List (Bytes × Entry)) :
    rawLookup k (eraseEntry k l) = none := by
  induction l with
  | nil => simp [eraseEntry, rawLookup]
  | cons p rest ih =>
    obtain ⟨k0, e0⟩ := p
    unfold eraseEntry
    by_cases h1 : k0 = k
    · simp [h1, ih]
    · simp [h1, rawLookup, ih]

theorem rawLookup_eraseEntry_ne (k q : Bytes) (l : List (Bytes × Entry)) (h : q ≠ k) :
    rawLookup q (eraseEntry k l) = rawLookup q l := by
  induction l with
  | nil => simp [eraseEntry, rawLookup]
  | cons p rest ih =>
    obtain ⟨k0, e0⟩ := p
    unfold eraseEntry
    by_cases h1 : k0 = k
    · subst h1
      simp [rawLookup, Ne.symm h, ih]
    · by_cases h3 : k0 = q
      · subst h3
        simp [h1, rawLookup]
      · simp [h1, rawLookup, h3, ih]

theorem SetEntry_ok {txn txn1 : Txn} {now : Int} {key value : Bytes} {ttl : Int}
    (h : txn.SetEntry now key value ttl = .ok txn1) :
    txn1.entries = insertEntry key ⟨value, withTTL now ttl⟩ txn.entries ∧
      txn1.count = txn.count + 1 ∧ txn1.maxBatchCount = txn.maxBatchCount := by
  unfold Txn.SetEntry at h
  split at h
  · cases h
  · injection h with h
    subst h
    exact ⟨rfl, rfl, rfl⟩

theorem Delete_ok {txn txn1 : Txn} {key : Bytes} (h : txn.Delete key = .ok txn1) :
    txn1.entries = eraseEntry key txn.entries ∧
      txn1.count = txn.count + 1 ∧ txn1.maxBatchCount = txn.maxBatchCount := by
  unfold Txn.Delete at h
  split at h
  · cases h
  · injection h with h
    subst h
    exact ⟨rfl, rfl, rfl⟩

theorem afterWrite_ok {txn txn1 : Txn} {r : Except Err Txn}
    (h : afterWrite txn r = (txn1, none)) : r = .ok txn1 := by
  unfold afterWrite at h
  split at h
  · cases h
  · injection h with h1 h2
    rw [h1]

/-- What an accepted creation did: it passed the freshness rule, derived the
bulletin ID, and issued three writes, the main record first. -/
theorem createGanyTx_ok {env : Env} {now : Int} {txn txn1 : Txn} {ganyTx : Bytes}
    {blockTimestamp txIndex : Int} {b : Bulletin}
    (hb : GetBulletin env ganyTx = .ok b) (hc : b.ContentList.length ≠ 0)
    (h : createGanyTx env now txn ganyTx blockTimestamp txIndex = (txn1, none)) :
    ¬ (b.Typ < env.Bulletin_CENSOR ∧ b.Timestamp < wrap64 (blockTimestamp - MaxTimeDiff)) ∧
    ∃ id t1 t2 rangeValue rangeTtl,
      GetBulletinID env ganyTx = .ok id ∧
      txn.SetEntry now (createKey env b (mintSn blockTimestamp txIndex))
        (b.GetTopicHash env ++ [0, 0, 0, 1] ++ id ++ ganyTx)
        (toValidTTL now b.Duration) = .ok t1 ∧
      t1.SetEntry now
        ([MainKeyHeadByte] ++ (putUint64 (toUint64 blockTimestamp)).drop 3 ++
          (putUint64 (toUint64 txIndex)).drop 5)
        ((createKey env b (mintSn blockTimestamp txIndex)).take MainKeyHeadLen)
        (toValidTTL now b.Duration) = .ok t2 ∧
      t2.SetEntry now
        ([MainKeyHeadByte] ++ (putUint64 (toUint64 blockTimestamp)).drop 3 ++
          ((putUint64 (toUint64 txIndex)).take 7).drop 5)
        rangeValue rangeTtl = .ok txn1 := by
  unfold createGanyTx at h
  rw [hb] at h
  simp only [hc, if_false] at h
  split at h
  · cases h
  · rename_i hfresh
    refine ⟨hfresh, ?_⟩
    split at h
    · cases h
    · rename_i id hid
      split at h
      · cases h
      · rename_i t1 h1
        split at h
        · cases h
        · rename_i t2 h2
          split at h
          · exact ⟨id, t1, t2, _, _, hid, h1, h2, afterWrite_ok h⟩
          · cases h
          · split at h
            · exact ⟨id, t1, t2, _, _, hid, h1, h2, afterWrite_ok h⟩
            · exact ⟨id, t1, t2, _, _, hid, h1, h2, afterWrite_ok h⟩

theorem GetBulletinID_length {env : Env} {tx id : Bytes} (h : GetBulletinID env tx = .ok id) :
    id.length = 64 := by
  unfold GetBulletinID at h
  cases h1 : GetBulletinBytes tx with
  | error e => rw [h1] at h; cases h
  | ok bz1 =>
    rw [h1] at h
    cases h2 : GetAuthProofBytes tx with
    | error e => simp only [h2] at h; cases h
    | ok bz2 =>
      cases h3 : GetAuthChanllengeBytes tx with
      | error e => simp only [h2, h3] at h; cases h
      | ok bz3 =>
        simp only [h2, h3] at h
        injection h with h
        subst h
        have h0 : (zeros 64).length = 64 := zeros_length 64
        have ha : ∀ src : Bytes, (copyAt (zeros 64) 0 32 src).length = 64 := by
          intro src
          rw [copyAt_length _ _ _ _ (by decide) (by rw [h0]; decide), h0]
        rw [copyAt_length _ _ _ _ (by decide) (by rw [ha]), ha]

/-- With an empty `OldSn`, `putGanyTx` is `createGanyTx`. -/
theorem putGanyTx_create {env : Env} {now : Int} {txn : Txn} {ganyTx : Bytes}
    {blockTimestamp txIndex : Int} {b : Bulletin}
    (hb : GetBulletin env ganyTx = .ok b) (hnew : b.OldSn = []) :
    putGanyTx env now txn ganyTx blockTimestamp txIndex =
      createGanyTx env now txn ganyTx blockTimestamp txIndex := by
  unfold putGanyTx
  rw [hb]
  simp [hnew]

/-- With a non-empty `OldSn`, `putGanyTx` is `overwriteBulletin`. -/
theorem putGanyTx_overwrite {env : Env} {now : Int} {txn : Txn} {ganyTx : Bytes}
    {blockTimestamp txIndex : Int} {b : Bulletin}
    (hb : GetBulletin env ganyTx = .ok b) (hold : b.OldSn ≠ []) :
    putGanyTx env now txn ganyTx blockTimestamp txIndex =
      overwriteBulletin env now txn ganyTx := by
  unfold putGanyTx
  rw [hb]
  simp [hold]

/-! ## Creation -/

/-- C1: an accepted creation (empty `OldSn`, non-empty content list, `putGanyTx`
returning no error) delivered with `(blockTime, txIndex)` leaves, under the
30-byte key `getMainKeyHead(bulletin) || SN || sum64(from)[:8]` with `SN` the low
five bytes of `blockTime` and the low three bytes of `txIndex`, big-endian, the
value `SHA-256(topic) || u32be(1) || bulletinId(envelope) || envelope`; its
history count reads 1 and the bytes after the 36+64-byte header are the envelope. -/
theorem C1_creation_stores_main_record (env : Env) (now : Int) (txn txn1 : Txn)
    (ganyTx : Bytes) (blockTime txIndex : Int) (b : Bulletin)
    (hb : GetBulletin env ganyTx = .ok b)
    (hnew : b.OldSn = []) (hcontent : b.ContentList ≠ [])
    (hput : putGanyTx env now txn ganyTx blockTime txIndex = (txn1, none)) :
    ∃ id, GetBulletinID env ganyTx = .ok id ∧ id.length = 64 ∧
      ∀ sn key : Bytes,
        sn = [toUint64 blockTime / 2 ^ 32 % 256, toUint64 blockTime / 2 ^ 24 % 256,
              toUint64 blockTime / 2 ^ 16 % 256, toUint64 blockTime / 2 ^ 8 % 256,
              toUint64 blockTime % 256,
              toUint64 txIndex / 2 ^ 16 % 256, toUint64 txIndex / 2 ^ 8 % 256,
              toUint64 txIndex % 256] →
        key = getMainKeyHead env b ++ sn ++ (sum64 env b.From).take 8 →
        key.length = 30 ∧
        ∃ e, rawLookup key txn1.entries = some e ∧
          e.value = env.sha256 b.Topic ++ putUint32 1 ++ id ++ ganyTx ∧
          uint32 ((e.value.take 36).drop 32) = 1 ∧
          e.value.drop (36 + 64) = ganyTx := by
  rw [putGanyTx_create hb hnew] at hput
  have hc : b.ContentList.length ≠ 0 := by
    intro h0
    exact hcontent (List.length_eq_zero.mp h0)
  obtain ⟨_, id, t1, t2, rv, rt, hid, h1, h2, h3⟩ := createGanyTx_ok hb hc hput
  have hidlen := GetBulletinID_length hid
  refine ⟨id, hid, hidlen, ?_⟩
  intro sn key hsn hkey
  have hsn8 : sn.length = 8 := by rw [hsn]; rfl
  have hmint : mintSn blockTime txIndex = sn := by rw [hsn]; rfl
  rw [hmint, createKey_eq env b sn hsn8, ← hkey] at h1 h2
  have hklen : key.length = 30 := by
    rw [hkey]
    simp only [List.length_append, List.length_take, getMainKeyHead_length, hsn8, sum64_length]
    omega
  obtain ⟨e1, _, _⟩ := SetEntry_ok h1
  obtain ⟨e2, _, _⟩ := SetEntry_ok h2
  obtain ⟨e3, _, _⟩ := SetEntry_ok h3
  have hk2 : key ≠ [MainKeyHeadByte] ++ (putUint64 (toUint64 blockTime)).drop 3 ++
      (putUint64 (toUint64 txIndex)).drop 5 := by
    intro hEq
    have h9 := congrArg List.length hEq
    rw [hklen] at h9
    have : ([MainKeyHeadByte] ++ (putUint64 (toUint64 blockTime)).drop 3 ++
      (putUint64 (toUint64 txIndex)).drop 5).length = 9 := rfl
    omega
  have hk3 : key ≠ [MainKeyHeadByte] ++ (putUint64 (toUint64 blockTime)).drop 3 ++
      ((putUint64 (toUint64 txIndex)).take 7).drop 5 := by
    intro hEq
    have h8 := congrArg List.length hEq
    rw [hklen] at h8
    have : ([MainKeyHeadByte] ++ (putUint64 (toUint64 blockTime)).drop 3 ++
      ((putUint64 (toUint64 txIndex)).take 7).drop 5).length = 8 := rfl
    omega
  refine ⟨hklen, ⟨b.GetTopicHash env ++ [0, 0, 0, 1] ++ id ++ ganyTx,
    withTTL now (toValidTTL now b.Duration)⟩, ?_, ?_, ?_, ?_⟩
  · rw [e3, rawLookup_insertEntry_ne _ _ _ _ hk3, e2, rawLookup_insertEntry_ne _ _ _ _ hk2, e1,
      rawLookup_insertEntry_self]
  · rfl
  · have hsha : (b.GetTopicHash env).length = 32 := env.sha256_len b.Topic
    dsimp only
    rw [header_count _ [0, 0, 0, 1] _ _ hsha rfl]
    rfl
  · have hsha : (b.GetTopicHash env).length = 32 := env.sha256_len b.Topic
    dsimp only
    exact header_drop _ [0, 0, 0, 1] _ _ hsha rfl hidlen

theorem C1_creation_stores_main_record_witness :
    GetBulletin demoEnv (demoTx [1, 100, 50, 9, 18, 6]) = .ok demoBulletin ∧
    demoBulletin.OldSn = [] ∧ demoBulletin.ContentList ≠ [] ∧
    putGanyTx demoEnv 100 demoTxn (demoTx [1, 100, 50, 9, 18, 6]) 110 0 =
      ((putGanyTx demoEnv 100 demoTxn (demoTx [1, 100, 50, 9, 18, 6]) 110 0).1, none) ∧
    ∃ id, GetBulletinID demoEnv (demoTx [1, 100, 50, 9, 18, 6]) = .ok id ∧ id.length = 64 ∧
      ∀ sn key : Bytes,
        sn = [toUint64 110 / 2 ^ 32 % 256, toUint64 110 / 2 ^ 24 % 256,
              toUint64 110 / 2 ^ 16 % 256, toUint64 110 / 2 ^ 8 % 256,
              toUint64 110 % 256,
              toUint64 0 / 2 ^ 16 % 256, toUint64 0 / 2 ^ 8 % 256,
              toUint64 0 % 256] →
        key = getMainKeyHead demoEnv demoBulletin ++ sn ++ (sum64 demoEnv demoBulletin.From).take 8 →
        key.length = 30 ∧
        ∃ e, rawLookup key
            (putGanyTx demoEnv 100 demoTxn (demoTx [1, 100, 50, 9, 18, 6]) 110 0).1.entries = some e ∧
          e.value = demoEnv.sha256 demoBulletin.Topic ++ putUint32 1 ++ id ++
            demoTx [1, 100, 50, 9, 18, 6] ∧
          uint32 ((e.value.take 36).drop 32) = 1 ∧
          e.value.drop (36 + 64) = demoTx [1, 100, 50, 9, 18, 6] :=
  ⟨rfl, by decide, by decide, by decide,
    C1_creation_stores_main_record demoEnv 100 demoTxn _ (demoTx [1, 100, 50, 9, 18, 6]) 110 0
      demoBulletin rfl (by decide) (by decide) (by decide)⟩

/-- C2 (evaluation of the code at the failing input): in one block at time 110,
two creations with different topics are both accepted (codes 0, 0); after the
commit the URL of the first resolves to the empty envelope and the URL of the
second fails with `ErrMainKeyHeadNotFound`, because the slot-range bucket holds
only the head of the last creation. -/
theorem C2_urls_of_two_creations_in_one_block :
    (runBlock demoEnv 100 demoApp 1 110
        [demoTx [1, 100, 200, 9, 18, 6], demoTx [1, 100, 201, 9, 52, 6]]).2 = [0, 0] ∧
    getGanyTx 100 (runBlock demoEnv 100 demoApp 1 110
        [demoTx [1, 100, 200, 9, 18, 6], demoTx [1, 100, 201, 9, 52, 6]]).1.view
        (ganyUrl demoEnv [18] 110 0) = .ok [] ∧
    getGanyTx 100 (runBlock demoEnv 100 demoApp 1 110
        [demoTx [1, 100, 200, 9, 18, 6], demoTx [1, 100, 201, 9, 52, 6]]).1.view
        (ganyUrl demoEnv [52] 110 1) = .error .ErrMainKeyHeadNotFound ∧
    getGanyTx 100 (runBlock demoEnv 100 demoApp 1 110
        [demoTx [1, 100, 200, 9, 18, 6]]).1.view
        (ganyUrl demoEnv [18] 110 0) = .ok (demoTx [1, 100, 200, 9, 18, 6]) := by
  refine ⟨by decide, ?_, ?_, ?_⟩ <;> rfl

/-! ## Overwrite -/

theorem slice_ok {b s : Bytes} {lo hi : Nat} (h : slice b lo hi = .ok s) :
    lo ≤ hi ∧ hi ≤ b.length ∧ s = (b.take hi).drop lo := by
  unfold slice at h
  split at h
  · rename_i hc
    injection h with h
    exact ⟨hc.1, hc.2, h.symm⟩
  · cases h

theorem slice_of_le {b : Bytes} {lo hi : Nat} (h1 : lo ≤ hi) (h2 : hi ≤ b.length) :
    slice b lo hi = .ok ((b.take hi).drop lo) := by
  unfold slice
  rw [if_pos ⟨h1, h2⟩]

/-- What a successful `getOldVersionOfGanyTx` found. -/
theorem getOldVersionOfGanyTx_ok {env : Env} {now : Int} {txn : Txn} {newTx : Bytes}
    {b : Bulletin} {idHis key oldTx : Bytes}
    (hb : GetBulletin env newTx = .ok b)
    (h : getOldVersionOfGanyTx env now txn newTx = .ok (idHis, key, oldTx)) :
    ∃ item id,
      key = overwriteKey env b ∧ txn.Get now key = .ok item ∧
      GetBulletinID env newTx = .ok id ∧
      36 ≤ item.value.length ∧
      36 + uint32 ((item.value.take 36).drop 32) * 64 ≤ item.value.length ∧
      historyLoop item.value id (uint32 ((item.value.take 36).drop 32)) 36 = .ok true ∧
      idHis = (item.value.take (36 + uint32 ((item.value.take 36).drop 32) * 64)).drop 36 ∧
      oldTx = item.value.drop (36 + uint32 ((item.value.take 36).drop 32) * 64) := by
  unfold getOldVersionOfGanyTx at h
  rw [hb] at h
  simp only at h
  cases hg : txn.Get now (overwriteKey env b) with
  | error e => rw [hg] at h; cases h
  | ok item =>
    rw [hg] at h
    cases hid : GetBulletinID env newTx with
    | error e => simp only [hid] at h; cases h
    | ok id =>
      simp only [hid] at h
      unfold historyContainsId at h
      cases hc : slice item.value TopicHashEnd HistoryCountEnd with
      | error e => simp only [hc] at h; cases h
      | ok c =>
        simp only [hc] at h
        obtain ⟨_, hc2, hc3⟩ := slice_ok hc
        cases hl : historyLoop item.value id (uint32 c) HistoryCountEnd with
        | error e => simp only [hl] at h; cases h
        | ok found =>
          simp only [hl] at h
          cases found with
          | false => simp at h
          | true =>
            simp only [Bool.not_true, Bool.false_eq_true, if_false] at h
            cases hs1 : slice item.value HistoryCountEnd
                (HistoryCountEnd + uint32 c * BulletinIdLen) with
            | error e => simp only [hs1] at h; cases h
            | ok s1 =>
              simp only [hs1] at h
              obtain ⟨_, hs12, hs13⟩ := slice_ok hs1
              cases hs2 : sliceFrom item.value
                  (HistoryCountEnd + uint32 c * BulletinIdLen) with
              | error e => simp only [hs2] at h; cases h
              | ok s2 =>
                simp only [hs2] at h
                obtain ⟨_, _, hs23⟩ := slice_ok hs2
                injection h with h
                injection h with h1 h
                injection h with h2 h3
                rw [List.take_length] at hs23
                subst hc3
                refine ⟨item, id, h2.symm, ?_, rfl, hc2, hs12, hl, ?_, ?_⟩
                · rw [← h2]; exact hg
                · rw [← h1]; exact hs13
                · rw [← h3]; exact hs23

theorem putUint32_toUint32 (n : Nat) : putUint32 (toUint32 n) = putUint32 n := by
  simp only [putUint32, toUint32, List.cons.injEq, and_true]
  refine ⟨?_, ?_, ?_, ?_⟩ <;> omega

theorem uint32_putUint32 (n : Nat) (h : n < 2 ^ 32) : uint32 (putUint32 n) = n := by
  simp only [putUint32, uint32, List.getD_cons_zero, List.getD_cons_succ]
  omega

/-- The 36-byte head of a main value written by `overwriteBulletin`. -/
theorem value_head (h c : Bytes) (hh : h.length = 32) (hc : c.length = 4) :
    copyAt (copyAt (zeros (32 + 4)) 0 32 h) 32 36 c = h ++ c := by
  have e1 : copyAt (zeros (32 + 4)) 0 32 h = h ++ zeros 4 := by
    have := copyAt_mid [] (zeros 32) (zeros 4) h 32 (by rw [zeros_length, hh]; rfl)
    have t : h.take 32 = h := by rw [← hh, List.take_length]
    rw [zeros_length, t] at this
    rw [zeros_add 32 4]
    exact this
  rw [e1]
  have := copyAt_mid h (zeros 4) [] c 36 (by rw [zeros_length, hh, hc]; rfl)
  have t : c.take 4 = c := by rw [← hc, List.take_length]
  rw [List.append_nil, hh, zeros_length, t, List.append_nil] at this
  exact this

/-- What an accepted overwrite did: it found the old version, the stored
bulletin is compatible, and it issued exactly one write on the recovered key. -/
theorem overwriteBulletin_ok {env : Env} {now : Int} {txn txn1 : Txn} {newTx : Bytes}
    {b : Bulletin} (hb : GetBulletin env newTx = .ok b)
    (h : overwriteBulletin env now txn newTx = (txn1, none)) :
    ∃ idHis key oldTx old,
      getOldVersionOfGanyTx env now txn newTx = .ok (idHis, key, oldTx) ∧
      oldTx ≠ [] ∧ GetBulletin env oldTx = .ok old ∧ old.CanBeOverwrittenBy b = true ∧
      (b.ContentList.length ≠ 0 →
        ∃ newId, GetBulletinID env newTx = .ok newId ∧
          txn.SetEntry now key
            (copyAt (copyAt (zeros (32 + 4)) 0 32 (b.GetTopicHash env)) 32 36
                (putUint32 (toUint32 (idHis.length / BulletinIdLen + 1))) ++ idHis ++ newId ++ newTx)
            (toValidTTL now b.Duration) = .ok txn1) ∧
      (b.ContentList.length = 0 → txn.Delete key = .ok txn1) := by
  unfold overwriteBulletin at h
  cases hg : getOldVersionOfGanyTx env now txn newTx with
  | error e => rw [hg] at h; cases h
  | ok r =>
    obtain ⟨idHis, key, oldTx⟩ := r
    rw [hg] at h
    simp only at h
    by_cases hnil : oldTx = []
    · rw [if_pos hnil] at h; cases h
    · rw [if_neg hnil] at h
      cases ho : GetBulletin env oldTx with
      | error e => rw [ho] at h; cases h
      | ok old =>
        rw [ho] at h
        simp only [hb] at h
        cases hcan : old.CanBeOverwrittenBy b with
        | false => simp [hcan] at h
        | true =>
          simp only [hcan, Bool.not_true, Bool.false_eq_true, if_false] at h
          refine ⟨idHis, key, oldTx, old, rfl, hnil, ho, hcan, ?_, ?_⟩
          · intro hc
            rw [if_pos hc] at h
            cases hid : GetBulletinID env newTx with
            | error e => simp only [hid] at h; cases h
            | ok newId =>
              simp only [hid] at h
              exact ⟨newId, rfl, afterWrite_ok h⟩
          · intro hc
            rw [if_neg (by rw [hc]; exact fun hh => hh rfl)] at h
            exact afterWrite_ok h

/-- C3: an accepted overwrite with a non-empty content list replaces the value
at the recovered main key (`mainKeyHead(new) || oldSn || sum64(new.from)[:8]` for
an 8-byte `oldSn`) by `SHA-256(new.topic) || u32be(oldCount+1) || oldIdList ||
newId || newEnvelope`: the history count is one more than the stored one, the
ID list is 64 bytes longer, the envelope slice is the new envelope, and that
one write is the only change of the store (nothing is written under the new
transaction's own serial number). -/
theorem C3_overwrite_replaces_main_value (env : Env) (now : Int) (txn txn1 : Txn)
    (newTx : Bytes) (blockTime txIndex : Int) (newB : Bulletin)
    (hb : GetBulletin env newTx = .ok newB)
    (hold : newB.OldSn ≠ []) (hcontent : newB.ContentList ≠ [])
    (hput : putGanyTx env now txn newTx blockTime txIndex = (txn1, none)) :
    ∃ old newId,
      txn.Get now (overwriteKey env newB) = .ok old ∧
      GetBulletinID env newTx = .ok newId ∧ newId.length = 64 ∧
      (newB.OldSn.length = 8 → overwriteKey env newB =
        getMainKeyHead env newB ++ newB.OldSn ++ (sum64 env newB.From).take 8) ∧
      ∀ oldCount : Nat, ∀ oldIdList : Bytes,
        oldCount = uint32 ((old.value.take 36).drop 32) →
        oldIdList = (old.value.take (36 + 64 * oldCount)).drop 36 →
        oldIdList.length = 64 * oldCount ∧
        (oldIdList ++ newId).length = oldIdList.length + 64 ∧
        txn1.entries =
          insertEntry (overwriteKey env newB)
            ⟨env.sha256 newB.Topic ++ putUint32 (oldCount + 1) ++ (oldIdList ++ newId) ++ newTx,
              withTTL now (toValidTTL now newB.Duration)⟩ txn.entries ∧
        (old.value.length < 2 ^ 32 → uint32 (putUint32 (oldCount + 1)) = oldCount + 1) ∧
        (env.sha256 newB.Topic ++ putUint32 (oldCount + 1) ++ (oldIdList ++ newId) ++ newTx).drop
          (36 + 64 * (oldCount + 1)) = newTx ∧
        ∀ k, k ≠ overwriteKey env newB → rawLookup k txn1.entries = rawLookup k txn.entries := by
  rw [putGanyTx_overwrite hb hold] at hput
  have hc : newB.ContentList.length ≠ 0 := by
    intro h0
    exact hcontent (List.length_eq_zero.mp h0)
  obtain ⟨idHis, key, oldTx, oldB, hget, _, _, _, hset, _⟩ := overwriteBulletin_ok hb hput
  obtain ⟨newId, hid, hset⟩ := hset hc
  obtain ⟨item, id, hkey, hitem, hid2, h36, hlen, _, hidHis, _⟩ :=
    getOldVersionOfGanyTx_ok hb hget
  have hidlen := GetBulletinID_length hid
  refine ⟨item, newId, by rw [← hkey]; exact hitem, hid, hidlen,
    fun h8 => overwriteKey_eq env newB h8, ?_⟩
  intro oldCount oldIdList hcount hlist
  have hmul : 36 + uint32 ((item.value.take 36).drop 32) * 64 = 36 + 64 * oldCount := by
    rw [hcount]; omega
  rw [hmul] at hlen hidHis
  rw [← hlist] at hidHis
  have hl : oldIdList.length = 64 * oldCount := by
    rw [hlist, List.length_drop, List.length_take]
    omega
  have hsha : (newB.GetTopicHash env).length = 32 := env.sha256_len newB.Topic
  have hdiv : idHis.length / BulletinIdLen + 1 = oldCount + 1 := by
    rw [hidHis, hl]
    show 64 * oldCount / 64 + 1 = oldCount + 1
    omega
  rw [hdiv, putUint32_toUint32, value_head _ _ hsha (putUint32_length _), hidHis, hkey] at hset
  obtain ⟨e1, _, _⟩ := SetEntry_ok hset
  refine ⟨hl, by rw [List.length_append, hidlen], ?_, ?_, ?_, ?_⟩
  · rw [e1]
    simp only [Bulletin.GetTopicHash, List.append_assoc]
  · intro hsz
    apply uint32_putUint32
    omega
  · have h100 : (env.sha256 newB.Topic ++ putUint32 (oldCount + 1) ++ (oldIdList ++ newId)).length
        = 36 + 64 * (oldCount + 1) := by
      rw [List.length_append, List.length_append, List.length_append, env.sha256_len,
        putUint32_length, hl, hidlen]
      omega
    rw [← h100, List.drop_left]
  · intro k hk
    rw [e1, rawLookup_insertEntry_ne _ _ _ _ hk]

theorem overwriteKey_length (env : Env) (b : Bulletin) : (overwriteKey env b).length = 30 := by
  have h0 : (zeros 30).length = 30 := zeros_length 30
  have ha : ∀ s : Bytes, (copyAt (zeros 30) 0 30 s).length = 30 := by
    intro s
    rw [copyAt_length _ _ _ _ (by decide) (by rw [h0]), h0]
  have hb : ∀ s t : Bytes, (copyAt (copyAt (zeros 30) 0 30 s) 14 30 t).length = 30 := by
    intro s t
    rw [copyAt_length _ _ _ _ (by decide) (by rw [ha]), ha]
  show (copyAt (copyAt (copyAt (zeros 30) 0 30 (getMainKeyHead env b)) 14 30 b.OldSn) 22 30
    (sum64 env b.From)).length = 30
  rw [copyAt_length _ _ _ _ (by decide) (by rw [hb]), hb]

/-- C4: an accepted overwrite whose content list is empty deletes the main record
at the recovered main key, so that a later read of that key reports
key-not-found, and changes no other record; in particular the by-SN index
record `220 || oldSn` and the slot-range bucket `220 || oldSn[:7]` of the
original creation are as before. -/
theorem C4_overwrite_with_empty_content_deletes (env : Env) (now : Int) (txn txn1 : Txn)
    (newTx : Bytes) (blockTime txIndex : Int) (newB : Bulletin)
    (hb : GetBulletin env newTx = .ok newB)
    (hold : newB.OldSn ≠ []) (hcontent : newB.ContentList = [])
    (hput : putGanyTx env now txn newTx blockTime txIndex = (txn1, none)) :
    (newB.OldSn.length = 8 → overwriteKey env newB =
      getMainKeyHead env newB ++ newB.OldSn ++ (sum64 env newB.From).take 8) ∧
    (∃ old, txn.Get now (overwriteKey env newB) = .ok old) ∧
    txn1.entries = eraseEntry (overwriteKey env newB) txn.entries ∧
    (∀ t : Int, txn1.Get t (overwriteKey env newB) = .error .badgerErrKeyNotFound) ∧
    (∀ k, k ≠ overwriteKey env newB → rawLookup k txn1.entries = rawLookup k txn.entries) ∧
    (newB.OldSn.length = 8 →
      rawLookup ([MainKeyHeadByte] ++ newB.OldSn) txn1.entries =
        rawLookup ([MainKeyHeadByte] ++ newB.OldSn) txn.entries ∧
      rawLookup ([MainKeyHeadByte] ++ newB.OldSn.take 7) txn1.entries =
        rawLookup ([MainKeyHeadByte] ++ newB.OldSn.take 7) txn.entries) := by
  rw [putGanyTx_overwrite hb hold] at hput
  have hc : newB.ContentList.length = 0 := by rw [hcontent]; rfl
  obtain ⟨idHis, key, oldTx, oldB, hget, _, _, _, _, hdel⟩ := overwriteBulletin_ok hb hput
  have hdel := hdel hc
  obtain ⟨item, id, hkey, hitem, _⟩ := getOldVersionOfGanyTx_ok hb hget
  rw [hkey] at hdel hitem
  obtain ⟨e1, _, _⟩ := Delete_ok hdel
  have hframe : ∀ k, k ≠ overwriteKey env newB →
      rawLookup k txn1.entries = rawLookup k txn.entries := by
    intro k hk
    rw [e1, rawLookup_eraseEntry_ne _ _ _ hk]
  have hklen := overwriteKey_length env newB
  refine ⟨fun h8 => overwriteKey_eq env newB h8, ⟨item, hitem⟩, e1, ?_, hframe, ?_⟩
  · intro t
    unfold Txn.Get
    rw [e1, rawLookup_eraseEntry_self]
  · intro h8
    constructor
    · apply hframe
      intro hEq
      have := congrArg List.length hEq
      rw [hklen, List.length_append, h8] at this
      exact absurd this (by decide)
    · apply hframe
      intro hEq
      have := congrArg List.length hEq
      rw [hklen, List.length_append, List.length_take, h8] at this
      exact absurd this (by decide)

/-- C5: a creation (empty `OldSn`) whose content list is empty returns success
and leaves the transaction as it was, whatever the store, the block time, the
transaction index and the timestamp of the bulletin are. -/
theorem C5_creation_with_empty_content_is_noop (env : Env) (now : Int) (txn : Txn)
    (ganyTx : Bytes) (blockTime txIndex : Int) (b : Bulletin)
    (hb : GetBulletin env ganyTx = .ok b)
    (hnew : b.OldSn = []) (hcontent : b.ContentList = []) :
    putGanyTx env now txn ganyTx blockTime txIndex = (txn, none) := by
  rw [putGanyTx_create hb hnew]
  unfold createGanyTx
  rw [hb]
  simp [hcontent]

set_option maxRecDepth 100000 in
theorem C3_overwrite_replaces_main_value_witness :
    GetBulletin demoEnv (demoTx (demoOverwriteBz 7)) = .ok (demoOverwrite 7) ∧
    (demoOverwrite 7).OldSn ≠ [] ∧ (demoOverwrite 7).ContentList ≠ [] ∧
    putGanyTx demoEnv 100 demoTxn1 (demoTx (demoOverwriteBz 7)) 110 1 =
      ((putGanyTx demoEnv 100 demoTxn1 (demoTx (demoOverwriteBz 7)) 110 1).1, none) ∧
    ∃ old newId,
      demoTxn1.Get 100 (overwriteKey demoEnv (demoOverwrite 7)) = .ok old ∧
      GetBulletinID demoEnv (demoTx (demoOverwriteBz 7)) = .ok newId ∧ newId.length = 64 ∧
      ((demoOverwrite 7).OldSn.length = 8 → overwriteKey demoEnv (demoOverwrite 7) =
        getMainKeyHead demoEnv (demoOverwrite 7) ++ (demoOverwrite 7).OldSn ++
          (sum64 demoEnv (demoOverwrite 7).From).take 8) ∧
      ∀ oldCount : Nat, ∀ oldIdList : Bytes,
        oldCount = uint32 ((old.value.take 36).drop 32) →
        oldIdList = (old.value.take (36 + 64 * oldCount)).drop 36 →
        oldIdList.length = 64 * oldCount ∧
        (oldIdList ++ newId).length = oldIdList.length + 64 ∧
        (putGanyTx demoEnv 100 demoTxn1 (demoTx (demoOverwriteBz 7)) 110 1).1.entries =
          insertEntry (overwriteKey demoEnv (demoOverwrite 7))
            ⟨demoEnv.sha256 (demoOverwrite 7).Topic ++ putUint32 (oldCount + 1) ++
                (oldIdList ++ newId) ++ demoTx (demoOverwriteBz 7),
              withTTL 100 (toValidTTL 100 (demoOverwrite 7).Duration)⟩ demoTxn1.entries ∧
        (old.value.length < 2 ^ 32 → uint32 (putUint32 (oldCount + 1)) = oldCount + 1) ∧
        (demoEnv.sha256 (demoOverwrite 7).Topic ++ putUint32 (oldCount + 1) ++
            (oldIdList ++ newId) ++ demoTx (demoOverwriteBz 7)).drop
          (36 + 64 * (oldCount + 1)) = demoTx (demoOverwriteBz 7) ∧
        ∀ k, k ≠ overwriteKey demoEnv (demoOverwrite 7) →
          rawLookup k (putGanyTx demoEnv 100 demoTxn1 (demoTx (demoOverwriteBz 7)) 110 1).1.entries =
            rawLookup k demoTxn1.entries :=
  ⟨rfl, by decide, by decide, rfl,
    C3_overwrite_replaces_main_value demoEnv 100 demoTxn1 _ (demoTx (demoOverwriteBz 7)) 110 1
      (demoOverwrite 7) rfl (by decide) (by decide) rfl⟩

set_option maxRecDepth 100000 in
theorem C4_overwrite_with_empty_content_deletes_witness :
    GetBulletin demoEnv (demoTx (demoOverwriteBz 0)) = .ok (demoOverwrite 0) ∧
    (demoOverwrite 0).OldSn ≠ [] ∧ (demoOverwrite 0).ContentList = [] ∧
    putGanyTx demoEnv 100 demoTxn1 (demoTx (demoOverwriteBz 0)) 110 1 =
      ((putGanyTx demoEnv 100 demoTxn1 (demoTx (demoOverwriteBz 0)) 110 1).1, none) ∧
    ((demoOverwrite 0).OldSn.length = 8 → overwriteKey demoEnv (demoOverwrite 0) =
      getMainKeyHead demoEnv (demoOverwrite 0) ++ (demoOverwrite 0).OldSn ++
        (sum64 demoEnv (demoOverwrite 0).From).take 8) ∧
    (∃ old, demoTxn1.Get 100 (overwriteKey demoEnv (demoOverwrite 0)) = .ok old) ∧
    (putGanyTx demoEnv 100 demoTxn1 (demoTx (demoOverwriteBz 0)) 110 1).1.entries =
      eraseEntry (overwriteKey demoEnv (demoOverwrite 0)) demoTxn1.entries ∧
    (∀ t : Int, (putGanyTx demoEnv 100 demoTxn1 (demoTx (demoOverwriteBz 0)) 110 1).1.Get t
      (overwriteKey demoEnv (demoOverwrite 0)) = .error .badgerErrKeyNotFound) ∧
    (∀ k, k ≠ overwriteKey demoEnv (demoOverwrite 0) →
      rawLookup k (putGanyTx demoEnv 100 demoTxn1 (demoTx (demoOverwriteBz 0)) 110 1).1.entries =
        rawLookup k demoTxn1.entries) ∧
    ((demoOverwrite 0).OldSn.length = 8 →
      rawLookup ([MainKeyHeadByte] ++ (demoOverwrite 0).OldSn)
          (putGanyTx demoEnv 100 demoTxn1 (demoTx (demoOverwriteBz 0)) 110 1).1.entries =
        rawLookup ([MainKeyHeadByte] ++ (demoOverwrite 0).OldSn) demoTxn1.entries ∧
      rawLookup ([MainKeyHeadByte] ++ (demoOverwrite 0).OldSn.take 7)
          (putGanyTx demoEnv 100 demoTxn1 (demoTx (demoOverwriteBz 0)) 110 1).1.entries =
        rawLookup ([MainKeyHeadByte] ++ (demoOverwrite 0).OldSn.take 7) demoTxn1.entries) :=
  ⟨rfl, by decide, by decide, rfl,
    C4_overwrite_with_empty_content_deletes demoEnv 100 demoTxn1 _ (demoTx (demoOverwriteBz 0))
      110 1 (demoOverwrite 0) rfl (by decide) (by decide) rfl⟩

theorem C5_creation_with_empty_content_is_noop_witness :
    GetBulletin demoEnv (demoTx [1, 1, 50, 0, 18, 6]) =
      .ok { demoBulletin with Timestamp := 1, ContentList := [] } ∧
    ({ demoBulletin with Timestamp := 1, ContentList := [] } : Bulletin).OldSn = [] ∧
    ({ demoBulletin with Timestamp := 1, ContentList := [] } : Bulletin).ContentList = [] ∧
    putGanyTx demoEnv 100 demoTxn1 (demoTx [1, 1, 50, 0, 18, 6]) 1000 3 = (demoTxn1, none) :=
  ⟨rfl, rfl, rfl,
    C5_creation_with_empty_content_is_noop demoEnv 100 demoTxn1 (demoTx [1, 1, 50, 0, 18, 6])
      1000 3 { demoBulletin with Timestamp := 1, ContentList := [] } rfl rfl rfl⟩

/-! ## Errors of the building blocks -/

theorem wrap64_of_range (x : Int) (h1 : -2 ^ 63 ≤ x) (h2 : x < 2 ^ 63) : wrap64 x = x := by
  unfold wrap64
  have e63 : (2 : Int) ^ 63 = 9223372036854775808 := by norm_num
  have e64 : (2 : Int) ^ 64 = 18446744073709551616 := by norm_num
  rw [e63] at h1 h2 ⊢
  rw [e64]
  omega

theorem GetBytesSlice_err {tx : Bytes} {a b : Nat} {e : Err}
    (h : GetBytesSlice tx a b = .error e) : e = .ErrInvalidTxBytes ∨ e = .panic := by
  unfold GetBytesSlice slice at h
  split at h
  · injection h with h; exact Or.inl h.symm
  · split at h
    · cases h
    · injection h with h; exact Or.inr h.symm

theorem GetBulletinBytes_err {tx : Bytes} {e : Err}
    (h : GetBulletinBytes tx = .error e) : e = .ErrInvalidTxBytes ∨ e = .panic := by
  unfold GetBulletinBytes at h
  split at h
  · injection h with h; exact Or.inl h.symm
  · simp only at h
    split at h
    · cases h
    · exact GetBytesSlice_err h

theorem GetAuthProofBytes_err {tx : Bytes} {e : Err}
    (h : GetAuthProofBytes tx = .error e) : e = .ErrInvalidTxBytes ∨ e = .panic := by
  unfold GetAuthProofBytes at h
  split at h
  · injection h with h; exact Or.inl h.symm
  · simp only at h
    split at h
    · cases h
    · exact GetBytesSlice_err h

theorem GetAuthChanllengeBytes_err {tx : Bytes} {e : Err}
    (h : GetAuthChanllengeBytes tx = .error e) : e = .ErrInvalidTxBytes ∨ e = .panic := by
  unfold GetAuthChanllengeBytes at h
  split at h
  · injection h with h; exact Or.inl h.symm
  · simp only at h
    split at h
    · cases h
    · exact GetBytesSlice_err h

theorem GetBulletinID_err {env : Env} {tx : Bytes} {e : Err}
    (h : GetBulletinID env tx = .error e) : e = .ErrInvalidTxBytes ∨ e = .panic := by
  unfold GetBulletinID at h
  cases h1 : GetBulletinBytes tx with
  | error e1 =>
    rw [h1] at h
    injection h with h
    rw [← h]
    exact GetBulletinBytes_err h1
  | ok bz1 =>
    rw [h1] at h
    cases h2 : GetAuthProofBytes tx with
    | error e2 =>
      simp only [h2] at h
      injection h with h
      rw [← h]
      exact GetAuthProofBytes_err h2
    | ok bz2 =>
      cases h3 : GetAuthChanllengeBytes tx with
      | error e3 =>
        simp only [h2, h3] at h
        injection h with h
        rw [← h]
        exact GetAuthChanllengeBytes_err h3
      | ok bz3 => simp only [h2, h3] at h; cases h

theorem SetEntry_err {txn : Txn} {now : Int} {key value : Bytes} {ttl : Int} {e : Err}
    (h : txn.SetEntry now key value ttl = .error e) : e = .badgerErrTxnTooBig := by
  unfold Txn.SetEntry at h
  split at h
  · injection h with h; exact h.symm
  · cases h

theorem Delete_err {txn : Txn} {key : Bytes} {e : Err}
    (h : txn.Delete key = .error e) : e = .badgerErrTxnTooBig := by
  unfold Txn.Delete at h
  split at h
  · injection h with h; exact h.symm
  · cases h

theorem Get_err {txn : Txn} {now : Int} {key : Bytes} {e : Err}
    (h : txn.Get now key = .error e) : e = .badgerErrKeyNotFound := by
  unfold Txn.Get at h
  split at h
  · injection h with h; exact h.symm
  · split at h
    · injection h with h; exact h.symm
    · cases h

theorem afterWrite_SetEntry_err {txn t : Txn} {now : Int} {key value : Bytes} {ttl : Int}
    {e : Err} (h : afterWrite txn (txn.SetEntry now key value ttl) = (t, some e)) :
    e = .badgerErrTxnTooBig := by
  unfold afterWrite at h
  split at h
  · rename_i e1 h1
    injection h with _ h2
    injection h2 with h2
    rw [← h2]
    exact SetEntry_err h1
  · cases h

/-- The errors a creation that passed the freshness rule can still return. -/
theorem createGanyTx_fresh_err {env : Env} {now : Int} {txn t : Txn} {ganyTx : Bytes}
    {blockTimestamp txIndex : Int} {b : Bulletin} {e : Err}
    (hb : GetBulletin env ganyTx = .ok b) (hc : b.ContentList.length ≠ 0)
    (hfresh : ¬ (b.Typ < env.Bulletin_CENSOR ∧
      b.Timestamp < wrap64 (blockTimestamp - MaxTimeDiff)))
    (h : createGanyTx env now txn ganyTx blockTimestamp txIndex = (t, some e)) :
    e = .ErrInvalidTxBytes ∨ e = .panic ∨ e = .badgerErrTxnTooBig := by
  unfold createGanyTx at h
  rw [hb] at h
  simp only [hc, if_false, hfresh] at h
  split at h
  · rename_i e1 h1
    injection h with _ h2
    injection h2 with h2
    rw [← h2]
    rcases GetBulletinID_err h1 with h3 | h3
    · exact Or.inl h3
    · exact Or.inr (Or.inl h3)
  · split at h
    · rename_i e1 h1
      injection h with _ h2
      injection h2 with h2
      rw [← h2]
      exact Or.inr (Or.inr (SetEntry_err h1))
    · split at h
      · rename_i e1 h1
        injection h with _ h2
        injection h2 with h2
        rw [← h2]
        exact Or.inr (Or.inr (SetEntry_err h1))
      · split at h
        · exact Or.inr (Or.inr (afterWrite_SetEntry_err h))
        · rename_i e1 hne h1
          exact absurd (Get_err h1) hne
        · split at h
          · exact Or.inr (Or.inr (afterWrite_SetEntry_err h))
          · exact Or.inr (Or.inr (afterWrite_SetEntry_err h))

/-- C6: for a creation with a non-empty content list (block time in the range
where `blockTime - 180` does not wrap), `putGanyTx` fails with
`ErrTimestampTooLong` exactly when `type < CENSOR` and
`timestamp < blockTime - 180`; so `timestamp = blockTime - 180` is not rejected
for staleness, `timestamp = blockTime - 181` is, a CENSOR bulletin never is; and
when it fails this way the transaction is as before (no main record written). -/
theorem C6_stale_creation_rejected (env : Env) (now : Int) (txn : Txn) (ganyTx : Bytes)
    (blockTime txIndex : Int) (b : Bulletin)
    (hb : GetBulletin env ganyTx = .ok b)
    (hnew : b.OldSn = []) (hcontent : b.ContentList ≠ [])
    (hlo : -2 ^ 63 + 180 ≤ blockTime) (hhi : blockTime < 2 ^ 63) :
    ((putGanyTx env now txn ganyTx blockTime txIndex).2 = some .ErrTimestampTooLong ↔
      (b.Typ < env.Bulletin_CENSOR ∧ b.Timestamp < blockTime - 180)) ∧
    ((putGanyTx env now txn ganyTx blockTime txIndex).2 = some .ErrTimestampTooLong →
      (putGanyTx env now txn ganyTx blockTime txIndex).1 = txn) ∧
    (b.Timestamp = blockTime - 180 →
      (putGanyTx env now txn ganyTx blockTime txIndex).2 ≠ some .ErrTimestampTooLong) ∧
    (b.Typ < env.Bulletin_CENSOR → b.Timestamp = blockTime - 181 →
      putGanyTx env now txn ganyTx blockTime txIndex = (txn, some .ErrTimestampTooLong)) ∧
    (b.Typ = env.Bulletin_CENSOR →
      (putGanyTx env now txn ganyTx blockTime txIndex).2 ≠ some .ErrTimestampTooLong) := by
  have hc : b.ContentList.length ≠ 0 := by
    intro h0
    exact hcontent (List.length_eq_zero.mp h0)
  have hw : wrap64 (blockTime - MaxTimeDiff) = blockTime - 180 := by
    unfold MaxTimeDiff
    apply wrap64_of_range <;> omega
  have hstale : (b.Typ < env.Bulletin_CENSOR ∧ b.Timestamp < blockTime - 180) →
      putGanyTx env now txn ganyTx blockTime txIndex = (txn, some .ErrTimestampTooLong) := by
    intro hs
    rw [putGanyTx_create hb hnew]
    unfold createGanyTx
    rw [hb]
    simp only [hc, if_false, hw, hs, and_self, if_true]
  have hfresh : ¬ (b.Typ < env.Bulletin_CENSOR ∧ b.Timestamp < blockTime - 180) →
      (putGanyTx env now txn ganyTx blockTime txIndex).2 ≠ some .ErrTimestampTooLong := by
    intro hs hEq
    rw [putGanyTx_create hb hnew] at hEq
    have hpair : createGanyTx env now txn ganyTx blockTime txIndex =
        ((createGanyTx env now txn ganyTx blockTime txIndex).1, some .ErrTimestampTooLong) := by
      rw [← hEq]
    rw [← hw] at hs
    rcases createGanyTx_fresh_err hb hc hs hpair with h | h | h <;> cases h
  have hiff : (putGanyTx env now txn ganyTx blockTime txIndex).2 = some .ErrTimestampTooLong ↔
      (b.Typ < env.Bulletin_CENSOR ∧ b.Timestamp < blockTime - 180) := by
    constructor
    · intro h
      by_contra hn
      exact hfresh hn h
    · intro h
      rw [hstale h]
  refine ⟨hiff, ?_, ?_, ?_, ?_⟩
  · intro h
    rw [hstale (hiff.mp h)]
  · intro ht
    apply hfresh
    intro hs
    omega
  · intro hty ht
    apply hstale
    exact ⟨hty, by omega⟩
  · intro hty
    apply hfresh
    intro hs
    omega

theorem C6_stale_creation_rejected_witness :
    GetBulletin demoEnv (demoTx [1, 1, 50, 9, 18, 6]) = .ok { demoBulletin with Timestamp := 1 } ∧
    ({ demoBulletin with Timestamp := 1 } : Bulletin).OldSn = [] ∧
    ({ demoBulletin with Timestamp := 1 } : Bulletin).ContentList ≠ [] ∧
    (-2 ^ 63 + 180 ≤ (182 : Int)) ∧ ((182 : Int) < 2 ^ 63) ∧
    ((putGanyTx demoEnv 100 demoTxn (demoTx [1, 1, 50, 9, 18, 6]) 182 0).2 =
        some .ErrTimestampTooLong ↔
      (({ demoBulletin with Timestamp := 1 } : Bulletin).Typ < demoEnv.Bulletin_CENSOR ∧
        ({ demoBulletin with Timestamp := 1 } : Bulletin).Timestamp < 182 - 180)) ∧
    ((putGanyTx demoEnv 100 demoTxn (demoTx [1, 1, 50, 9, 18, 6]) 182 0).2 =
        some .ErrTimestampTooLong →
      (putGanyTx demoEnv 100 demoTxn (demoTx [1, 1, 50, 9, 18, 6]) 182 0).1 = demoTxn) ∧
    (({ demoBulletin with Timestamp := 1 } : Bulletin).Timestamp = 182 - 180 →
      (putGanyTx demoEnv 100 demoTxn (demoTx [1, 1, 50, 9, 18, 6]) 182 0).2 ≠
        some .ErrTimestampTooLong) ∧
    (({ demoBulletin with Timestamp := 1 } : Bulletin).Typ < demoEnv.Bulletin_CENSOR →
      ({ demoBulletin with Timestamp := 1 } : Bulletin).Timestamp = 182 - 181 →
      putGanyTx demoEnv 100 demoTxn (demoTx [1, 1, 50, 9, 18, 6]) 182 0 =
        (demoTxn, some .ErrTimestampTooLong)) ∧
    (({ demoBulletin with Timestamp := 1 } : Bulletin).Typ = demoEnv.Bulletin_CENSOR →
      (putGanyTx demoEnv 100 demoTxn (demoTx [1, 1, 50, 9, 18, 6]) 182 0).2 ≠
        some .ErrTimestampTooLong) :=
  ⟨rfl, rfl, by decide, by decide, by decide,
    C6_stale_creation_rejected demoEnv 100 demoTxn (demoTx [1, 1, 50, 9, 18, 6]) 182 0
      { demoBulletin with Timestamp := 1 } rfl rfl (by decide) (by decide) (by decide)⟩

/-- C7 (counterexample): an overwrite whose recovered main key is absent from the
store makes `putGanyTx` fail with the store's key-not-found error, not with
`ErrCantFindOldBulletin`, and `DeliverTx` answers 104, not 102. -/
theorem C7_missing_key_is_not_CantFindOldBulletin :
    GetBulletin demoEnv (demoTx (demoOverwriteBz 7)) = .ok (demoOverwrite 7) ∧
    (demoOverwrite 7).OldSn ≠ [] ∧
    demoTxn.Get 100 (getMainKeyHead demoEnv (demoOverwrite 7) ++ (demoOverwrite 7).OldSn ++
      (sum64 demoEnv (demoOverwrite 7).From).take 8) = .error .badgerErrKeyNotFound ∧
    putGanyTx demoEnv 100 demoTxn (demoTx (demoOverwriteBz 7)) 110 1 =
      (demoTxn, some .badgerErrKeyNotFound) ∧
    (putGanyTx demoEnv 100 demoTxn (demoTx (demoOverwriteBz 7)) 110 1).2 ≠
      some .ErrCantFindOldBulletin ∧
    (DeliverTx demoEnv 100 (BeginBlock demoApp 1 110) (demoTx (demoOverwriteBz 7))).2 = 104 ∧
    (DeliverTx demoEnv 100 (BeginBlock demoApp 1 110) (demoTx (demoOverwriteBz 7))).2 ≠ 102 := by
  refine ⟨rfl, by decide, rfl, rfl, by decide, rfl, by decide⟩

/-- C7 (amended): for every overwrite (non-empty `OldSn`) whose recovered main key
(`mainKeyHead(new) || oldSn || sum64(new.from)[:8]` for an 8-byte `oldSn`) is
absent from the store, `putGanyTx` fails with the store's own key-not-found
error and leaves the transaction as it was; `DeliverTx` reports that error as
code 104 (other). -/
theorem C7_missing_old_bulletin_reports_store_error (env : Env) (now : Int) (txn : Txn)
    (newTx : Bytes) (blockTime txIndex : Int) (b : Bulletin)
    (hb : GetBulletin env newTx = .ok b) (hold : b.OldSn ≠ [])
    (habsent : txn.Get now (overwriteKey env b) = .error .badgerErrKeyNotFound) :
    (b.OldSn.length = 8 → overwriteKey env b =
      getMainKeyHead env b ++ b.OldSn ++ (sum64 env b.From).take 8) ∧
    putGanyTx env now txn newTx blockTime txIndex = (txn, some .badgerErrKeyNotFound) ∧
    deliverCode .badgerErrKeyNotFound = 104 ∧
    ∀ app : GanyApplication, app.currentBatch = txn → validateGanyTxBz env newTx = none →
      DeliverTx env now app newTx = (app, 104) := by
  have hput : ∀ bt ti : Int, putGanyTx env now txn newTx bt ti =
      (txn, some .badgerErrKeyNotFound) := by
    intro bt ti
    rw [putGanyTx_overwrite hb hold]
    unfold overwriteBulletin getOldVersionOfGanyTx
    rw [hb]
    simp only [habsent]
  refine ⟨fun h8 => overwriteKey_eq env b h8, hput _ _, rfl, ?_⟩
  intro app happ hvalid
  unfold DeliverTx
  rw [hvalid, happ]
  simp only [hput]
  cases app
  simp only at happ
  subst happ
  rfl

theorem C7_missing_old_bulletin_reports_store_error_witness :
    GetBulletin demoEnv (demoTx (demoOverwriteBz 7)) = .ok (demoOverwrite 7) ∧
    (demoOverwrite 7).OldSn ≠ [] ∧
    demoTxn.Get 100 (overwriteKey demoEnv (demoOverwrite 7)) = .error .badgerErrKeyNotFound ∧
    ((demoOverwrite 7).OldSn.length = 8 → overwriteKey demoEnv (demoOverwrite 7) =
      getMainKeyHead demoEnv (demoOverwrite 7) ++ (demoOverwrite 7).OldSn ++
        (sum64 demoEnv (demoOverwrite 7).From).take 8) ∧
    putGanyTx demoEnv 100 demoTxn (demoTx (demoOverwriteBz 7)) 110 1 =
      (demoTxn, some .badgerErrKeyNotFound) ∧
    deliverCode .badgerErrKeyNotFound = 104 ∧
    ∀ app : GanyApplication, app.currentBatch = demoTxn →
      validateGanyTxBz demoEnv (demoTx (demoOverwriteBz 7)) = none →
      DeliverTx demoEnv 100 app (demoTx (demoOverwriteBz 7)) = (app, 104) :=
  ⟨rfl, by decide, rfl,
    C7_missing_old_bulletin_reports_store_error demoEnv 100 demoTxn (demoTx (demoOverwriteBz 7))
      110 1 (demoOverwrite 7) rfl (by decide) rfl⟩

/-- C8: `CanBeOverwrittenBy(old, new)` holds exactly when the two bulletins agree
on topic, type, timestamp, duration and from; and when an overwrite finds the
stored record (`getOldVersionOfGanyTx` returns its envelope, which is not empty
and decodes to `old`) but the predicate is false for `old` and the new bulletin,
`putGanyTx` fails with `ErrCantOverwriteBulletin` and the transaction, the
stored main value included, is as before. -/
theorem C8_incompatible_overwrite_rejected (env : Env) (now : Int) (txn : Txn)
    (newTx : Bytes) (blockTime txIndex : Int) (old new : Bulletin) (idHis key oldTx : Bytes)
    (hb : GetBulletin env newTx = .ok new) (hold : new.OldSn ≠ [])
    (hfound : getOldVersionOfGanyTx env now txn newTx = .ok (idHis, key, oldTx))
    (hne : oldTx ≠ []) (hob : GetBulletin env oldTx = .ok old)
    (hincompat : old.CanBeOverwrittenBy new = false) :
    (∀ x y : Bulletin, x.CanBeOverwrittenBy y = true ↔
      (x.Topic = y.Topic ∧ x.Typ = y.Typ ∧ x.Timestamp = y.Timestamp ∧
        x.Duration = y.Duration ∧ x.From = y.From)) ∧
    putGanyTx env now txn newTx blockTime txIndex = (txn, some .ErrCantOverwriteBulletin) ∧
    (∃ item, txn.Get now (overwriteKey env new) = .ok item ∧
      oldTx = item.value.drop (36 + uint32 ((item.value.take 36).drop 32) * 64) ∧
      (putGanyTx env now txn newTx blockTime txIndex).1.Get now (overwriteKey env new) =
        .ok item) := by
  have hput : putGanyTx env now txn newTx blockTime txIndex =
      (txn, some .ErrCantOverwriteBulletin) := by
    rw [putGanyTx_overwrite hb hold]
    unfold overwriteBulletin
    rw [hfound]
    simp only [hne, if_false, hob, hb, hincompat, Bool.not_false, if_true]
  refine ⟨?_, hput, ?_⟩
  · intro x y
    unfold Bulletin.CanBeOverwrittenBy
    simp only [Bool.and_eq_true, beq_iff_eq]
    constructor
    · rintro ⟨⟨⟨⟨h1, h2⟩, h3⟩, h4⟩, h5⟩
      exact ⟨h1, h2, h3, h5, h4⟩
    · rintro ⟨h1, h2, h3, h4, h5⟩
      exact ⟨⟨⟨⟨h1, h2⟩, h3⟩, h5⟩, h4⟩
  · obtain ⟨item, id, hkey, hitem, _, _, _, _, _, hold2⟩ := getOldVersionOfGanyTx_ok hb hfound
    rw [hkey] at hitem
    exact ⟨item, hitem, hold2, by rw [hput]; exact hitem⟩

theorem C8_incompatible_overwrite_rejected_witness :
    GetBulletin demoEnv (demoTx [1, 100, 51, 7, 18, 6, 0, 0, 0, 0, 110, 0, 0, 0]) =
      .ok { demoOverwrite 7 with Duration := 51 } ∧
    ({ demoOverwrite 7 with Duration := 51 } : Bulletin).OldSn ≠ [] ∧
    getOldVersionOfGanyTx demoEnv 100 demoTxn1
        (demoTx [1, 100, 51, 7, 18, 6, 0, 0, 0, 0, 110, 0, 0, 0]) =
      .ok ([1, 100] ++ zeros 62,
        overwriteKey demoEnv (demoOverwrite 7), demoTx [1, 100, 50, 9, 18, 6]) ∧
    demoTx [1, 100, 50, 9, 18, 6] ≠ [] ∧
    GetBulletin demoEnv (demoTx [1, 100, 50, 9, 18, 6]) = .ok demoBulletin ∧
    demoBulletin.CanBeOverwrittenBy { demoOverwrite 7 with Duration := 51 } = false ∧
    putGanyTx demoEnv 100 demoTxn1 (demoTx [1, 100, 51, 7, 18, 6, 0, 0, 0, 0, 110, 0, 0, 0])
      110 1 = (demoTxn1, some .ErrCantOverwriteBulletin) :=
  ⟨rfl, by decide, rfl, by decide, rfl, by decide,
    (C8_incompatible_overwrite_rejected demoEnv 100 demoTxn1
      (demoTx [1, 100, 51, 7, 18, 6, 0, 0, 0, 0, 110, 0, 0, 0]) 110 1 demoBulletin
      { demoOverwrite 7 with Duration := 51 } _ _ _ rfl (by decide) rfl (by decide) rfl
      (by decide)).2.1⟩

/-- When none of the `n` entries from `start` on equals `id`, and they all lie
inside `value`, the loop of `historyContainsId` answers false. -/
theorem historyLoop_absent (value id : Bytes) (n start : Nat)
    (hwf : start + 64 * n ≤ value.length)
    (habs : ∀ i, i < n → (value.take (start + 64 * i + 64)).drop (start + 64 * i) ≠ id) :
    historyLoop value id n start = .ok false := by
  induction n generalizing start with
  | zero => rfl
  | succ m ih =>
    unfold historyLoop
    have h0 := habs 0 (Nat.succ_pos m)
    rw [Nat.mul_zero, Nat.add_zero] at h0
    have hs : slice value start (start + BulletinIdLen) =
        .ok ((value.take (start + 64)).drop start) :=
      slice_of_le (Nat.le_add_right _ _) (by show start + 64 ≤ value.length; omega)
    rw [hs]
    simp only [h0, if_false]
    apply ih (start + BulletinIdLen)
    · show start + 64 + 64 * m ≤ value.length
      omega
    · intro i hi
      have := habs (i + 1) (Nat.succ_lt_succ hi)
      have e : start + 64 * (i + 1) = start + BulletinIdLen + 64 * i := by
        show start + 64 * (i + 1) = start + 64 + 64 * i
        omega
      rw [e] at this
      exact this

/-- C9: an overwrite is accepted only if the bulletin ID of the arriving
transaction is one of the 64-byte entries of the stored ID list: for a stored
main value (of at least `36 + 64 * count` bytes) and a new envelope whose ID is
none of these entries, `putGanyTx` fails with `ErrInvalidOldSN` and the
transaction, the stored record included, is as before. -/
theorem C9_unknown_id_rejected (env : Env) (now : Int) (txn : Txn) (newTx : Bytes)
    (blockTime txIndex : Int) (b : Bulletin) (item : Entry) (id : Bytes)
    (hb : GetBulletin env newTx = .ok b) (hold : b.OldSn ≠ [])
    (hitem : txn.Get now (overwriteKey env b) = .ok item)
    (hid : GetBulletinID env newTx = .ok id)
    (hwf : 36 + 64 * uint32 ((item.value.take 36).drop 32) ≤ item.value.length) :
    ((∀ i, i < uint32 ((item.value.take 36).drop 32) →
        (item.value.take (36 + 64 * i + 64)).drop (36 + 64 * i) ≠ id) →
      putGanyTx env now txn newTx blockTime txIndex = (txn, some .ErrInvalidOldSN)) ∧
    (∀ txn1, putGanyTx env now txn newTx blockTime txIndex = (txn1, none) →
      ∃ i, i < uint32 ((item.value.take 36).drop 32) ∧
        (item.value.take (36 + 64 * i + 64)).drop (36 + 64 * i) = id) := by
  have hrej : (∀ i, i < uint32 ((item.value.take 36).drop 32) →
        (item.value.take (36 + 64 * i + 64)).drop (36 + 64 * i) ≠ id) →
      putGanyTx env now txn newTx blockTime txIndex = (txn, some .ErrInvalidOldSN) := by
    intro habs
    have hloop := historyLoop_absent item.value id _ 36 hwf habs
    have hc : slice item.value TopicHashEnd HistoryCountEnd =
        .ok ((item.value.take 36).drop 32) :=
      slice_of_le (by decide) (by show 36 ≤ item.value.length; omega)
    rw [putGanyTx_overwrite hb hold]
    unfold overwriteBulletin getOldVersionOfGanyTx historyContainsId
    rw [hb]
    simp only [hitem, hid, hc]
    have hloop2 : historyLoop item.value id (uint32 ((item.value.take 36).drop 32))
        HistoryCountEnd = .ok false := hloop
    simp only [hloop2, Bool.not_false, if_true]
  refine ⟨hrej, ?_⟩
  intro txn1 hacc
  by_contra hnone
  have habs : ∀ i, i < uint32 ((item.value.take 36).drop 32) →
      (item.value.take (36 + 64 * i + 64)).drop (36 + 64 * i) ≠ id := by
    intro i hi hEq
    exact hnone ⟨i, hi, hEq⟩
  rw [hrej habs] at hacc
  cases hacc

set_option maxRecDepth 100000 in
theorem C9_unknown_id_rejected_witness :
    GetBulletin demoEnv (demoTx4 [] (demoOverwriteBz 7) [] [5]) = .ok (demoOverwrite 7) ∧
    (demoOverwrite 7).OldSn ≠ [] ∧
    demoTxn1.Get 100 (overwriteKey demoEnv (demoOverwrite 7)) = .ok demoItem ∧
    GetBulletinID demoEnv (demoTx4 [] (demoOverwriteBz 7) [] [5]) =
      .ok ([1, 100] ++ zeros 30 ++ ([5] ++ zeros 31)) ∧
    36 + 64 * uint32 ((demoItem.value.take 36).drop 32) ≤ demoItem.value.length ∧
    (∀ i, i < uint32 ((demoItem.value.take 36).drop 32) →
      (demoItem.value.take (36 + 64 * i + 64)).drop (36 + 64 * i) ≠
        [1, 100] ++ zeros 30 ++ ([5] ++ zeros 31)) ∧
    putGanyTx demoEnv 100 demoTxn1 (demoTx4 [] (demoOverwriteBz 7) [] [5]) 110 1 =
      (demoTxn1, some .ErrInvalidOldSN) :=
  ⟨by rfl, by decide, by rfl, by rfl, by decide, by decide,
    (C9_unknown_id_rejected demoEnv 100 demoTxn1 (demoTx4 [] (demoOverwriteBz 7) [] [5]) 110 1
      (demoOverwrite 7) demoItem ([1, 100] ++ zeros 30 ++ ([5] ++ zeros 31))
      (by rfl) (by decide) (by rfl) (by rfl) (by decide)).1 (by decide)⟩

/-! ## Lifetimes -/

/-- C10 (counterexample): at `now = 1700000000` an expiry five seconds ahead gets
a lifetime of five seconds, below `MinTTL`; the result is not clamped from
below. -/
theorem C10_short_expiry_is_not_raised_to_MinTTL :
    toValidTTL 1700000000 1700000005 = 5 * Second ∧
    ¬ (MinTTL ≤ toValidTTL 1700000000 1700000005 ∧
      toValidTTL 1700000000 1700000005 ≤ MaxTTL) := by
  constructor <;> decide

/-- C10 (amended): the lifetime returned by `toValidTTL` never exceeds
`MaxTTL` (180 days); it is `MinTTL` (1 hour) when the expiry is not in the
future; an expiry `n` seconds in the future, `n` at most 180 days, yields
exactly `n` seconds, so an expiry less than an hour ahead yields a positive
lifetime shorter than `MinTTL`. -/
theorem C10_ttl_bounds (now expire : Int) :
    toValidTTL now expire ≤ MaxTTL ∧
    (expire ≤ now → toValidTTL now expire = MinTTL) ∧
    (now < expire → expire - now ≤ 180 * 24 * 3600 →
      toValidTTL now expire = (expire - now) * Second) ∧
    (now < expire → expire - now < 3600 →
      0 < toValidTTL now expire ∧ toValidTTL now expire < MinTTL) := by
  have hexact : now < expire → expire - now ≤ 180 * 24 * 3600 →
      toValidTTL now expire = (expire - now) * Second := by
    intro h1 h2
    unfold toValidTTL
    rw [if_pos h1]
    have e63 : (2 : Int) ^ 63 = 9223372036854775808 := by norm_num
    have w1 : wrap64 (expire - now) = expire - now :=
      wrap64_of_range _ (by rw [e63]; omega) (by rw [e63]; omega)
    have w2 : wrap64 ((expire - now) * Second) = (expire - now) * Second := by
      apply wrap64_of_range
      · rw [e63]; unfold Second; omega
      · rw [e63]; unfold Second; omega
    simp only [w1, w2]
    rw [if_neg]
    unfold MaxTTL Hour Second
    omega
  refine ⟨?_, ?_, hexact, ?_⟩
  · unfold toValidTTL
    split
    · simp only
      split
      · exact le_refl _
      · omega
    · decide
  · intro h
    unfold toValidTTL
    rw [if_neg (by omega)]
  · intro h1 h2
    rw [hexact h1 (by omega)]
    unfold MinTTL Hour Second
    constructor <;> omega

theorem C10_ttl_bounds_witness :
    toValidTTL 1700000000 1700000005 ≤ MaxTTL ∧
    toValidTTL 1700000000 1699999999 = MinTTL ∧
    toValidTTL 1700000000 1700000005 = (1700000005 - 1700000000) * Second ∧
    (0 < toValidTTL 1700000000 1700000005 ∧ toValidTTL 1700000000 1700000005 < MinTTL) :=
  ⟨(C10_ttl_bounds 1700000000 1700000005).1,
    (C10_ttl_bounds 1700000000 1699999999).2.1 (by decide),
    (C10_ttl_bounds 1700000000 1700000005).2.2.1 (by decide) (by decide),
    (C10_ttl_bounds 1700000000 1700000005).2.2.2 (by decide) (by decide)⟩

/-- C11 (evaluation of the code at the failing input): at `now = 1700000000` an
expiry 9223372037 seconds ahead makes the nanosecond product wrap around in
`int64`; `toValidTTL` returns a negative lifetime instead of
`min(expire - now seconds, 180 days)`. -/
theorem C11_far_future_expiry_wraps :
    (1700000000 : Int) < 10923372037 ∧ (10923372037 : Int) < 2 ^ 63 ∧
    toValidTTL 1700000000 10923372037 = -9223372036709551616 ∧
    min ((10923372037 - 1700000000) * Second) MaxTTL = MaxTTL ∧
    toValidTTL 1700000000 10923372037 ≠ min ((10923372037 - 1700000000) * Second) MaxTTL := by
  refine ⟨by decide, by decide, by decide, by decide, by decide⟩

/-- C12 (evaluation of the code at the failing input): a second creation in the
same slot-range bucket with the same duration finds the bucket present with
expiration 3700 (`now + 1h` at `now = 100`) and rewrites it with expiration
100, which is `now` and earlier than `max(oldExpireAt, now + newTtl) = 3700`:
the remaining seconds `oldExpireAt - now` are handed to `WithTTL` as
nanoseconds. -/
theorem C12_bucket_expiration_moves_earlier :
    demoTxn1.Get 100 [220, 0, 0, 0, 0, 110, 0, 0] =
      .ok ⟨getMainKeyHead demoEnv demoBulletin, 3700⟩ ∧
    withTTL 100 (toValidTTL 100 50) = 3700 ∧
    (putGanyTx demoEnv 100 demoTxn1 (demoTx [1, 100, 50, 9, 52, 6]) 110 1).2 = none ∧
    rawLookup [220, 0, 0, 0, 0, 110, 0, 0]
        (putGanyTx demoEnv 100 demoTxn1 (demoTx [1, 100, 50, 9, 52, 6]) 110 1).1.entries =
      some ⟨getMainKeyHead demoEnv { demoBulletin with Topic := [52] }, 100⟩ ∧
    (100 : Nat) < max 3700 (withTTL 100 (toValidTTL 100 50)) := by
  refine ⟨by rfl, by decide, by rfl, by rfl, by decide⟩

/-! ## Response codes and validation -/

theorem checkCode_ne_zero (e : Err) : checkCode e ≠ 0 := by
  cases e <;> decide

theorem deliverCode_ne_zero (e : Err) : deliverCode e ≠ 0 := by
  cases e <;> decide

/-- C17: `CheckTx` and `DeliverTx` answer 0 exactly when validation (and, for
`DeliverTx`, the put) succeeds; a validation error is answered 1, 2, 3 for
`ErrInvalidTxBytes`, `ErrInvalidBulletinFields`,
`ErrInvalidStochasticPaymentFields` and 99 for any other one, by both; a put
error is answered 100, 101, 102, 103 for `ErrTimestampTooLong`,
`ErrInvalidOldSN`, `ErrCantFindOldBulletin`, `ErrCantOverwriteBulletin` and 104
for any other one. -/
theorem C17_response_codes (env : Env) (now : Int) (app : GanyApplication) (tx : Bytes) :
    (CheckTx env tx = 0 ↔ validateGanyTxBz env tx = none) ∧
    ((DeliverTx env now app tx).2 = 0 ↔
      (validateGanyTxBz env tx = none ∧
        (putGanyTx env now app.currentBatch tx app.currentBlockTimestamp
          app.currentTxIndex).2 = none)) ∧
    (∀ e, validateGanyTxBz env tx = some e →
      CheckTx env tx = checkCode e ∧ DeliverTx env now app tx = (app, checkCode e)) ∧
    (checkCode .ErrInvalidTxBytes = 1 ∧ checkCode .ErrInvalidBulletinFields = 2 ∧
      checkCode .ErrInvalidStochasticPaymentFields = 3) ∧
    (∀ e, e ≠ .ErrInvalidTxBytes → e ≠ .ErrInvalidBulletinFields →
      e ≠ .ErrInvalidStochasticPaymentFields → checkCode e = 99) ∧
    (validateGanyTxBz env tx = none → ∀ e,
      (putGanyTx env now app.currentBatch tx app.currentBlockTimestamp
        app.currentTxIndex).2 = some e →
      (DeliverTx env now app tx).2 = deliverCode e) ∧
    (deliverCode .ErrTimestampTooLong = 100 ∧ deliverCode .ErrInvalidOldSN = 101 ∧
      deliverCode .ErrCantFindOldBulletin = 102 ∧
      deliverCode .ErrCantOverwriteBulletin = 103) ∧
    (∀ e, e ≠ .ErrTimestampTooLong → e ≠ .ErrInvalidOldSN → e ≠ .ErrCantFindOldBulletin →
      e ≠ .ErrCantOverwriteBulletin → deliverCode e = 104) := by
  refine ⟨?_, ?_, ?_, ⟨rfl, rfl, rfl⟩, ?_, ?_, ⟨rfl, rfl, rfl, rfl⟩, ?_⟩
  · unfold CheckTx
    cases hv : validateGanyTxBz env tx with
    | none => simp [CheckTxCodeOK]
    | some e => simp [checkCode_ne_zero]
  · unfold DeliverTx
    cases hv : validateGanyTxBz env tx with
    | some e => simp [checkCode_ne_zero]
    | none =>
      simp only [true_and]
      cases hp : putGanyTx env now app.currentBatch tx app.currentBlockTimestamp
          app.currentTxIndex with
      | mk batch r =>
        cases r with
        | none => simp [CheckTxCodeOK]
        | some e => simp [deliverCode_ne_zero]
  · intro e hv
    unfold CheckTx DeliverTx
    rw [hv]
    exact ⟨rfl, rfl⟩
  · intro e h1 h2 h3
    cases e <;> first | rfl | exact absurd rfl h1 | exact absurd rfl h2 | exact absurd rfl h3
  · intro hv e hp
    unfold DeliverTx
    rw [hv]
    cases hq : putGanyTx env now app.currentBatch tx app.currentBlockTimestamp
        app.currentTxIndex with
    | mk batch r =>
      rw [hq] at hp
      simp only at hp
      subst hp
      rfl
  · intro e h1 h2 h3 h4
    cases e <;>
      first
      | rfl
      | exact absurd rfl h1
      | exact absurd rfl h2
      | exact absurd rfl h3
      | exact absurd rfl h4

theorem C17_response_codes_witness :
    validateGanyTxBz demoEnv (demoTx [1, 1, 50, 9, 18, 6]) = none ∧
    (putGanyTx demoEnv 100 (BeginBlock demoApp 1 1000).currentBatch (demoTx [1, 1, 50, 9, 18, 6])
      (BeginBlock demoApp 1 1000).currentBlockTimestamp
      (BeginBlock demoApp 1 1000).currentTxIndex).2 = some .ErrTimestampTooLong ∧
    (DeliverTx demoEnv 100 (BeginBlock demoApp 1 1000) (demoTx [1, 1, 50, 9, 18, 6])).2 =
      deliverCode .ErrTimestampTooLong ∧
    validateGanyTxBz demoEnv [] = some .ErrInvalidTxBytes ∧
    CheckTx demoEnv [] = checkCode .ErrInvalidTxBytes ∧
    DeliverTx demoEnv 100 demoApp [] = (demoApp, checkCode .ErrInvalidTxBytes) :=
  ⟨by rfl, by rfl,
    (C17_response_codes demoEnv 100 (BeginBlock demoApp 1 1000)
      (demoTx [1, 1, 50, 9, 18, 6])).2.2.2.2.2.1 (by rfl) _ (by rfl),
    by rfl,
    ((C17_response_codes demoEnv 100 demoApp []).2.2.1 _ (by rfl)).1,
    ((C17_response_codes demoEnv 100 demoApp []).2.2.1 _ (by rfl)).2⟩

/-- C18: when the four enumerated types are exactly the integers from `COMMENT`
to `CENSOR` and none of them is negative, `Bulletin.IsValid` holds exactly when
the topic is non-empty, the type is one of `BLOG`, `COMMENT`, `COLUMN`,
`CENSOR`, the timestamp is positive and `from` has 20 bytes; so in an envelope
that is longer than its header and carries a valid payment, a bulletin of type
`BLOG` with these properties makes `CheckTx` answer 0, and a bulletin of type
`-1` makes it answer 2 (`InvalidBulletin`). -/
theorem C18_bulletin_validity (env : Env) (x : Bulletin)
    (henum : ∀ t : Int, (env.Bulletin_COMMENT ≤ t ∧ t ≤ env.Bulletin_CENSOR) ↔
      (t = env.Bulletin_BLOG ∨ t = env.Bulletin_COMMENT ∨ t = env.Bulletin_COLUMN ∨
        t = env.Bulletin_CENSOR))
    (hnonneg : 0 ≤ env.Bulletin_COMMENT) :
    (x.IsValid env = true ↔
      (x.Topic ≠ [] ∧
        (x.Typ = env.Bulletin_BLOG ∨ x.Typ = env.Bulletin_COMMENT ∨
          x.Typ = env.Bulletin_COLUMN ∨ x.Typ = env.Bulletin_CENSOR) ∧
        0 < x.Timestamp ∧ x.From.length = 20)) ∧
    ∀ (tx : Bytes) (sp : StochasticPayment), 16 < tx.length →
      GetStochasticPayment env tx = .ok sp → sp.IsValid = true →
      GetBulletin env tx = .ok x →
      ((x.Topic ≠ [] ∧ x.Typ = env.Bulletin_BLOG ∧ 0 < x.Timestamp ∧ x.From.length = 20) →
        CheckTx env tx = CheckTxCodeOK) ∧
      (x.Typ = -1 → CheckTx env tx = CheckTxCodeErrorInvalidBulletin) := by
  have hiff : x.IsValid env = true ↔
      (x.Topic ≠ [] ∧
        (x.Typ = env.Bulletin_BLOG ∨ x.Typ = env.Bulletin_COMMENT ∨
          x.Typ = env.Bulletin_COLUMN ∨ x.Typ = env.Bulletin_CENSOR) ∧
        0 < x.Timestamp ∧ x.From.length = 20) := by
    unfold Bulletin.IsValid
    simp only [Bool.and_eq_true, decide_eq_true_eq, gt_iff_lt, ge_iff_le]
    constructor
    · rintro ⟨⟨⟨⟨h1, h2⟩, h3⟩, h4⟩, h5⟩
      exact ⟨fun h => by rw [h] at h1; exact absurd h1 (by decide),
        (henum x.Typ).mp ⟨h2, h3⟩, h4, h5⟩
    · rintro ⟨h1, h2, h4, h5⟩
      obtain ⟨h2a, h2b⟩ := (henum x.Typ).mpr h2
      exact ⟨⟨⟨⟨List.length_pos.mpr h1, h2a⟩, h2b⟩, h4⟩, h5⟩
  refine ⟨hiff, ?_⟩
  intro tx sp hlen hsp hspv hb
  have hcheck : CheckTx env tx =
      if x.IsValid env = true then CheckTxCodeOK else CheckTxCodeErrorInvalidBulletin := by
    unfold CheckTx validateGanyTxBz IsValid
    have hl : ¬ tx.length ≤ TxFieldLengthsLen := by
      show ¬ tx.length ≤ 16
      omega
    rw [if_neg hl, hsp]
    simp only [hspv, hb]
    cases hv : x.IsValid env <;> rfl
  constructor
  · intro ⟨h1, h2, h3, h4⟩
    rw [hcheck, if_pos (hiff.mpr ⟨h1, Or.inl h2, h3, h4⟩)]
  · intro hm
    have hinv : ¬ x.IsValid env = true := by
      intro hv
      obtain ⟨_, hty, _, _⟩ := hiff.mp hv
      have hr := (henum x.Typ).mpr hty
      rw [hm] at hr
      omega
    rw [hcheck, if_neg hinv]

theorem C18_bulletin_validity_witness :
    (∀ t : Int, (demoEnvBlog.Bulletin_COMMENT ≤ t ∧ t ≤ demoEnvBlog.Bulletin_CENSOR) ↔
      (t = demoEnvBlog.Bulletin_BLOG ∨ t = demoEnvBlog.Bulletin_COMMENT ∨
        t = demoEnvBlog.Bulletin_COLUMN ∨ t = demoEnvBlog.Bulletin_CENSOR)) ∧
    0 ≤ demoEnvBlog.Bulletin_COMMENT ∧
    demoBulletin.Typ = demoEnvBlog.Bulletin_BLOG ∧
    GetBulletin demoEnvBlog (demoTx [1, 100, 50, 9, 18, 6]) = .ok demoBulletin ∧
    CheckTx demoEnvBlog (demoTx [1, 100, 50, 9, 18, 6]) = CheckTxCodeOK ∧
    ({ demoBulletin with Typ := -1 } : Bulletin).IsValid demoEnvBlog = false ∧
    (demoBulletin.IsValid demoEnvBlog = true ↔
      (demoBulletin.Topic ≠ [] ∧
        (demoBulletin.Typ = demoEnvBlog.Bulletin_BLOG ∨
          demoBulletin.Typ = demoEnvBlog.Bulletin_COMMENT ∨
          demoBulletin.Typ = demoEnvBlog.Bulletin_COLUMN ∨
          demoBulletin.Typ = demoEnvBlog.Bulletin_CENSOR) ∧
        0 < demoBulletin.Timestamp ∧ demoBulletin.From.length = 20)) ∧
    ∀ (tx : Bytes) (sp : StochasticPayment), 16 < tx.length →
      GetStochasticPayment demoEnvBlog tx = .ok sp → sp.IsValid = true →
      GetBulletin demoEnvBlog tx = .ok demoBulletin →
      ((demoBulletin.Topic ≠ [] ∧ demoBulletin.Typ = demoEnvBlog.Bulletin_BLOG ∧
          0 < demoBulletin.Timestamp ∧ demoBulletin.From.length = 20) →
        CheckTx demoEnvBlog tx = CheckTxCodeOK) ∧
      (demoBulletin.Typ = -1 → CheckTx demoEnvBlog tx = CheckTxCodeErrorInvalidBulletin) :=
  ⟨fun t => by
      show ((0 : Int) ≤ t ∧ t ≤ 3) ↔ (t = 1 ∨ t = 0 ∨ t = 2 ∨ t = 3)
      omega,
    by decide, by rfl, by rfl, by rfl, by decide,
    C18_bulletin_validity demoEnvBlog demoBulletin
      (fun t => by
        show ((0 : Int) ≤ t ∧ t ≤ 3) ↔ (t = 1 ∨ t = 0 ∨ t = 2 ∨ t = 3)
        omega)
      (by decide)⟩

/-! ## Failed deliveries -/

theorem afterWrite_err {txn t : Txn} {r : Except Err Txn} {e : Err}
    (h : afterWrite txn r = (t, some e)) : t = txn ∧ r = .error e := by
  unfold afterWrite at h
  split at h
  · injection h with h1 h2
    injection h2 with h2
    exact ⟨h1.symm, by rw [h2]⟩
  · cases h

/-- A failed overwrite leaves the transaction as it was. -/
theorem overwriteBulletin_err {env : Env} {now : Int} {txn t : Txn} {newTx : Bytes} {e : Err}
    (h : overwriteBulletin env now txn newTx = (t, some e)) : t = txn := by
  unfold overwriteBulletin at h
  split at h
  · injection h with h1 _
    exact h1.symm
  · split at h
    · injection h with h1 _
      exact h1.symm
    · split at h
      · injection h with h1 _
        exact h1.symm
      · split at h
        · injection h with h1 _
          exact h1.symm
        · split at h
          · injection h with h1 _
            exact h1.symm
          · split at h
            · split at h
              · injection h with h1 _
                exact h1.symm
              · exact (afterWrite_err h).1
            · exact (afterWrite_err h).1

/-- A creation that fails with an error other than the store's "transaction too
big" leaves the transaction as it was. -/
theorem createGanyTx_err {env : Env} {now : Int} {txn t : Txn} {ganyTx : Bytes}
    {blockTimestamp txIndex : Int} {e : Err}
    (h : createGanyTx env now txn ganyTx blockTimestamp txIndex = (t, some e))
    (he : e ≠ .badgerErrTxnTooBig) : t = txn := by
  unfold createGanyTx at h
  split at h
  · injection h with h1 _
    exact h1.symm
  · split at h
    · cases h
    · simp only at h
      split at h
      · injection h with h1 _
        exact h1.symm
      · split at h
        · injection h with h1 _
          exact h1.symm
        · split at h
          · injection h with h1 _
            exact h1.symm
          · split at h
            · rename_i e1 h1
              injection h with _ h2
              injection h2 with h2
              rw [← h2] at he
              exact absurd (SetEntry_err h1) he
            · split at h
              · exact absurd (afterWrite_SetEntry_err h) he
              · rename_i e1 hne h1
                exact absurd (Get_err h1) hne
              · split at h
                · exact absurd (afterWrite_SetEntry_err h) he
                · exact absurd (afterWrite_SetEntry_err h) he

/-- C19 (counterexample): in a transaction with room for two more writes a
creation stores its main record and its by-SN index record, the third write is
refused by the store, `putGanyTx` returns that error, and the two records stay
in the transaction without their slot-range bucket. -/
theorem C19_store_error_leaves_partial_writes :
    (putGanyTx demoEnv 100 ⟨[], 0, 3⟩ (demoTx [1, 100, 50, 9, 18, 6]) 110 0).2 =
      some .badgerErrTxnTooBig ∧
    (putGanyTx demoEnv 100 ⟨[], 0, 3⟩ (demoTx [1, 100, 50, 9, 18, 6]) 110 0).1 ≠ ⟨[], 0, 3⟩ ∧
    (putGanyTx demoEnv 100 ⟨[], 0, 3⟩ (demoTx [1, 100, 50, 9, 18, 6]) 110 0).1.entries =
      [(createKey demoEnv demoBulletin (mintSn 110 0), demoItem),
       ([220, 0, 0, 0, 0, 110, 0, 0, 0], ⟨getMainKeyHead demoEnv demoBulletin, 3700⟩)] ∧
    rawLookup [220, 0, 0, 0, 0, 110, 0, 0]
      (putGanyTx demoEnv 100 ⟨[], 0, 3⟩ (demoTx [1, 100, 50, 9, 18, 6]) 110 0).1.entries =
      none := by
  refine ⟨by rfl, by decide, by rfl, by rfl⟩

/-- C19 (amended): a delivery that fails for any reason other than the store
refusing a write writes nothing: if `putGanyTx` returns an error that is not the
store's "transaction too big", the write transaction is exactly as it was
before the call; and an overwrite that fails with any error, that of the store
included, leaves it as it was. -/
theorem C19_failed_delivery_writes_nothing (env : Env) (now : Int) (txn t : Txn)
    (ganyTx : Bytes) (blockTime txIndex : Int) (e : Err)
    (hput : putGanyTx env now txn ganyTx blockTime txIndex = (t, some e)) :
    (e ≠ .badgerErrTxnTooBig → t = txn) ∧
    (∀ b, GetBulletin env ganyTx = .ok b → b.OldSn ≠ [] → t = txn) := by
  constructor
  · intro he
    unfold putGanyTx at hput
    split at hput
    · injection hput with h1 _
      exact h1.symm
    · split at hput
      · exact createGanyTx_err hput he
      · exact overwriteBulletin_err hput
  · intro b hb hold
    rw [putGanyTx_overwrite hb hold] at hput
    exact overwriteBulletin_err hput

theorem C19_failed_delivery_writes_nothing_witness :
    putGanyTx demoEnv 100 demoTxn1 (demoTx [1, 1, 50, 9, 18, 6]) 1000 0 =
      ((putGanyTx demoEnv 100 demoTxn1 (demoTx [1, 1, 50, 9, 18, 6]) 1000 0).1,
        some .ErrTimestampTooLong) ∧
    Err.ErrTimestampTooLong ≠ .badgerErrTxnTooBig ∧
    (putGanyTx demoEnv 100 demoTxn1 (demoTx [1, 1, 50, 9, 18, 6]) 1000 0).1 = demoTxn1 :=
  ⟨by rfl, by decide,
    (C19_failed_delivery_writes_nothing demoEnv 100 demoTxn1 _
      (demoTx [1, 1, 50, 9, 18, 6]) 1000 0 .ErrTimestampTooLong (by rfl)).1 (by decide)⟩

/-! ## The index records of a creation -/

theorem createKey_take_head (env : Env) (b : Bulletin) (sn : Bytes) (hsn : sn.length = 8) :
    (createKey env b sn).take MainKeyHeadLen = getMainKeyHead env b := by
  rw [createKey_eq env b sn hsn, List.append_assoc]
  have h : MainKeyHeadLen = (getMainKeyHead env b).length := (getMainKeyHead_length env b).symm
  rw [h, List.take_left]

theorem mintSn_length (blockTimestamp txIndex : Int) :
    (mintSn blockTimestamp txIndex).length = 8 := rfl

theorem Get_congr {t1 t2 : Txn} {now : Int} {key : Bytes}
    (h : rawLookup key t1.entries = rawLookup key t2.entries) :
    t1.Get now key = t2.Get now key := by
  unfold Txn.Get
  rw [h]

/-- The three writes of an accepted creation, with the branch taken for the
slot-range bucket: it was absent, or present with an earlier expiration, or
present with an expiration not earlier than the new one. -/
theorem createGanyTx_writes {env : Env} {now : Int} {txn txn1 : Txn} {ganyTx : Bytes}
    {blockTimestamp txIndex : Int} {b : Bulletin}
    (hb : GetBulletin env ganyTx = .ok b) (hc : b.ContentList.length ≠ 0)
    (h : createGanyTx env now txn ganyTx blockTimestamp txIndex = (txn1, none)) :
    ∃ id t1 t2,
      GetBulletinID env ganyTx = .ok id ∧
      txn.SetEntry now (createKey env b (mintSn blockTimestamp txIndex))
        (b.GetTopicHash env ++ [0, 0, 0, 1] ++ id ++ ganyTx)
        (toValidTTL now b.Duration) = .ok t1 ∧
      t1.SetEntry now ([MainKeyHeadByte] ++ mintSn blockTimestamp txIndex)
        (getMainKeyHead env b) (toValidTTL now b.Duration) = .ok t2 ∧
      ((t2.Get now ([MainKeyHeadByte] ++ (mintSn blockTimestamp txIndex).take 7) =
            .error .badgerErrKeyNotFound ∧
          t2.SetEntry now ([MainKeyHeadByte] ++ (mintSn blockTimestamp txIndex).take 7)
            (getMainKeyHead env b) (toValidTTL now b.Duration) = .ok txn1) ∨
        (∃ item, t2.Get now ([MainKeyHeadByte] ++ (mintSn blockTimestamp txIndex).take 7) =
            .ok item ∧
          item.expiresAt < withTTL now (toValidTTL now b.Duration) ∧
          t2.SetEntry now ([MainKeyHeadByte] ++ (mintSn blockTimestamp txIndex).take 7)
            (copyAt [] 0 0 item.value ++ getMainKeyHead env b)
            (toValidTTL now b.Duration) = .ok txn1) ∨
        (∃ item, t2.Get now ([MainKeyHeadByte] ++ (mintSn blockTimestamp txIndex).take 7) =
            .ok item ∧
          ¬ item.expiresAt < withTTL now (toValidTTL now b.Duration) ∧
          t2.SetEntry now ([MainKeyHeadByte] ++ (mintSn blockTimestamp txIndex).take 7)
            (copyAt [] 0 0 item.value ++ getMainKeyHead env b)
            (wrap64 (toInt64 item.expiresAt - now)) = .ok txn1)) := by
  have hhead := createKey_take_head env b (mintSn blockTimestamp txIndex)
    (mintSn_length blockTimestamp txIndex)
  have hk1 : [MainKeyHeadByte] ++ (putUint64 (toUint64 blockTimestamp)).drop 3 ++
      (putUint64 (toUint64 txIndex)).drop 5 = [MainKeyHeadByte] ++ mintSn blockTimestamp txIndex :=
    rfl
  have hk2 : [MainKeyHeadByte] ++ (putUint64 (toUint64 blockTimestamp)).drop 3 ++
      ((putUint64 (toUint64 txIndex)).take 7).drop 5 =
      [MainKeyHeadByte] ++ (mintSn blockTimestamp txIndex).take 7 := rfl
  unfold createGanyTx at h
  rw [hb] at h
  simp only [hc, if_false, hhead, hk1, hk2] at h
  split at h
  · cases h
  · split at h
    · cases h
    · rename_i id hid
      split at h
      · cases h
      · rename_i t1 h1
        split at h
        · cases h
        · rename_i t2 h2
          refine ⟨id, t1, t2, hid, h1, h2, ?_⟩
          split at h
          · rename_i hg
            exact Or.inl ⟨hg, afterWrite_ok h⟩
          · cases h
          · rename_i item hg
            split at h
            · rename_i hlt
              exact Or.inr (Or.inl ⟨item, hg, hlt, afterWrite_ok h⟩)
            · rename_i hlt
              exact Or.inr (Or.inr ⟨item, hg, hlt, afterWrite_ok h⟩)

/-- The slot-range bucket as the creation sees it is the one in the transaction
before the call: the two earlier writes use longer keys. -/
theorem bucket_before {env : Env} {now : Int} {txn t1 t2 : Txn} {b : Bulletin} {sn v1 v2 : Bytes}
    {ttl1 ttl2 : Int} (hsn : sn.length = 8)
    (h1 : txn.SetEntry now (createKey env b sn) v1 ttl1 = .ok t1)
    (h2 : t1.SetEntry now ([MainKeyHeadByte] ++ sn) v2 ttl2 = .ok t2) :
    t2.Get now ([MainKeyHeadByte] ++ sn.take 7) = txn.Get now ([MainKeyHeadByte] ++ sn.take 7) := by
  obtain ⟨e1, _, _⟩ := SetEntry_ok h1
  obtain ⟨e2, _, _⟩ := SetEntry_ok h2
  apply Get_congr
  have hlen : ([MainKeyHeadByte] ++ sn.take 7).length = 8 := by
    rw [List.length_append, List.length_take, hsn]; rfl
  have hne1 : [MainKeyHeadByte] ++ sn.take 7 ≠ createKey env b sn := by
    intro hEq
    have := congrArg List.length hEq
    rw [hlen, createKey_length env b sn hsn] at this
    exact absurd this (by decide)
  have hne2 : [MainKeyHeadByte] ++ sn.take 7 ≠ [MainKeyHeadByte] ++ sn := by
    intro hEq
    have := congrArg List.length hEq
    rw [hlen, List.length_append, hsn] at this
    exact absurd this (by decide)
  rw [e2, rawLookup_insertEntry_ne _ _ _ _ hne2, e1, rawLookup_insertEntry_ne _ _ _ _ hne1]

/-- C13 (counterexample): after a single accepted creation (`N = 1`) the
slot-range value has 14 bytes, the length of a main-key head, not `13 * 1`. -/
theorem C13_bucket_entry_has_14_bytes :
    (putGanyTx demoEnv 100 demoTxn (demoTx [1, 100, 50, 9, 18, 6]) 110 0).2 = none ∧
    rawLookup [220, 0, 0, 0, 0, 110, 0, 0]
      (putGanyTx demoEnv 100 demoTxn (demoTx [1, 100, 50, 9, 18, 6]) 110 0).1.entries =
      some ⟨getMainKeyHead demoEnv demoBulletin, 3700⟩ ∧
    (getMainKeyHead demoEnv demoBulletin).length = 14 ∧
    (getMainKeyHead demoEnv demoBulletin).length ≠ 13 * 1 := by
  refine ⟨by rfl, by rfl, by rfl, by decide⟩

/-- C13 (amended): after an accepted creation the slot-range value stored at
`220 || BlockTime5 || TxIndexHi2` ends with the main-key head of that delivery,
an entry of `MainKeyHeadLen = 14` bytes; for the first creation of a bucket
(`N = 1`) the value is exactly that head, of length `14 * 1`. -/
theorem C13_bucket_ends_with_head (env : Env) (now : Int) (txn txn1 : Txn)
    (ganyTx : Bytes) (blockTime txIndex : Int) (b : Bulletin)
    (hb : GetBulletin env ganyTx = .ok b)
    (hnew : b.OldSn = []) (hcontent : b.ContentList ≠ [])
    (hput : putGanyTx env now txn ganyTx blockTime txIndex = (txn1, none)) :
    ∃ bucket,
      rawLookup ([MainKeyHeadByte] ++ (mintSn blockTime txIndex).take 7) txn1.entries =
        some bucket ∧
      (getMainKeyHead env b).length = 14 ∧
      bucket.value.drop (bucket.value.length - 14) = getMainKeyHead env b ∧
      (txn.Get now ([MainKeyHeadByte] ++ (mintSn blockTime txIndex).take 7) =
          .error .badgerErrKeyNotFound →
        bucket.value = getMainKeyHead env b ∧ bucket.value.length = 14 * 1) := by
  rw [putGanyTx_create hb hnew] at hput
  have hc : b.ContentList.length ≠ 0 := by
    intro h0
    exact hcontent (List.length_eq_zero.mp h0)
  have hlen := getMainKeyHead_length env b
  obtain ⟨id, t1, t2, _, h1, h2, h3⟩ := createGanyTx_writes hb hc hput
  have hbefore := bucket_before (mintSn_length blockTime txIndex) h1 h2
  have hends : ∀ v : Bytes, (v ++ getMainKeyHead env b).drop
      ((v ++ getMainKeyHead env b).length - 14) = getMainKeyHead env b := by
    intro v
    rw [List.length_append, hlen, Nat.add_sub_cancel, List.drop_left]
  rcases h3 with ⟨hg, hs⟩ | ⟨item, hg, _, hs⟩ | ⟨item, hg, _, hs⟩
  · obtain ⟨e3, _, _⟩ := SetEntry_ok hs
    refine ⟨⟨getMainKeyHead env b, withTTL now (toValidTTL now b.Duration)⟩, ?_, hlen, ?_, ?_⟩
    · rw [e3, rawLookup_insertEntry_self]
    · have := hends []
      rw [List.nil_append] at this
      exact this
    · intro _
      exact ⟨rfl, hlen⟩
  · obtain ⟨e3, _, _⟩ := SetEntry_ok hs
    refine ⟨⟨copyAt [] 0 0 item.value ++ getMainKeyHead env b,
      withTTL now (toValidTTL now b.Duration)⟩, ?_, hlen, hends _, ?_⟩
    · rw [e3, rawLookup_insertEntry_self]
    · intro habs
      rw [← hbefore, hg] at habs
      cases habs
  · obtain ⟨e3, _, _⟩ := SetEntry_ok hs
    refine ⟨⟨copyAt [] 0 0 item.value ++ getMainKeyHead env b,
      withTTL now (wrap64 (toInt64 item.expiresAt - now))⟩, ?_, hlen, hends _, ?_⟩
    · rw [e3, rawLookup_insertEntry_self]
    · intro habs
      rw [← hbefore, hg] at habs
      cases habs

theorem C13_bucket_ends_with_head_witness :
    GetBulletin demoEnv (demoTx [1, 100, 50, 9, 18, 6]) = .ok demoBulletin ∧
    demoBulletin.OldSn = [] ∧ demoBulletin.ContentList ≠ [] ∧
    putGanyTx demoEnv 100 demoTxn (demoTx [1, 100, 50, 9, 18, 6]) 110 0 = (demoTxn1, none) ∧
    ∃ bucket,
      rawLookup ([MainKeyHeadByte] ++ (mintSn 110 0).take 7) demoTxn1.entries = some bucket ∧
      (getMainKeyHead demoEnv demoBulletin).length = 14 ∧
      bucket.value.drop (bucket.value.length - 14) = getMainKeyHead demoEnv demoBulletin ∧
      (demoTxn.Get 100 ([MainKeyHeadByte] ++ (mintSn 110 0).take 7) =
          .error .badgerErrKeyNotFound →
        bucket.value = getMainKeyHead demoEnv demoBulletin ∧ bucket.value.length = 14 * 1) :=
  ⟨by rfl, by decide, by decide, by rfl,
    C13_bucket_ends_with_head demoEnv 100 demoTxn demoTxn1 (demoTx [1, 100, 50, 9, 18, 6])
      110 0 demoBulletin (by rfl) (by decide) (by decide) (by rfl)⟩

/-- C14 (counterexample): a second creation in the same bucket with the same
duration writes its main record with expiration `now + toValidTTL(duration)`
(3700) but rewrites the existing bucket with expiration 100: the three records
are not written with one and the same TTL when the bucket already existed. -/
theorem C14_existing_bucket_gets_another_ttl :
    (putGanyTx demoEnv 100 demoTxn1 (demoTx [1, 100, 50, 9, 52, 6]) 110 1).2 = none ∧
    withTTL 100 (toValidTTL 100 ({ demoBulletin with Topic := [52] } : Bulletin).Duration) =
      3700 ∧
    (rawLookup (createKey demoEnv { demoBulletin with Topic := [52] } (mintSn 110 1))
      (putGanyTx demoEnv 100 demoTxn1 (demoTx [1, 100, 50, 9, 52, 6]) 110 1).1.entries).map
        (fun e => e.expiresAt) = some 3700 ∧
    (rawLookup ([MainKeyHeadByte] ++ mintSn 110 1)
      (putGanyTx demoEnv 100 demoTxn1 (demoTx [1, 100, 50, 9, 52, 6]) 110 1).1.entries).map
        (fun e => e.expiresAt) = some 3700 ∧
    (rawLookup ([MainKeyHeadByte] ++ (mintSn 110 1).take 7)
      (putGanyTx demoEnv 100 demoTxn1 (demoTx [1, 100, 50, 9, 52, 6]) 110 1).1.entries).map
        (fun e => e.expiresAt) = some 100 := by
  refine ⟨by rfl, by decide, by rfl, by rfl, by rfl⟩

/-- C14 (amended): every accepted creation issues exactly three writes: the main
record, the by-SN index record at `220 || BlockTime5 || TxIndex3` whose value is
the main-key head, and the slot-range bucket at `220 || BlockTime5 ||
TxIndexHi2`; the main and the by-SN record are written with the TTL
`toValidTTL(bulletin.duration)`, and so is the bucket when it did not exist or
when its expiration lies before `now` plus that TTL. -/
theorem C14_creation_writes_three_records (env : Env) (now : Int) (txn txn1 : Txn)
    (ganyTx : Bytes) (blockTime txIndex : Int) (b : Bulletin)
    (hb : GetBulletin env ganyTx = .ok b)
    (hnew : b.OldSn = []) (hcontent : b.ContentList ≠ [])
    (hput : putGanyTx env now txn ganyTx blockTime txIndex = (txn1, none)) :
    ∃ id bucket,
      GetBulletinID env ganyTx = .ok id ∧
      txn1.count = txn.count + 3 ∧
      txn1.entries =
        insertEntry ([MainKeyHeadByte] ++ (mintSn blockTime txIndex).take 7) bucket
          (insertEntry ([MainKeyHeadByte] ++ mintSn blockTime txIndex)
            ⟨getMainKeyHead env b, withTTL now (toValidTTL now b.Duration)⟩
            (insertEntry
              (getMainKeyHead env b ++ mintSn blockTime txIndex ++ (sum64 env b.From).take 8)
              ⟨env.sha256 b.Topic ++ [0, 0, 0, 1] ++ id ++ ganyTx,
                withTTL now (toValidTTL now b.Duration)⟩ txn.entries)) ∧
      (txn.Get now ([MainKeyHeadByte] ++ (mintSn blockTime txIndex).take 7) =
          .error .badgerErrKeyNotFound →
        bucket = ⟨getMainKeyHead env b, withTTL now (toValidTTL now b.Duration)⟩) ∧
      (∀ old, txn.Get now ([MainKeyHeadByte] ++ (mintSn blockTime txIndex).take 7) = .ok old →
        old.expiresAt < withTTL now (toValidTTL now b.Duration) →
        bucket.expiresAt = withTTL now (toValidTTL now b.Duration)) := by
  rw [putGanyTx_create hb hnew] at hput
  have hc : b.ContentList.length ≠ 0 := by
    intro h0
    exact hcontent (List.length_eq_zero.mp h0)
  obtain ⟨id, t1, t2, hid, h1, h2, h3⟩ := createGanyTx_writes hb hc hput
  have hbefore := bucket_before (mintSn_length blockTime txIndex) h1 h2
  rw [createKey_eq env b _ (mintSn_length blockTime txIndex)] at h1
  obtain ⟨e1, c1, _⟩ := SetEntry_ok h1
  obtain ⟨e2, c2, _⟩ := SetEntry_ok h2
  rcases h3 with ⟨hg, hs⟩ | ⟨item, hg, hlt, hs⟩ | ⟨item, hg, hlt, hs⟩
  · obtain ⟨e3, c3, _⟩ := SetEntry_ok hs
    refine ⟨id, ⟨getMainKeyHead env b, withTTL now (toValidTTL now b.Duration)⟩, hid,
      by omega, ?_, fun _ => rfl, fun _ _ _ => rfl⟩
    rw [e3, e2, e1]
    rfl
  · obtain ⟨e3, c3, _⟩ := SetEntry_ok hs
    refine ⟨id, ⟨copyAt [] 0 0 item.value ++ getMainKeyHead env b,
      withTTL now (toValidTTL now b.Duration)⟩, hid, by omega, ?_, ?_, fun _ _ _ => rfl⟩
    · rw [e3, e2, e1]
      rfl
    · intro habs
      rw [← hbefore, hg] at habs
      cases habs
  · obtain ⟨e3, c3, _⟩ := SetEntry_ok hs
    refine ⟨id, ⟨copyAt [] 0 0 item.value ++ getMainKeyHead env b,
      withTTL now (wrap64 (toInt64 item.expiresAt - now))⟩, hid, by omega, ?_, ?_, ?_⟩
    · rw [e3, e2, e1]
      rfl
    · intro habs
      rw [← hbefore, hg] at habs
      cases habs
    · intro old hold hlt2
      rw [← hbefore, hg] at hold
      injection hold with hold
      rw [hold] at hlt
      exact absurd hlt2 hlt

theorem C14_creation_writes_three_records_witness :
    GetBulletin demoEnv (demoTx [1, 100, 50, 9, 18, 6]) = .ok demoBulletin ∧
    demoBulletin.OldSn = [] ∧ demoBulletin.ContentList ≠ [] ∧
    putGanyTx demoEnv 100 demoTxn (demoTx [1, 100, 50, 9, 18, 6]) 110 0 = (demoTxn1, none) ∧
    ∃ id bucket,
      GetBulletinID demoEnv (demoTx [1, 100, 50, 9, 18, 6]) = .ok id ∧
      demoTxn1.count = demoTxn.count + 3 ∧
      demoTxn1.entries =
        insertEntry ([MainKeyHeadByte] ++ (mintSn 110 0).take 7) bucket
          (insertEntry ([MainKeyHeadByte] ++ mintSn 110 0)
            ⟨getMainKeyHead demoEnv demoBulletin,
              withTTL 100 (toValidTTL 100 demoBulletin.Duration)⟩
            (insertEntry
              (getMainKeyHead demoEnv demoBulletin ++ mintSn 110 0 ++
                (sum64 demoEnv demoBulletin.From).take 8)
              ⟨demoEnv.sha256 demoBulletin.Topic ++ [0, 0, 0, 1] ++ id ++
                  demoTx [1, 100, 50, 9, 18, 6],
                withTTL 100 (toValidTTL 100 demoBulletin.Duration)⟩ demoTxn.entries)) ∧
      (demoTxn.Get 100 ([MainKeyHeadByte] ++ (mintSn 110 0).take 7) =
          .error .badgerErrKeyNotFound →
        bucket = ⟨getMainKeyHead demoEnv demoBulletin,
          withTTL 100 (toValidTTL 100 demoBulletin.Duration)⟩) ∧
      (∀ old, demoTxn.Get 100 ([MainKeyHeadByte] ++ (mintSn 110 0).take 7) = .ok old →
        old.expiresAt < withTTL 100 (toValidTTL 100 demoBulletin.Duration) →
        bucket.expiresAt = withTTL 100 (toValidTTL 100 demoBulletin.Duration)) :=
  ⟨by rfl, by decide, by decide, by rfl,
    C14_creation_writes_three_records demoEnv 100 demoTxn demoTxn1
      (demoTx [1, 100, 50, 9, 18, 6]) 110 0 demoBulletin (by rfl) (by decide) (by decide)
      (by rfl)⟩

/-! ## The envelope -/

/-- The envelope of `CreateGanyTx` is the 16-byte header of the four lengths
followed by the four payloads. -/
theorem CreateGanyTx_eq (sp bul ap ac : Bytes) :
    CreateGanyTx sp bul ap ac =
      (putUint32 (toUint32 sp.length) ++ putUint32 (toUint32 bul.length) ++
        putUint32 (toUint32 ap.length) ++ putUint32 (toUint32 ac.length)) ++
        sp ++ bul ++ ap ++ ac := by
  unfold CreateGanyTx
  simp only [putUint32, copyAt, zeros, TxFieldLengthsLen]
  rfl

/-- With a payment payload and a bulletin payload of `2^31` bytes each, the
offset `uint32(L_sp) + uint32(L_bul)` of the auth proof wraps around to 0, and
`GetAuthProofBytes` returns the first bytes of the payment payload. -/
theorem GetAuthProofBytes_wrapped (sp bul : Bytes) (hsp : sp.length = 2 ^ 31)
    (hbul : bul.length = 2 ^ 31) :
    GetAuthProofBytes (CreateGanyTx sp bul [1, 2, 3] []) = .ok (sp.take 3) := by
  rw [CreateGanyTx_eq, hsp, hbul]
  have hh : putUint32 (toUint32 (2 ^ 31)) ++ putUint32 (toUint32 (2 ^ 31)) ++
      putUint32 (toUint32 ([1, 2, 3] : Bytes).length) ++ putUint32 (toUint32 ([] : Bytes).length) =
      [128, 0, 0, 0, 128, 0, 0, 0, 0, 0, 0, 3, 0, 0, 0, 0] := by decide
  rw [hh]
  have e3 : (2 : Nat) ^ 31 = 2147483648 := by norm_num
  rw [e3] at hsp hbul
  unfold GetAuthProofBytes
  have hlen : ¬ ([128, 0, 0, 0, 128, 0, 0, 0, 0, 0, 0, 3, 0, 0, 0, 0] ++ sp ++ bul ++
      [1, 2, 3] ++ []).length < TxFieldLengthsLen := by
    simp only [List.length_append, List.length_cons, List.length_nil, TxFieldLengthsLen]
    omega
  rw [if_neg hlen]
  have t4 : ([128, 0, 0, 0, 128, 0, 0, 0, 0, 0, 0, 3, 0, 0, 0, 0] ++ sp ++ bul ++
      [1, 2, 3] ++ []).take 4 = [128, 0, 0, 0] := by
    simp only [List.append_assoc]
    rfl
  have t8 : ([128, 0, 0, 0, 128, 0, 0, 0, 0, 0, 0, 3, 0, 0, 0, 0] ++ sp ++ bul ++
      [1, 2, 3] ++ []).take 8 = [128, 0, 0, 0, 128, 0, 0, 0] := by
    simp only [List.append_assoc]
    rfl
  have t12 : ([128, 0, 0, 0, 128, 0, 0, 0, 0, 0, 0, 3, 0, 0, 0, 0] ++ sp ++ bul ++
      [1, 2, 3] ++ []).take 12 = [128, 0, 0, 0, 128, 0, 0, 0, 0, 0, 0, 3] := by
    simp only [List.append_assoc]
    rfl
  simp only [t4, t8, t12]
  have u1 : uint32 [128, 0, 0, 0] = 2147483648 := by decide
  have u2 : uint32 (List.drop 4 [128, 0, 0, 0, 128, 0, 0, 0]) = 2147483648 := by decide
  have u3 : uint32 (List.drop 8 [128, 0, 0, 0, 128, 0, 0, 0, 0, 0, 0, 3]) = 3 := by decide
  have u4 : toUint32 (2147483648 + 2147483648) = 0 := by decide
  simp only [u1, u2, u3, u4, TxFieldLengthsLen]
  rw [if_neg (by decide)]
  unfold GetBytesSlice slice
  have hl2 : ¬ ([128, 0, 0, 0, 128, 0, 0, 0, 0, 0, 0, 3, 0, 0, 0, 0] ++ sp ++ bul ++
      [1, 2, 3] ++ []).length < 0 + 16 + 3 := by
    simp only [List.length_append, List.length_cons, List.length_nil]
    omega
  rw [if_neg hl2, if_pos ⟨by decide, by omega⟩]
  congr 1
  obtain ⟨a, sp1, rfl⟩ : ∃ a sp1, sp = a :: sp1 := by
    cases sp with
    | nil => simp at hsp
    | cons a sp1 => exact ⟨a, sp1, rfl⟩
  obtain ⟨a2, sp2, rfl⟩ : ∃ a sp2, sp1 = a :: sp2 := by
    cases sp1 with
    | nil => simp at hsp
    | cons a sp2 => exact ⟨a, sp2, rfl⟩
  obtain ⟨a3, sp3, rfl⟩ : ∃ a sp3, sp2 = a :: sp3 := by
    cases sp2 with
    | nil => simp at hsp
    | cons a sp3 => exact ⟨a, sp3, rfl⟩
  rfl

/-- C20 (evaluation of the code at the failing input): for a payment payload and
a bulletin payload of `2^31` zero bytes each (both shorter than `2^32`) and the
auth proof `[1, 2, 3]`, `GetAuthProofBytes` applied to the envelope of
`CreateGanyTx` returns `[0, 0, 0]`, three bytes of the payment payload, not the
auth proof. -/
theorem C20_auth_proof_round_trip_fails :
    (List.replicate (2 ^ 31) 0 : Bytes).length < 2 ^ 32 ∧
    ([1, 2, 3] : Bytes).length < 2 ^ 32 ∧ ([] : Bytes).length < 2 ^ 32 ∧
    GetAuthProofBytes
      (CreateGanyTx (List.replicate (2 ^ 31) 0) (List.replicate (2 ^ 31) 0) [1, 2, 3] []) =
      .ok [0, 0, 0] ∧
    ([0, 0, 0] : Bytes) ≠ [1, 2, 3] := by
  refine ⟨?_, by decide, by decide, ?_, by decide⟩
  · rw [List.length_replicate]
    norm_num
  · rw [GetAuthProofBytes_wrapped _ _ (List.length_replicate _ _) (List.length_replicate _ _),
      List.take_replicate]
    rfl

/-! ## The lexicographic order of keys -/

theorem bytesLt_irrefl (a : Bytes) : bytesLt a a = false := by
  induction a with
  | nil => rfl
  | cons x xs ih => simp [bytesLt, ih]

theorem bytesLt_cons (x y : Nat) (xs ys : Bytes) :
    bytesLt (x :: xs) (y :: ys) = if x < y then true else if y < x then false else bytesLt xs ys :=
  rfl

theorem bytesLt_asymm {a b : Bytes} (h : bytesLt a b = true) : bytesLt b a = false := by
  induction a generalizing b with
  | nil =>
    cases b with
    | nil => rfl
    | cons y ys => rfl
  | cons x xs ih =>
    cases b with
    | nil => simp [bytesLt] at h
    | cons y ys =>
      rw [bytesLt_cons] at h ⊢
      by_cases h1 : x < y
      · rw [if_neg (by omega), if_pos h1]
      · rw [if_neg h1] at h
        by_cases h2 : y < x
        · rw [if_pos h2] at h
          cases h
        · rw [if_neg h2] at h
          rw [if_neg h2, if_neg h1]
          exact ih h

theorem bytesLt_trans {a b c : Bytes} (h1 : bytesLt a b = true) (h2 : bytesLt b c = true) :
    bytesLt a c = true := by
  induction a generalizing b c with
  | nil =>
    cases c with
    | nil =>
      cases b with
      | nil => exact h1
      | cons y ys => simp [bytesLt] at h2
    | cons z zs => rfl
  | cons x xs ih =>
    cases b with
    | nil => simp [bytesLt] at h1
    | cons y ys =>
      cases c with
      | nil => simp [bytesLt] at h2
      | cons z zs =>
        rw [bytesLt_cons] at h1 h2 ⊢
        by_cases hxy : x < y
        · by_cases hyz : y < z
          · rw [if_pos (by omega)]
          · rw [if_neg hyz] at h2
            by_cases hzy : z < y
            · rw [if_pos hzy] at h2
              cases h2
            · rw [if_pos (by omega)]
        · rw [if_neg hxy] at h1
          by_cases hyx : y < x
          · rw [if_pos hyx] at h1
            cases h1
          · rw [if_neg hyx] at h1
            have hx : x = y := by omega
            subst hx
            by_cases hyz : x < z
            · rw [if_pos hyz]
            · rw [if_neg hyz] at h2 ⊢
              by_cases hzy : z < x
              · rw [if_pos hzy] at h2
                cases h2
              · rw [if_neg hzy] at h2 ⊢
                exact ih h1 h2

theorem bytesLt_total {a b : Bytes} (h1 : bytesLt a b = false) (h2 : bytesLt b a = false) :
    a = b := by
  induction a generalizing b with
  | nil =>
    cases b with
    | nil => rfl
    | cons y ys => simp [bytesLt] at h1
  | cons x xs ih =>
    cases b with
    | nil => simp [bytesLt] at h2
    | cons y ys =>
      rw [bytesLt_cons] at h1 h2
      by_cases hxy : x < y
      · rw [if_pos hxy] at h1
        cases h1
      · rw [if_neg hxy] at h1 h2
        by_cases hyx : y < x
        · rw [if_pos hyx] at h2
          cases h2
        · rw [if_neg hyx] at h1 h2
          have hx : x = y := by omega
          rw [hx, ih h1 h2]

theorem bytesLt_append_left (p a b : Bytes) : bytesLt (p ++ a) (p ++ b) = bytesLt a b := by
  induction p with
  | nil => rfl
  | cons x xs ih =>
    rw [List.cons_append, List.cons_append, bytesLt_cons, if_neg (Nat.lt_irrefl x),
      if_neg (Nat.lt_irrefl x), ih]

/-- Comparing two strings that start with blocks of the same length compares the
blocks first and, when they agree, the rests. -/
theorem bytesLt_append_of_length_eq (x y r s : Bytes) (h : x.length = y.length) :
    bytesLt (x ++ r) (y ++ s) =
      if bytesLt x y = true then true else if bytesLt y x = true then false else bytesLt r s := by
  induction x generalizing y with
  | nil =>
    cases y with
    | nil => simp [bytesLt]
    | cons b ys => simp at h
  | cons a xs ih =>
    cases y with
    | nil => simp at h
    | cons b ys =>
      have hl : xs.length = ys.length := by simpa using h
      rw [List.cons_append, List.cons_append, bytesLt_cons, bytesLt_cons, bytesLt_cons, ih ys hl]
      by_cases hab : a < b
      · simp [hab]
      · by_cases hba : b < a
        · simp [hab, hba]
        · simp [hab, hba]

/-- A key between two keys that start with the same block starts with that block. -/
theorem between_prefix (p : Bytes) (k s t : Bytes)
    (h1 : bytesLt k (p ++ s) = false) (h2 : bytesLt (p ++ t) k = false) :
    ∃ r, k = p ++ r := by
  induction p generalizing k with
  | nil => exact ⟨k, rfl⟩
  | cons a ps ih =>
    cases k with
    | nil => simp [bytesLt] at h1
    | cons b ks =>
      rw [List.cons_append, bytesLt_cons] at h1 h2
      by_cases hba : b < a
      · rw [if_pos hba] at h1
        cases h1
      · rw [if_neg hba] at h1 h2
        by_cases hab : a < b
        · rw [if_pos hab] at h2
          cases h2
        · rw [if_neg hab] at h1 h2
          have hx : b = a := by omega
          subst hx
          obtain ⟨r, hr⟩ := ih ks h1 h2
          exact ⟨r, by rw [hr]; rfl⟩

/-! ## The range query -/

theorem queryValue_some {env : Env} {topicHash value : Bytes} {b : Bulletin}
    (h : queryValue env topicHash value = .ok (some b)) :
    value.take 32 = topicHash ∧ 36 + uint32 ((value.take 36).drop 32) * 64 ≤ value.length ∧
      GetBulletin env (envelopeOf value) = .ok b := by
  unfold queryValue at h
  cases h0 : slice value 0 32 with
  | error e => rw [h0] at h; cases h
  | ok hd =>
    rw [h0] at h
    obtain ⟨_, _, hhd⟩ := slice_ok h0
    rw [List.drop_zero] at hhd
    simp only at h
    by_cases hne : hd ≠ topicHash
    · rw [if_pos hne] at h
      cases h
    · rw [if_neg hne] at h
      have heq : hd = topicHash := not_not.mp hne
      cases h1 : slice value TopicHashEnd HistoryCountEnd with
      | error e => rw [h1] at h; cases h
      | ok c =>
        rw [h1] at h
        obtain ⟨_, _, hc⟩ := slice_ok h1
        simp only at h
        cases h2 : sliceFrom value (HistoryCountEnd + uint32 c * BulletinIdLen) with
        | error e => rw [h2] at h; cases h
        | ok s =>
          rw [h2] at h
          obtain ⟨hle, _, hs⟩ := slice_ok h2
          rw [List.take_length] at hs
          simp only [List.nil_append] at h
          cases h3 : GetBulletin env s with
          | error e => rw [h3] at h; cases h
          | ok b1 =>
            rw [h3] at h
            injection h with h
            injection h with h
            subst h
            subst hc
            refine ⟨by rw [← hhd, heq], hle, ?_⟩
            unfold envelopeOf
            rw [hs] at h3
            exact h3

/-- The bulletins that `queryLoop` returns are those of a sub-sequence of the
items it was given, none of them below `keyStart`, in the order of the items. -/
theorem queryLoop_visited (env : Env) (topicHash : Bytes) (excludeSNs : List String)
    (keyStart : Bytes) (items : List (Bytes × Entry)) :
    ∀ (acc : List Bulletin) (num : Nat) (res : List Bulletin) (n : Nat),
      queryLoop env topicHash excludeSNs keyStart items acc num = .ok (res, n) →
      ∃ vis : List (Bytes × Entry),
        vis.Sublist items ∧
        (∀ kv ∈ vis, bytesLt kv.1 keyStart = false ∧ 22 ≤ kv.1.length ∧
          kv.2.value.take 32 = topicHash) ∧
        res.map (fun b => (Except.ok b : Except Err Bulletin)) =
          acc.map (fun b => (Except.ok b : Except Err Bulletin)) ++
            vis.map (fun kv => GetBulletin env (envelopeOf kv.2.value)) ∧
        n = num + vis.length := by
  induction items with
  | nil =>
    intro acc num res n h
    unfold queryLoop at h
    injection h with h
    injection h with h1 h2
    exact ⟨[], List.Sublist.refl _, by simp, by simp [h1], by simp [h2]⟩
  | cons kv rest ih =>
    obtain ⟨key, item⟩ := kv
    intro acc num res n h
    unfold queryLoop at h
    by_cases hlt : bytesLt key keyStart = true
    · rw [if_pos hlt] at h
      injection h with h
      injection h with h1 h2
      exact ⟨[], List.nil_sublist _, by simp, by simp [h1], by simp [h2]⟩
    · rw [if_neg hlt] at h
      have hge : bytesLt key keyStart = false := by simpa using hlt
      cases hs : slice key MainKeyHeadLen (MainKeyHeadLen + 8) with
      | error e => rw [hs] at h; cases h
      | ok sn =>
        rw [hs] at h
        obtain ⟨_, hklen, _⟩ := slice_ok hs
        simp only at h
        by_cases hex : hexEncode sn ∈ excludeSNs
        · rw [if_pos hex] at h
          obtain ⟨vis, hsub, hall, hres, hn⟩ := ih acc num res n h
          exact ⟨vis, List.Sublist.cons _ hsub, hall, hres, hn⟩
        · rw [if_neg hex] at h
          cases hv : queryValue env topicHash item.value with
          | error e => rw [hv] at h; cases h
          | ok r =>
            rw [hv] at h
            cases r with
            | none =>
              simp only at h
              split at h
              · injection h with h
                injection h with h1 h2
                exact ⟨[], List.nil_sublist _, by simp, by simp [h1], by simp [h2]⟩
              · split at h
                · injection h with h
                  injection h with h1 h2
                  exact ⟨[], List.nil_sublist _, by simp, by simp [h1], by simp [h2]⟩
                · obtain ⟨vis, hsub, hall, hres, hn⟩ := ih acc num res n h
                  exact ⟨vis, List.Sublist.cons _ hsub, hall, hres, hn⟩
            | some b =>
              simp only at h
              obtain ⟨hth, _, hdec⟩ := queryValue_some hv
              have hone : ∀ kv ∈ [(key, item)], bytesLt kv.1 keyStart = false ∧
                  22 ≤ kv.1.length ∧ kv.2.value.take 32 = topicHash := by
                intro kv hkv
                rw [List.mem_singleton] at hkv
                subst hkv
                exact ⟨hge, hklen, hth⟩
              have hstop : ∀ res n, (Except.ok (acc ++ [b], num + 1) :
                  Except Err (List Bulletin × Nat)) = .ok (res, n) →
                  ∃ vis : List (Bytes × Entry),
                    vis.Sublist ((key, item) :: rest) ∧
                    (∀ kv ∈ vis, bytesLt kv.1 keyStart = false ∧ 22 ≤ kv.1.length ∧
                      kv.2.value.take 32 = topicHash) ∧
                    res.map (fun b => (Except.ok b : Except Err Bulletin)) =
                      acc.map (fun b => (Except.ok b : Except Err Bulletin)) ++
                        vis.map (fun kv => GetBulletin env (envelopeOf kv.2.value)) ∧
                    n = num + vis.length := by
                intro res n h
                injection h with h
                injection h with h1 h2
                refine ⟨[(key, item)], ?_, hone, ?_, ?_⟩
                · exact List.Sublist.cons₂ _ (List.nil_sublist _)
                · rw [← h1]
                  simp [hdec]
                · rw [← h2]
                  rfl
              split at h
              · exact hstop res n h
              · split at h
                · exact hstop res n h
                · obtain ⟨vis, hsub, hall, hres, hn⟩ := ih (acc ++ [b]) (num + 1) res n h
                  refine ⟨(key, item) :: vis, List.Sublist.cons₂ _ hsub, ?_, ?_, ?_⟩
                  · intro kv hkv
                    rcases List.mem_cons.mp hkv with hkv | hkv
                    · exact hone kv (by rw [hkv]; exact List.mem_singleton.mpr rfl)
                    · exact hall kv hkv
                  · rw [hres]
                    simp [hdec]
                  · rw [hn]
                    simp only [List.length_cons]
                    omega

theorem take5_drop3_length (v : Nat) : ((putUint64 v).drop 3).length = 5 := rfl

/-- The first twenty-nine bytes of a string of at least that length, cut into the
blocks of eight, five and sixteen bytes that the range keys are made of. -/
theorem take29_blocks (s : Bytes) :
    s.take 29 = s.take 8 ++ (s.drop 8).take 5 ++ ((s.drop 8).drop 5).take 16 := by
  have h1 : s.take 29 = s.take 8 ++ (s.drop 8).take 21 := List.take_add s 8 21
  have h2 : (s.drop 8).take 21 = (s.drop 8).take 5 ++ ((s.drop 8).drop 5).take 16 :=
    List.take_add (s.drop 8) 5 16
  rw [h1, h2, List.append_assoc]

/-- The key `keyStart` of a range query is the type byte, the leading eight bytes
of `sum64(topicHash)`, the low five bytes of the start time and sixteen zero
bytes. -/
theorem queryKeyStart_eq (env : Env) (typ : Nat) (topicHash : Bytes) (startTime : Int)
    (hth : topicHash.length = 32) :
    queryKeyStart env typ topicHash startTime =
      ([typ] ++ (sum64 env topicHash).take 8) ++ (putUint64 (toUint64 startTime)).drop 3 ++
        zeros 16 := by
  have hs : (sum64 env topicHash).length = 40 := by rw [sum64_length, hth]
  unfold queryKeyStart
  generalize sum64 env topicHash = s at hs
  have e1 : copyAt (zeros MainKeyLen) 0 1 [typ] = [typ] ++ zeros 29 := rfl
  have e2 : copyAt ([typ] ++ zeros 29) 1 MainKeyLen s = [typ] ++ s.take 29 := by
    have := copyAt_mid [typ] (zeros 29) [] s 30 (by rw [zeros_length, hs]; rfl)
    rw [zeros_length, List.append_nil, List.append_nil] at this
    exact this
  have hA : (s.take 8).length = 8 := by rw [List.length_take, hs]; rfl
  have hB : ((s.drop 8).take 5).length = 5 := by
    rw [List.length_take, List.length_drop, hs]; rfl
  have hC : (((s.drop 8).drop 5).take 16).length = 16 := by
    rw [List.length_take, List.length_drop, List.length_drop, hs]; rfl
  have e3 : copyAt ([typ] ++ s.take 29) 9 14 ((putUint64 (toUint64 startTime)).drop 3) =
      ([typ] ++ s.take 8) ++ (putUint64 (toUint64 startTime)).drop 3 ++
        ((s.drop 8).drop 5).take 16 := by
    have := copyAt_mid ([typ] ++ s.take 8) ((s.drop 8).take 5) (((s.drop 8).drop 5).take 16)
      ((putUint64 (toUint64 startTime)).drop 3) 14
      (by rw [List.length_append, hA, hB, take5_drop3_length]; rfl)
    rw [List.length_append, hA, hB] at this
    rw [take29_blocks, ← List.append_assoc, ← List.append_assoc]
    exact this
  have e4 : copyAt (([typ] ++ s.take 8) ++ (putUint64 (toUint64 startTime)).drop 3 ++
      ((s.drop 8).drop 5).take 16) 14 MainKeyLen (zeros 16) =
      ([typ] ++ s.take 8) ++ (putUint64 (toUint64 startTime)).drop 3 ++ zeros 16 := by
    have := copyAt_mid (([typ] ++ s.take 8) ++ (putUint64 (toUint64 startTime)).drop 3)
      (((s.drop 8).drop 5).take 16) [] (zeros 16) 30
      (by rw [List.length_append, List.length_append, hA, hC, take5_drop3_length,
        zeros_length]; rfl)
    rw [List.length_append, List.length_append, hA, hC, take5_drop3_length, List.append_nil,
      List.append_nil] at this
    exact this
  simp only [e1, e2, e3, e4]

/-- The key `keyEnd` of a range query is the type byte, the leading eight bytes
of `sum64(topicHash)`, the low five bytes of the end time and sixteen bytes
`0xff`. -/
theorem queryKeyEnd_eq (env : Env) (typ : Nat) (topicHash : Bytes) (endTime : Int)
    (hth : topicHash.length = 32) :
    queryKeyEnd env typ topicHash endTime =
      ([typ] ++ (sum64 env topicHash).take 8) ++ (putUint64 (toUint64 endTime)).drop 3 ++
        List.replicate 16 255 := by
  have hs : (sum64 env topicHash).length = 40 := by rw [sum64_length, hth]
  unfold queryKeyEnd
  generalize sum64 env topicHash = s at hs
  have e1 : copyAt (zeros MainKeyLen) 0 1 [typ] = [typ] ++ zeros 29 := rfl
  have e2 : copyAt ([typ] ++ zeros 29) 1 MainKeyLen s = [typ] ++ s.take 29 := by
    have := copyAt_mid [typ] (zeros 29) [] s 30 (by rw [zeros_length, hs]; rfl)
    rw [zeros_length, List.append_nil, List.append_nil] at this
    exact this
  have hA : (s.take 8).length = 8 := by rw [List.length_take, hs]; rfl
  have hB : ((s.drop 8).take 5).length = 5 := by
    rw [List.length_take, List.length_drop, hs]; rfl
  have hAB : (([typ] ++ s.take 8) ++ (s.drop 8).take 5).length = 14 := by
    rw [List.length_append, List.length_append, hA, hB]; rfl
  have e3 : ([typ] ++ s.take 29).take MainKeyHeadLen = ([typ] ++ s.take 8) ++ (s.drop 8).take 5 := by
    rw [take29_blocks, ← List.append_assoc, ← List.append_assoc]
    have h14 : MainKeyHeadLen = (([typ] ++ s.take 8) ++ (s.drop 8).take 5).length := hAB.symm
    rw [h14, List.take_left]
  have e4 : copyAt (zeros MainKeyLen) 0 MainKeyHeadLen (([typ] ++ s.take 8) ++ (s.drop 8).take 5) =
      ([typ] ++ s.take 8) ++ (s.drop 8).take 5 ++ zeros 16 := by
    have := copyAt_mid [] (zeros 14) (zeros 16) (([typ] ++ s.take 8) ++ (s.drop 8).take 5) 14
      (by rw [zeros_length, hAB]; rfl)
    have t : (([typ] ++ s.take 8) ++ (s.drop 8).take 5).take 14 =
        ([typ] ++ s.take 8) ++ (s.drop 8).take 5 := by
      rw [← hAB, List.take_length]
    rw [zeros_length, t, List.nil_append, List.nil_append] at this
    exact this
  have e5 : copyAt (([typ] ++ s.take 8) ++ (s.drop 8).take 5 ++ zeros 16) 9 14
      ((putUint64 (toUint64 endTime)).drop 3) =
      ([typ] ++ s.take 8) ++ (putUint64 (toUint64 endTime)).drop 3 ++ zeros 16 := by
    have := copyAt_mid ([typ] ++ s.take 8) ((s.drop 8).take 5) (zeros 16)
      ((putUint64 (toUint64 endTime)).drop 3) 14
      (by rw [List.length_append, hA, hB, take5_drop3_length]; rfl)
    rw [List.length_append, hA, hB] at this
    exact this
  have e6 : copyAt (([typ] ++ s.take 8) ++ (putUint64 (toUint64 endTime)).drop 3 ++ zeros 16)
      14 MainKeyLen (List.replicate 16 255) =
      ([typ] ++ s.take 8) ++ (putUint64 (toUint64 endTime)).drop 3 ++ List.replicate 16 255 := by
    have := copyAt_mid (([typ] ++ s.take 8) ++ (putUint64 (toUint64 endTime)).drop 3)
      (zeros 16) [] (List.replicate 16 255) 30
      (by rw [List.length_append, List.length_append, hA, take5_drop3_length, zeros_length,
        List.length_replicate]; rfl)
    rw [List.length_append, List.length_append, hA, take5_drop3_length, zeros_length,
      List.append_nil, List.append_nil] at this
    exact this
  simp only [e1, e2, e3, e4, e5, e6]

/-- On a list ordered by `R`, when `q` can only turn from true to false along
`R`, dropping the leading `q`-elements leaves exactly the others. -/
theorem dropWhile_eq_filter {α : Type} (R : α → α → Prop) (q : α → Bool) (l : List α)
    (hl : l.Pairwise R) (hq : ∀ a b, R a b → q a = false → q b = false) :
    l.dropWhile q = l.filter (fun x => !q x) := by
  induction l with
  | nil => rfl
  | cons a rest ih =>
    rw [List.pairwise_cons] at hl
    by_cases ha : q a = true
    · rw [List.dropWhile_cons_of_pos ha, List.filter_cons_of_neg (by simp [ha])]
      exact ih hl.2
    · have ha2 : q a = false := by simpa using ha
      rw [List.dropWhile_cons_of_neg ha, List.filter_cons_of_pos (by simp [ha2])]
      congr 1
      symm
      apply List.filter_eq_self.mpr
      intro b hb
      simp [hq a b (hl.1 b hb) ha2]

/-- On a list ordered by `R`, when `p` can only turn from true to false along
`R`, the leading `p`-elements are all the `p`-elements. -/
theorem takeWhile_eq_filter {α : Type} (R : α → α → Prop) (p : α → Bool) (l : List α)
    (hl : l.Pairwise R) (hp : ∀ a b, R a b → p a = false → p b = false) :
    l.takeWhile p = l.filter p := by
  induction l with
  | nil => rfl
  | cons a rest ih =>
    rw [List.pairwise_cons] at hl
    by_cases ha : p a = true
    · rw [List.takeWhile_cons_of_pos ha, List.filter_cons_of_pos ha, ih hl.2]
    · have ha2 : p a = false := by simpa using ha
      rw [List.takeWhile_cons_of_neg ha, List.filter_cons_of_neg ha]
      symm
      apply List.filter_eq_nil_iff.mpr
      intro b hb
      simp [hp a b (hl.1 b hb) ha2]

/-- The live records of a store in ascending key order, read backwards, are in
descending key order. -/
theorem live_reverse_descending (now : Int) (l : List (Bytes × Entry)) (h : keysAscending l) :
    ((l.filter (fun kv => !expired now kv.2)).reverse).Pairwise
      (fun a b => bytesLt b.1 a.1 = true) := by
  rw [List.pairwise_reverse]
  exact List.Pairwise.filter _ h

/-- The items a reverse iterator yields from `k` on are the live records with a
key not above `k`, in descending key order. -/
theorem iterReverse_eq (txn : Txn) (now : Int) (k : Bytes) (h : keysAscending txn.entries) :
    txn.iterReverse now k =
      ((txn.entries.filter (fun kv => !expired now kv.2)).reverse).filter
        (fun kv => !bytesLt k kv.1) := by
  unfold Txn.iterReverse
  apply dropWhile_eq_filter _ _ _ (live_reverse_descending now txn.entries h)
  intro a b hab ha
  cases hb : bytesLt k b.1 with
  | false => rfl
  | true =>
    have := bytesLt_trans hb hab
    rw [this] at ha
    cases ha

theorem take14_drop9 (p r : Bytes) (hp : p.length = 9) :
    ((p ++ r).take 14).drop 9 = r.take 5 := by
  rw [List.take_append_eq_append_take, hp, List.take_of_length_le (by omega),
    List.drop_left' hp]

theorem take22_drop14 (p r : Bytes) (hp : p.length = 9) :
    ((p ++ r).take 22).drop 14 = (r.drop 5).take 8 := by
  rw [List.take_append_eq_append_take, hp, List.take_of_length_le (by omega),
    List.drop_append_eq_append_drop, hp, List.drop_of_length_le (by omega), List.nil_append]
  show List.drop 5 (List.take 13 r) = List.take 8 (List.drop 5 r)
  rw [List.drop_take]

/-- Of two keys with a common nine-byte head, the greater one has the greater or
equal `Timestamp5` and, when these agree, the greater or equal serial number. -/
theorem fields_descending (p ra rb : Bytes) (hp : p.length = 9)
    (ha : 13 ≤ ra.length) (hb : 13 ≤ rb.length)
    (h : bytesLt (p ++ rb) (p ++ ra) = true) :
    bytesLt (((p ++ ra).take 14).drop 9) (((p ++ rb).take 14).drop 9) = false ∧
    ((((p ++ ra).take 14).drop 9 = ((p ++ rb).take 14).drop 9) →
      bytesLt (((p ++ ra).take 22).drop 14) (((p ++ rb).take 22).drop 14) = false) := by
  rw [take14_drop9 p ra hp, take14_drop9 p rb hp, take22_drop14 p ra hp,
    take22_drop14 p rb hp]
  rw [bytesLt_append_left] at h
  have h5 : (rb.take 5).length = (ra.take 5).length := by
    rw [List.length_take, List.length_take]; omega
  have h8 : ((rb.drop 5).take 8).length = ((ra.drop 5).take 8).length := by
    rw [List.length_take, List.length_take, List.length_drop, List.length_drop]; omega
  rw [← List.take_append_drop 5 rb, ← List.take_append_drop 5 ra,
    bytesLt_append_of_length_eq _ _ _ _ h5] at h
  by_cases h1 : bytesLt (rb.take 5) (ra.take 5) = true
  · refine ⟨bytesLt_asymm h1, ?_⟩
    intro heq
    rw [heq, bytesLt_irrefl] at h1
    cases h1
  · rw [if_neg h1] at h
    by_cases h2 : bytesLt (ra.take 5) (rb.take 5) = true
    · rw [if_pos h2] at h
      cases h
    · rw [if_neg h2] at h
      refine ⟨by simpa using h2, ?_⟩
      intro _
      rw [← List.take_append_drop 8 (rb.drop 5), ← List.take_append_drop 8 (ra.drop 5),
        bytesLt_append_of_length_eq _ _ _ _ h8] at h
      by_cases h3 : bytesLt ((rb.drop 5).take 8) ((ra.drop 5).take 8) = true
      · exact bytesLt_asymm h3
      · rw [if_neg h3] at h
        by_cases h4 : bytesLt ((ra.drop 5).take 8) ((rb.drop 5).take 8) = true
        · rw [if_pos h4] at h
          cases h
        · simpa using h4

/-- C15: on a store in key order, the bulletins that `queryBulletins` returns
are those of a sequence of stored records whose main keys strictly descend; so
they come by `Timestamp5` descending and, within equal `Timestamp5`, by serial
number descending (both compared as big-endian byte strings). -/
theorem C15_query_results_descending (env : Env) (now : Int) (txn : Txn) (typ : Nat)
    (topicHash : Bytes) (startTime endTime : Int) (excludeSNs : List String)
    (results : List Bulletin) (n : Nat)
    (hsorted : keysAscending txn.entries) (hth : topicHash.length = 32)
    (hq : queryBulletins env now txn typ topicHash startTime endTime excludeSNs =
      .ok (results, n)) :
    ∃ visited : List (Bytes × Entry),
      visited.Sublist txn.entries.reverse ∧
      results.map (fun b => (Except.ok b : Except Err Bulletin)) =
        visited.map (fun kv => GetBulletin env (envelopeOf kv.2.value)) ∧
      visited.Pairwise (fun a b => bytesLt b.1 a.1 = true) ∧
      visited.Pairwise (fun a b =>
        bytesLt ((a.1.take 14).drop 9) ((b.1.take 14).drop 9) = false ∧
        ((a.1.take 14).drop 9 = (b.1.take 14).drop 9 →
          bytesLt ((a.1.take 22).drop 14) ((b.1.take 22).drop 14) = false)) := by
  unfold queryBulletins at hq
  simp only at hq
  rw [iterReverse_eq txn now _ hsorted] at hq
  obtain ⟨vis, hsub, hall, hres, _⟩ := queryLoop_visited env topicHash excludeSNs _ _ [] 0
    results n hq
  have hdesc := live_reverse_descending now txn.entries hsorted
  have hsub2 : vis.Sublist ((txn.entries.filter (fun kv => !expired now kv.2)).reverse) :=
    hsub.trans (List.filter_sublist _)
  have hvdesc : vis.Pairwise (fun a b => bytesLt b.1 a.1 = true) := hdesc.sublist hsub2
  have hP : ([typ] ++ (sum64 env topicHash).take 8).length = 9 := by
    rw [List.length_append, List.length_take, sum64_length, hth]
    rfl
  have hpre : ∀ kv ∈ vis, ∃ r, kv.1 = ([typ] ++ (sum64 env topicHash).take 8) ++ r ∧
      13 ≤ r.length := by
    intro kv hkv
    obtain ⟨h1, h2, _⟩ := hall kv hkv
    have h3 : bytesLt (queryKeyEnd env typ topicHash endTime) kv.1 = false := by
      have := (List.mem_filter.mp (hsub.subset hkv)).2
      simpa using this
    rw [queryKeyStart_eq env typ topicHash startTime hth, List.append_assoc] at h1
    rw [queryKeyEnd_eq env typ topicHash endTime hth, List.append_assoc] at h3
    obtain ⟨r, hr⟩ := between_prefix _ _ _ _ h1 h3
    refine ⟨r, hr, ?_⟩
    rw [hr, List.length_append, hP] at h2
    omega
  refine ⟨vis, ?_, ?_, hvdesc, ?_⟩
  · exact hsub2.trans ((List.filter_sublist _).reverse)
  · rw [hres]
    rfl
  · apply List.Pairwise.imp_of_mem _ hvdesc
    intro a b ha hb hab
    obtain ⟨ra, hra, hla⟩ := hpre a ha
    obtain ⟨rb, hrb, hlb⟩ := hpre b hb
    rw [hra, hrb] at hab ⊢
    exact fields_descending _ ra rb hP hla hlb hab

set_option maxRecDepth 100000 in
theorem C15_query_results_descending_witness :
    keysAscending demoThree.entries ∧ (demoSha [18]).length = 32 ∧
    queryBulletins demoEnv 100 demoThree 1 (demoSha [18]) 50 150 [] =
      .ok ([{ demoBulletin with Duration := 202, ContentList := [[3]] },
            { demoBulletin with Duration := 201, ContentList := [[2]] },
            { demoBulletin with Duration := 200, ContentList := [[1]] }], 3) ∧
    ∃ visited : List (Bytes × Entry),
      visited.Sublist demoThree.entries.reverse ∧
      ([{ demoBulletin with Duration := 202, ContentList := [[3]] },
        { demoBulletin with Duration := 201, ContentList := [[2]] },
        { demoBulletin with Duration := 200, ContentList := [[1]] }] : List Bulletin).map
          (fun b => (Except.ok b : Except Err Bulletin)) =
        visited.map (fun kv => GetBulletin demoEnv (envelopeOf kv.2.value)) ∧
      visited.Pairwise (fun a b => bytesLt b.1 a.1 = true) ∧
      visited.Pairwise (fun a b =>
        bytesLt ((a.1.take 14).drop 9) ((b.1.take 14).drop 9) = false ∧
        ((a.1.take 14).drop 9 = (b.1.take 14).drop 9 →
          bytesLt ((a.1.take 22).drop 14) ((b.1.take 22).drop 14) = false)) :=
  ⟨by unfold keysAscending; decide, by decide, by rfl,
    C15_query_results_descending demoEnv 100 demoThree 1 (demoSha [18]) 50 150 [] _ 3
      (by unfold keysAscending; decide) (by decide) (by rfl)⟩

/-! ## Big-endian fields and the key order -/

theorem beNat_lt (a : Bytes) (h : ∀ x ∈ a, x < 256) : beNat a < 256 ^ a.length := by
  induction a with
  | nil => simp [beNat]
  | cons x xs ih =>
    have hx : x < 256 := h x (List.mem_cons_self x xs)
    have hxs := ih (fun y hy => h y (List.mem_cons_of_mem x hy))
    have hpos : 0 < 256 ^ xs.length := by positivity
    show x * 256 ^ xs.length + beNat xs < 256 ^ (xs.length + 1)
    rw [Nat.pow_succ]
    have : x * 256 ^ xs.length + 256 ^ xs.length ≤ 256 ^ xs.length * 256 := by
      have h1 : (x + 1) * 256 ^ xs.length ≤ 256 * 256 ^ xs.length :=
        Nat.mul_le_mul_right _ (by omega)
      rw [Nat.add_mul, Nat.one_mul] at h1
      rw [Nat.mul_comm (256 ^ xs.length) 256]
      exact h1
    omega

/-- For byte strings of one length, the lexicographic order is the order of the
numbers they denote. -/
theorem bytesLt_iff_beNat (a b : Bytes) (hlen : a.length = b.length)
    (ha : ∀ x ∈ a, x < 256) (hb : ∀ x ∈ b, x < 256) :
    bytesLt a b = true ↔ beNat a < beNat b := by
  induction a generalizing b with
  | nil =>
    cases b with
    | nil => simp [bytesLt, beNat]
    | cons y ys => simp at hlen
  | cons x xs ih =>
    cases b with
    | nil => simp at hlen
    | cons y ys =>
      have hl : xs.length = ys.length := by simpa using hlen
      have hxs := beNat_lt xs (fun z hz => ha z (List.mem_cons_of_mem x hz))
      have hys := beNat_lt ys (fun z hz => hb z (List.mem_cons_of_mem y hz))
      have ih2 := ih ys hl (fun z hz => ha z (List.mem_cons_of_mem x hz))
        (fun z hz => hb z (List.mem_cons_of_mem y hz))
      rw [hl] at hxs
      show bytesLt (x :: xs) (y :: ys) = true ↔
        x * 256 ^ xs.length + beNat xs < y * 256 ^ ys.length + beNat ys
      rw [bytesLt_cons, hl]
      generalize 256 ^ ys.length = m at hxs hys
      by_cases hxy : x < y
      · rw [if_pos hxy]
        have : (x + 1) * m ≤ y * m := Nat.mul_le_mul_right _ (by omega)
        rw [Nat.add_mul, Nat.one_mul] at this
        constructor
        · intro _; omega
        · intro _; rfl
      · rw [if_neg hxy]
        by_cases hyx : y < x
        · rw [if_pos hyx]
          have : (y + 1) * m ≤ x * m := Nat.mul_le_mul_right _ (by omega)
          rw [Nat.add_mul, Nat.one_mul] at this
          constructor
          · intro h; cases h
          · intro h; omega
        · rw [if_neg hyx]
          have hx : x = y := by omega
          subst hx
          rw [ih2]
          omega

theorem bytesLt_zeros (r : Bytes) (n : Nat) (h : r.length = n) : bytesLt r (zeros n) = false := by
  induction r generalizing n with
  | nil => subst h; rfl
  | cons x xs ih =>
    subst h
    show bytesLt (x :: xs) (0 :: zeros xs.length) = false
    rw [bytesLt_cons, if_neg (Nat.not_lt_zero x)]
    by_cases hx : 0 < x
    · rw [if_pos hx]
    · rw [if_neg hx]
      exact ih _ rfl

theorem bytesLt_ff (r : Bytes) (n : Nat) (h : r.length = n) (hr : ∀ x ∈ r, x < 256) :
    bytesLt (List.replicate n 255) r = false := by
  induction r generalizing n with
  | nil => subst h; rfl
  | cons x xs ih =>
    subst h
    have hx : x < 256 := hr x (List.mem_cons_self x xs)
    show bytesLt (255 :: List.replicate xs.length 255) (x :: xs) = false
    rw [bytesLt_cons, if_neg (by omega)]
    by_cases h2 : x < 255
    · rw [if_pos h2]
    · rw [if_neg h2]
      exact ih _ rfl (fun y hy => hr y (List.mem_cons_of_mem x hy))

/-- The low five bytes of a time below `2^40` denote that time. -/
theorem beNat_time5 (t : Int) (h0 : 0 ≤ t) (h1 : t < 2 ^ 40) :
    (beNat ((putUint64 (toUint64 t)).drop 3) : Int) = t ∧
    (∀ x ∈ (putUint64 (toUint64 t)).drop 3, x < 256) := by
  have e40 : (2 : Int) ^ 40 = 1099511627776 := by norm_num
  have e64 : (2 : Int) ^ 64 = 18446744073709551616 := by norm_num
  rw [e40] at h1
  have hv : toUint64 t = t.toNat := by
    unfold toUint64
    rw [e64, Int.emod_eq_of_lt h0 (by omega)]
  rw [hv]
  have hn : t.toNat < 1099511627776 := by omega
  have ht : (t.toNat : Int) = t := Int.toNat_of_nonneg h0
  generalize t.toNat = v at hn ht
  constructor
  · rw [← ht]
    have : beNat ((putUint64 v).drop 3) = v := by
      show (v / 2 ^ 32 % 256) * 256 ^ 4 + ((v / 2 ^ 24 % 256) * 256 ^ 3 +
        ((v / 2 ^ 16 % 256) * 256 ^ 2 + ((v / 2 ^ 8 % 256) * 256 ^ 1 +
        ((v % 256) * 256 ^ 0 + 0)))) = v
      omega
    rw [this]
  · intro x hx
    have hx2 : x ∈ [v / 2 ^ 32 % 256, v / 2 ^ 24 % 256, v / 2 ^ 16 % 256, v / 2 ^ 8 % 256,
        v % 256] := hx
    simp only [List.mem_cons, List.mem_singleton, List.mem_nil_iff, or_false] at hx2
    rcases hx2 with h | h | h | h | h <;> omega

/-- For a 30-byte key, lying between `keyStart` and `keyEnd` of a range query is
the same as carrying the queried nine-byte head and a `Timestamp5` in the closed
interval of the two times. -/
theorem inRange_iff (p k : Bytes) (startTime endTime : Int) (hp : p.length = 9)
    (hk : k.length = 30) (hbytes : ∀ x ∈ k, x < 256)
    (hs0 : 0 ≤ startTime) (hs1 : startTime < 2 ^ 40)
    (he0 : 0 ≤ endTime) (he1 : endTime < 2 ^ 40) :
    (bytesLt k (p ++ (putUint64 (toUint64 startTime)).drop 3 ++ zeros 16) = false ∧
      bytesLt (p ++ (putUint64 (toUint64 endTime)).drop 3 ++ List.replicate 16 255) k = false) ↔
    (k.take 9 = p ∧ startTime ≤ (beNat ((k.take 14).drop 9) : Int) ∧
      (beNat ((k.take 14).drop 9) : Int) ≤ endTime) := by
  obtain ⟨hst, hstb⟩ := beNat_time5 startTime hs0 hs1
  obtain ⟨het, hetb⟩ := beNat_time5 endTime he0 he1
  have key : ∀ r : Bytes, k = p ++ r →
      ((bytesLt k (p ++ (putUint64 (toUint64 startTime)).drop 3 ++ zeros 16) = false ∧
        bytesLt (p ++ (putUint64 (toUint64 endTime)).drop 3 ++ List.replicate 16 255) k =
          false) ↔
      (startTime ≤ (beNat ((k.take 14).drop 9) : Int) ∧
        (beNat ((k.take 14).drop 9) : Int) ≤ endTime)) := by
    intro r hr
    have hrlen : r.length = 21 := by
      have := congrArg List.length hr
      rw [hk, List.length_append, hp] at this
      omega
    have hrb : ∀ x ∈ r, x < 256 := by
      intro x hx
      apply hbytes
      rw [hr]
      exact List.mem_append_right _ hx
    have htsb : ∀ x ∈ r.take 5, x < 256 := fun x hx => hrb x (List.mem_of_mem_take hx)
    have hrestb : ∀ x ∈ r.drop 5, x < 256 := fun x hx => hrb x (List.mem_of_mem_drop hx)
    have hts5 : (r.take 5).length = 5 := by rw [List.length_take, hrlen]; rfl
    have hrest : (r.drop 5).length = 16 := by rw [List.length_drop, hrlen]
    have hlt1 := bytesLt_iff_beNat (r.take 5) ((putUint64 (toUint64 startTime)).drop 3)
      (by rw [hts5]; rfl) htsb hstb
    have hlt2 := bytesLt_iff_beNat ((putUint64 (toUint64 endTime)).drop 3) (r.take 5)
      (by rw [hts5]; rfl) hetb htsb
    have hsplit : r = r.take 5 ++ r.drop 5 := (List.take_append_drop 5 r).symm
    have hfield : (k.take 14).drop 9 = r.take 5 := by rw [hr]; exact take14_drop9 p r hp
    rw [hfield]
    have e1 : bytesLt k (p ++ (putUint64 (toUint64 startTime)).drop 3 ++ zeros 16) =
        if bytesLt (r.take 5) ((putUint64 (toUint64 startTime)).drop 3) = true then true
        else if bytesLt ((putUint64 (toUint64 startTime)).drop 3) (r.take 5) = true then false
        else bytesLt (r.drop 5) (zeros 16) := by
      rw [hr, List.append_assoc, bytesLt_append_left]
      conv => lhs; rw [hsplit]
      exact bytesLt_append_of_length_eq _ _ _ _ (by rw [hts5]; rfl)
    have e2 : bytesLt (p ++ (putUint64 (toUint64 endTime)).drop 3 ++ List.replicate 16 255) k =
        if bytesLt ((putUint64 (toUint64 endTime)).drop 3) (r.take 5) = true then true
        else if bytesLt (r.take 5) ((putUint64 (toUint64 endTime)).drop 3) = true then false
        else bytesLt (List.replicate 16 255) (r.drop 5) := by
      rw [hr, List.append_assoc, bytesLt_append_left]
      conv => lhs; rw [hsplit]
      exact bytesLt_append_of_length_eq _ _ _ _ (by rw [hts5]; rfl)
    rw [e1, e2, bytesLt_zeros _ 16 hrest, bytesLt_ff _ 16 hrest hrestb]
    have hstN : (beNat ((putUint64 (toUint64 startTime)).drop 3) : Int) = startTime := hst
    have hetN : (beNat ((putUint64 (toUint64 endTime)).drop 3) : Int) = endTime := het
    constructor
    · rintro ⟨h1, h2⟩
      constructor
      · by_cases c : bytesLt (r.take 5) ((putUint64 (toUint64 startTime)).drop 3) = true
        · rw [if_pos c] at h1
          cases h1
        · have := mt hlt1.mpr c
          omega
      · by_cases c : bytesLt ((putUint64 (toUint64 endTime)).drop 3) (r.take 5) = true
        · rw [if_pos c] at h2
          cases h2
        · have := mt hlt2.mpr c
          omega
    · rintro ⟨h1, h2⟩
      have c1 : ¬ bytesLt (r.take 5) ((putUint64 (toUint64 startTime)).drop 3) = true := by
        intro c
        have := hlt1.mp c
        omega
      have c2 : ¬ bytesLt ((putUint64 (toUint64 endTime)).drop 3) (r.take 5) = true := by
        intro c
        have := hlt2.mp c
        omega
      rw [if_neg c1, if_neg c2]
      constructor
      · split <;> rfl
      · split <;> rfl
  constructor
  · rintro ⟨h1, h2⟩
    rw [List.append_assoc] at h1 h2
    obtain ⟨r, hr⟩ := between_prefix p k _ _ h1 h2
    rw [← List.append_assoc] at h1 h2
    have hpre : k.take 9 = p := by rw [hr]; exact List.take_left' hp
    exact ⟨hpre, (key r hr).mp ⟨h1, h2⟩⟩
  · rintro ⟨hpre, h1, h2⟩
    have hr : k = p ++ k.drop 9 := by
      conv => lhs; rw [← List.take_append_drop 9 k, hpre]
    exact (key _ hr).mpr ⟨h1, h2⟩

theorem queryValue_eval {env : Env} {topicHash value : Bytes} {b : Bulletin}
    (hwf : 36 + uint32 ((value.take 36).drop 32) * 64 ≤ value.length)
    (hdec : GetBulletin env (envelopeOf value) = .ok b) :
    queryValue env topicHash value =
      if value.take 32 = topicHash then .ok (some b) else .ok none := by
  unfold queryValue
  have h0 : slice value 0 32 = .ok (value.take 32) := by
    rw [slice_of_le (Nat.zero_le _) (by omega), List.drop_zero]
  have h1 : slice value TopicHashEnd HistoryCountEnd = .ok ((value.take 36).drop 32) :=
    slice_of_le (by decide) (by show 36 ≤ value.length; omega)
  have h2 : sliceFrom value (HistoryCountEnd + uint32 ((value.take 36).drop 32) * BulletinIdLen) =
      .ok (envelopeOf value) := by
    have hsl := slice_of_le hwf (Nat.le_refl value.length)
    rw [List.take_length] at hsl
    exact hsl
  rw [h0]
  simp only
  by_cases heq : value.take 32 = topicHash
  · rw [if_neg (not_not.mpr heq), if_pos heq, h1]
    simp only [h2, List.nil_append, hdec]
  · rw [if_pos heq, if_neg heq]

/-- When every item down to `keyStart` is a well-formed record and fewer than
256 of them are selected, `queryLoop` returns the bulletins of exactly the
selected ones, in the order of the items, and their number. -/
theorem queryLoop_exact (env : Env) (topicHash : Bytes) (excludeSNs : List String)
    (keyStart : Bytes) (items : List (Bytes × Entry)) :
    ∀ (acc : List Bulletin) (num : Nat),
      (∀ kv ∈ items.takeWhile (fun kv => !bytesLt kv.1 keyStart),
        22 ≤ kv.1.length ∧
          36 + uint32 ((kv.2.value.take 36).drop 32) * 64 ≤ kv.2.value.length ∧
          ∃ b, GetBulletin env (envelopeOf kv.2.value) = .ok b) →
      acc.length = num →
      num + ((items.takeWhile (fun kv => !bytesLt kv.1 keyStart)).filter
        (fun kv => kv.2.value.take 32 == topicHash &&
          !decide (hexEncode ((kv.1.take 22).drop 14) ∈ excludeSNs))).length ≤ 255 →
      ∃ bs : List Bulletin,
        queryLoop env topicHash excludeSNs keyStart items acc num =
          .ok (acc ++ bs, num + bs.length) ∧
        bs.map (fun b => (Except.ok b : Except Err Bulletin)) =
          ((items.takeWhile (fun kv => !bytesLt kv.1 keyStart)).filter
            (fun kv => kv.2.value.take 32 == topicHash &&
              !decide (hexEncode ((kv.1.take 22).drop 14) ∈ excludeSNs))).map
            (fun kv => GetBulletin env (envelopeOf kv.2.value)) := by
  induction items with
  | nil =>
    intro acc num _ _ _
    exact ⟨[], by simp [queryLoop], by simp⟩
  | cons kv rest ih =>
    obtain ⟨key, item⟩ := kv
    intro acc num hwf hacc hcount
    unfold queryLoop
    by_cases hlt : bytesLt key keyStart = true
    · rw [if_pos hlt]
      refine ⟨[], by simp, ?_⟩
      have htw : ((key, item) :: rest).takeWhile (fun kv => !bytesLt kv.1 keyStart) = [] := by
        rw [List.takeWhile_cons]
        simp [hlt]
      rw [htw]
      rfl
    · rw [if_neg hlt]
      have htw : ((key, item) :: rest).takeWhile (fun kv => !bytesLt kv.1 keyStart) =
          (key, item) :: rest.takeWhile (fun kv => !bytesLt kv.1 keyStart) := by
        rw [List.takeWhile_cons]
        simp [hlt]
      rw [htw] at hwf hcount ⊢
      obtain ⟨hklen, hvlen, b, hdec⟩ := hwf (key, item) (List.mem_cons_self _ _)
      have hwf2 : ∀ kv ∈ rest.takeWhile (fun kv => !bytesLt kv.1 keyStart),
          22 ≤ kv.1.length ∧
            36 + uint32 ((kv.2.value.take 36).drop 32) * 64 ≤ kv.2.value.length ∧
            ∃ b, GetBulletin env (envelopeOf kv.2.value) = .ok b :=
        fun kv hkv => hwf kv (List.mem_cons_of_mem _ hkv)
      have hs : slice key MainKeyHeadLen (MainKeyHeadLen + 8) = .ok ((key.take 22).drop 14) :=
        slice_of_le (by decide) hklen
      rw [hs]
      simp only
      by_cases hex : hexEncode ((key.take 22).drop 14) ∈ excludeSNs
      · rw [if_pos hex]
        rw [List.filter_cons_of_neg (by simp [hex])] at hcount ⊢
        exact ih acc num hwf2 hacc hcount
      · rw [if_neg hex, queryValue_eval hvlen hdec]
        by_cases hth : item.value.take 32 = topicHash
        · rw [if_pos hth]
          simp only
          rw [List.filter_cons_of_pos (by simp [hth, hex])] at hcount ⊢
          rw [List.length_cons] at hcount
          have hl1 : ¬ (acc ++ [b]).length > DefaultValueLength := by
            rw [List.length_append, hacc]
            show ¬ num + 1 > 1024
            omega
          have hl2 : ¬ num + 1 > MaxQueryResultCount := by
            show ¬ num + 1 > 255
            omega
          rw [if_neg hl1, if_neg hl2]
          obtain ⟨bs, hq, hbs⟩ := ih (acc ++ [b]) (num + 1) hwf2
            (by rw [List.length_append, hacc]; rfl) (by omega)
          refine ⟨b :: bs, ?_, ?_⟩
          · rw [hq, List.append_assoc, List.length_cons]
            simp only [List.singleton_append]
            congr 2
            omega
          · rw [List.map_cons, List.map_cons, hbs, hdec]
        · rw [if_neg hth]
          simp only
          rw [List.filter_cons_of_neg (by simp [hth])] at hcount ⊢
          have hl1 : ¬ acc.length > DefaultValueLength := by
            rw [hacc]
            show ¬ num > 1024
            omega
          have hl2 : ¬ num > MaxQueryResultCount := by
            show ¬ num > 255
            omega
          rw [if_neg hl1, if_neg hl2]
          exact ih acc num hwf2 hacc hcount

/-! ## The range query returns exactly the matching records -/

/-- The first nine bytes of a key are a given byte followed by a given block
exactly when its first byte is that byte and the eight bytes after it are that
block. -/
theorem head9_iff (k : Bytes) (t : Nat) (s : Bytes) :
    k.take 9 = [t] ++ s ↔ (k.take 1 = [t] ∧ (k.take 9).drop 1 = s) := by
  have h1 : k.take 1 = (k.take 9).take 1 := by
    rw [List.take_take]
    rfl
  constructor
  · intro h
    rw [h1, h]
    exact ⟨rfl, rfl⟩
  · intro ⟨ha, hb⟩
    rw [← List.take_append_drop 1 (k.take 9), ← h1, ha, hb]

/-- For a record that is a main record whenever its key carries the queried
nine-byte head, lying between `keyStart` and `keyEnd` is the same as carrying
the queried type byte and fingerprint and a `Timestamp5` between the two
times. -/
theorem inRange_head (env : Env) (typ : Nat) (topicHash : Bytes) (startTime endTime : Int)
    (kv : Bytes × Entry) (hth : topicHash.length = 32)
    (hs0 : 0 ≤ startTime) (hs1 : startTime < 2 ^ 40)
    (he0 : 0 ≤ endTime) (he1 : endTime < 2 ^ 40)
    (hmain : kv.1.take 9 = [typ] ++ (sum64 env topicHash).take 8 → isMainRecord env kv) :
    (bytesLt kv.1 (queryKeyStart env typ topicHash startTime) = false ∧
      bytesLt (queryKeyEnd env typ topicHash endTime) kv.1 = false) ↔
    (kv.1.take 1 = [typ] ∧ (kv.1.take 9).drop 1 = (sum64 env topicHash).take 8 ∧
      startTime ≤ (beNat ((kv.1.take 14).drop 9) : Int) ∧
      (beNat ((kv.1.take 14).drop 9) : Int) ≤ endTime) := by
  rw [queryKeyStart_eq env typ topicHash startTime hth,
    queryKeyEnd_eq env typ topicHash endTime hth]
  have hP : ([typ] ++ (sum64 env topicHash).take 8).length = 9 := by
    rw [List.length_append, List.length_take, sum64_length, hth]
    rfl
  have hhead := head9_iff kv.1 typ ((sum64 env topicHash).take 8)
  constructor
  · intro ⟨h1, h2⟩
    have h1b := h1
    have h2b := h2
    rw [List.append_assoc] at h1b h2b
    obtain ⟨r, hr⟩ := between_prefix _ _ _ _ h1b h2b
    have ht : kv.1.take 9 = [typ] ++ (sum64 env topicHash).take 8 := by
      rw [hr]
      exact List.take_left' hP
    obtain ⟨hlen, hb, _⟩ := hmain ht
    have h := (inRange_iff _ kv.1 startTime endTime hP hlen hb hs0 hs1 he0 he1).mp ⟨h1, h2⟩
    exact ⟨(hhead.mp h.1).1, (hhead.mp h.1).2, h.2.1, h.2.2⟩
  · intro ⟨a, b, c, d⟩
    have ht := hhead.mpr ⟨a, b⟩
    obtain ⟨hlen, hb, _⟩ := hmain ht
    exact (inRange_iff _ kv.1 startTime endTime hP hlen hb hs0 hs1 he0 he1).mpr ⟨ht, c, d⟩

/-- The tests that the loop of `queryBulletins` applies to a live record, taken
together, are the conditions of `matchesQuery`. -/
theorem loop_tests_eq_matchesQuery (env : Env) (now : Int) (typ : Nat) (topicHash : Bytes)
    (startTime endTime : Int) (excludeSNs : List String) (kv : Bytes × Entry)
    (hth : topicHash.length = 32)
    (hs0 : 0 ≤ startTime) (hs1 : startTime < 2 ^ 40)
    (he0 : 0 ≤ endTime) (he1 : endTime < 2 ^ 40)
    (hmain : expired now kv.2 = false →
      kv.1.take 9 = [typ] ++ (sum64 env topicHash).take 8 → isMainRecord env kv) :
    ((((kv.2.value.take 32 == topicHash &&
          !decide (hexEncode ((kv.1.take 22).drop 14) ∈ excludeSNs)) &&
        !bytesLt kv.1 (queryKeyStart env typ topicHash startTime)) &&
        !bytesLt (queryKeyEnd env typ topicHash endTime) kv.1) &&
        !expired now kv.2) =
      (!expired now kv.2 && matchesQuery env typ topicHash startTime endTime excludeSNs kv) := by
  cases hexp : expired now kv.2 with
  | true => simp
  | false =>
    have hin := inRange_head env typ topicHash startTime endTime kv hth hs0 hs1 he0 he1
      (hmain hexp)
    rw [Bool.eq_iff_iff]
    unfold matchesQuery
    simp only [Bool.and_eq_true, Bool.not_eq_true', beq_iff_eq, decide_eq_true_eq,
      decide_eq_false_iff_not, Bool.not_false, Bool.true_and, Bool.and_true, and_true, true_and]
    constructor
    · intro ⟨⟨⟨h1, h2⟩, h3⟩, h4⟩
      obtain ⟨a, b, c, d⟩ := hin.mp ⟨h3, h4⟩
      exact ⟨⟨⟨⟨⟨a, b⟩, c⟩, d⟩, h1⟩, h2⟩
    · intro ⟨⟨⟨⟨⟨a, b⟩, c⟩, d⟩, h1⟩, h2⟩
      obtain ⟨h3, h4⟩ := hin.mpr ⟨a, b, c, d⟩
      exact ⟨⟨⟨h1, h2⟩, h3⟩, h4⟩

/-- A store whose records pass this check has main records under every key that
carries the nine-byte head `p`. -/
theorem mainRecords_of_check (env : Env) (now : Int) (p : Bytes) (l : List (Bytes × Entry))
    (h : l.all (fun kv => expired now kv.2 || !(kv.1.take 9 == p) ||
      (kv.1.length == 30 && kv.1.all (fun x => decide (x < 256)) &&
        decide (36 + uint32 ((kv.2.value.take 36).drop 32) * 64 ≤ kv.2.value.length) &&
        (GetBulletin env (envelopeOf kv.2.value)).toBool)) = true) :
    ∀ kv ∈ l, expired now kv.2 = false → kv.1.take 9 = p → isMainRecord env kv := by
  intro kv hkv hexp hp
  have hk := List.all_eq_true.mp h kv hkv
  rw [hexp] at hk
  simp only [Bool.false_or, Bool.or_eq_true, Bool.not_eq_true', beq_eq_false_iff_ne, ne_eq,
    Bool.and_eq_true, beq_iff_eq, List.all_eq_true, decide_eq_true_eq] at hk
  rcases hk with hk | ⟨⟨⟨h1, h2⟩, h3⟩, h4⟩
  · exact absurd hp hk
  · refine ⟨h1, h2, h3, ?_⟩
    cases hg : GetBulletin env (envelopeOf kv.2.value) with
    | ok b => exact ⟨b, rfl⟩
    | error e =>
      rw [hg] at h4
      cases h4

/-- C16: for `0 ≤ startTime ≤ endTime < 2^40`, on a store in key order whose
live records under the queried type byte and fingerprint are main records (a
30-byte key, a value that holds a decodable envelope after its history), and
which holds fewer than 256 matching records, `queryBulletins` succeeds and
returns exactly the bulletins of the live records that satisfy `matchesQuery`
(queried type byte and fingerprint, `Timestamp5` in the closed interval, stored
leading 32 bytes equal to the topic hash, hex-encoded serial number not
excluded), in descending key order, together with their number. -/
theorem C16_query_returns_exactly_the_matching_records (env : Env) (now : Int) (txn : Txn)
    (typ : Nat) (topicHash : Bytes) (startTime endTime : Int) (excludeSNs : List String)
    (hsorted : keysAscending txn.entries) (hth : topicHash.length = 32)
    (hrange : 0 ≤ startTime ∧ startTime ≤ endTime ∧ endTime < 2 ^ 40)
    (hmain : ∀ kv ∈ txn.entries, expired now kv.2 = false →
      kv.1.take 9 = [typ] ++ (sum64 env topicHash).take 8 → isMainRecord env kv)
    (hfew : (txn.entries.filter (fun kv => !expired now kv.2 &&
      matchesQuery env typ topicHash startTime endTime excludeSNs kv)).length < 256) :
    ∃ results : List Bulletin,
      queryBulletins env now txn typ topicHash startTime endTime excludeSNs =
        .ok (results, results.length) ∧
      results.map (fun b => (Except.ok b : Except Err Bulletin)) =
        ((txn.entries.filter (fun kv => !expired now kv.2 &&
          matchesQuery env typ topicHash startTime endTime excludeSNs kv)).reverse).map
          (fun kv => GetBulletin env (envelopeOf kv.2.value)) := by
  obtain ⟨hs0, hse, he1⟩ := hrange
  have hs1 : startTime < 2 ^ 40 := lt_of_le_of_lt hse he1
  have he0 : 0 ≤ endTime := le_trans hs0 hse
  unfold queryBulletins
  simp only
  rw [iterReverse_eq txn now _ hsorted]
  have hdesc : (((txn.entries.filter (fun kv => !expired now kv.2)).reverse).filter
      (fun kv => !bytesLt (queryKeyEnd env typ topicHash endTime) kv.1)).Pairwise
      (fun a b => bytesLt b.1 a.1 = true) :=
    (live_reverse_descending now txn.entries hsorted).sublist (List.filter_sublist _)
  have htw := takeWhile_eq_filter _
    (fun kv : Bytes × Entry => !bytesLt kv.1 (queryKeyStart env typ topicHash startTime)) _ hdesc
    (by
      intro a b hab ha
      have ha2 : bytesLt a.1 (queryKeyStart env typ topicHash startTime) = true := by
        simpa using ha
      have := bytesLt_trans hab ha2
      simp [this])
  have hsel : ((((txn.entries.filter (fun kv => !expired now kv.2)).reverse).filter
      (fun kv => !bytesLt (queryKeyEnd env typ topicHash endTime) kv.1)).takeWhile
      (fun kv => !bytesLt kv.1 (queryKeyStart env typ topicHash startTime))).filter
        (fun kv => kv.2.value.take 32 == topicHash &&
          !decide (hexEncode ((kv.1.take 22).drop 14) ∈ excludeSNs)) =
      (txn.entries.filter (fun kv => !expired now kv.2 &&
        matchesQuery env typ topicHash startTime endTime excludeSNs kv)).reverse := by
    rw [htw, List.filter_filter, List.filter_filter, List.filter_reverse, List.filter_filter]
    congr 1
    apply List.filter_congr
    intro kv hkv
    exact loop_tests_eq_matchesQuery env now typ topicHash startTime endTime excludeSNs kv hth
      hs0 hs1 he0 he1 (hmain kv hkv)
  have hwf : ∀ kv ∈ (((txn.entries.filter (fun kv => !expired now kv.2)).reverse).filter
      (fun kv => !bytesLt (queryKeyEnd env typ topicHash endTime) kv.1)).takeWhile
      (fun kv => !bytesLt kv.1 (queryKeyStart env typ topicHash startTime)),
      22 ≤ kv.1.length ∧
        36 + uint32 ((kv.2.value.take 36).drop 32) * 64 ≤ kv.2.value.length ∧
        ∃ b, GetBulletin env (envelopeOf kv.2.value) = .ok b := by
    intro kv hkv
    rw [htw] at hkv
    obtain ⟨hkv1, hq2⟩ := List.mem_filter.mp hkv
    obtain ⟨hkv2, hq1⟩ := List.mem_filter.mp hkv1
    obtain ⟨hkv3, hne⟩ := List.mem_filter.mp (List.mem_reverse.mp hkv2)
    have hexp : expired now kv.2 = false := by simpa using hne
    have h1 : bytesLt kv.1 (queryKeyStart env typ topicHash startTime) = false := by
      simpa using hq2
    have h2 : bytesLt (queryKeyEnd env typ topicHash endTime) kv.1 = false := by
      simpa using hq1
    have hin := (inRange_head env typ topicHash startTime endTime kv hth hs0 hs1 he0 he1
      (hmain kv hkv3 hexp)).mp ⟨h1, h2⟩
    have ht := (head9_iff kv.1 typ ((sum64 env topicHash).take 8)).mpr ⟨hin.1, hin.2.1⟩
    obtain ⟨hlen, _, hv, hb⟩ := hmain kv hkv3 hexp ht
    exact ⟨by omega, hv, hb⟩
  obtain ⟨bs, hq, hbs⟩ := queryLoop_exact env topicHash excludeSNs
    (queryKeyStart env typ topicHash startTime) _ [] 0 hwf rfl
    (by rw [hsel, List.length_reverse]; omega)
  refine ⟨bs, ?_, ?_⟩
  · rw [hq, List.nil_append, Nat.zero_add]
  · rw [hbs, hsel]

set_option maxRecDepth 100000 in
theorem C16_query_returns_exactly_the_matching_records_witness :
    keysAscending demoThree.entries ∧ (demoSha [18]).length = 32 ∧
    ((0 : Int) ≤ 50 ∧ (50 : Int) ≤ 150 ∧ (150 : Int) < 2 ^ 40) ∧
    queryBulletins demoEnv 100 demoThree 1 (demoSha [18]) 50 150 [hexEncode (mintSn 110 0)] =
      .ok ([{ demoBulletin with Duration := 202, ContentList := [[3]] },
            { demoBulletin with Duration := 201, ContentList := [[2]] }], 2) ∧
    ∃ results : List Bulletin,
      queryBulletins demoEnv 100 demoThree 1 (demoSha [18]) 50 150 [hexEncode (mintSn 110 0)] =
        .ok (results, results.length) ∧
      results.map (fun b => (Except.ok b : Except Err Bulletin)) =
        ((demoThree.entries.filter (fun kv => !expired 100 kv.2 &&
          matchesQuery demoEnv 1 (demoSha [18]) 50 150 [hexEncode (mintSn 110 0)] kv)).reverse).map
          (fun kv => GetBulletin demoEnv (envelopeOf kv.2.value)) :=
  ⟨by unfold keysAscending; decide, by decide, by decide, by rfl,
    C16_query_returns_exactly_the_matching_records demoEnv 100 demoThree 1 (demoSha [18]) 50 150
      [hexEncode (mintSn 110 0)] (by unfold keysAscending; decide) (by decide) (by decide)
      (mainRecords_of_check demoEnv 100 _ demoThree.entries (by rfl)) (by decide)⟩

/-! ## The bulletin ID -/

/-- The 64-byte array after the two `copy` calls of `GetBulletinID`. -/
theorem id_layout (h1 h2 : Bytes) (l1 : h1.length = 32) (l2 : h2.length = 32) :
    copyAt (copyAt (zeros 64) 0 32 h1) 32 64 h2 = h1 ++ h2 := by
  have e1 : copyAt (zeros 64) 0 32 h1 = h1 ++ zeros 32 := by
    have := copyAt_mid [] (zeros 32) (zeros 32) h1 32 (by rw [zeros_length, l1]; rfl)
    have t : h1.take 32 = h1 := by rw [← l1, List.take_length]
    rw [zeros_length, t, List.nil_append, List.nil_append] at this
    exact this
  have e2 : copyAt (h1 ++ zeros 32) 32 64 h2 = h1 ++ h2 := by
    have := copyAt_mid h1 (zeros 32) [] h2 64 (by rw [zeros_length, l1, l2]; rfl)
    have t : h2.take 32 = h2 := by rw [← l2, List.take_length]
    rw [zeros_length, t, l1, List.append_nil, List.append_nil] at this
    exact this
  rw [e1, e2]

/-- The bulletin ID in terms of the three payloads: what is written to the
first hasher is the first two bytes of each of the bulletin and auth-proof
payloads that is longer than two bytes. -/
theorem GetBulletinID_eq {env : Env} {tx bul ap ac : Bytes}
    (hb : GetBulletinBytes tx = .ok bul) (hap : GetAuthProofBytes tx = .ok ap)
    (hac : GetAuthChanllengeBytes tx = .ok ac) :
    GetBulletinID env tx =
      .ok (env.sha256 ((if bul.length > 2 then bul.take 2 else []) ++
        (if ap.length > 2 then ap.take 2 else [])) ++ env.sha256 ac) := by
  unfold GetBulletinID
  rw [hb]
  simp only [hap, hac]
  have hw : (if ac.length > 0 then ac else []) = ac := by
    cases ac with
    | nil => rfl
    | cons x xs => simp
  rw [hw, id_layout _ _ (env.sha256_len _) (env.sha256_len _)]

/-- C21 (counterexample): an envelope with the one-byte bulletin payload `[7]`,
the auth proof `[5, 6, 1]` and the auth challenge `[9]`. Its ID starts with the
digest of `[5, 6]` alone: the byte of the bulletin payload is not hashed. With
the two-byte bulletin payload `[7, 8]` the ID starts with that same digest: the
two bytes are not hashed either. Under `demoEnv` these differ from the digests
of `[7, 5, 6]` and of `[7, 8, 5, 6]`. -/
theorem C21_short_payload_is_not_hashed :
    (∀ env : Env, GetBulletinID env (demoTx4 [] [7] [5, 6, 1] [9]) =
      .ok (env.sha256 [5, 6] ++ env.sha256 [9])) ∧
    (∀ env : Env, GetBulletinID env (demoTx4 [] [7, 8] [5, 6, 1] [9]) =
      .ok (env.sha256 [5, 6] ++ env.sha256 [9])) ∧
    GetBulletinBytes (demoTx4 [] [7] [5, 6, 1] [9]) = .ok [7] ∧
    GetAuthProofBytes (demoTx4 [] [7] [5, 6, 1] [9]) = .ok [5, 6, 1] ∧
    GetBulletinBytes (demoTx4 [] [7, 8] [5, 6, 1] [9]) = .ok [7, 8] ∧
    GetAuthProofBytes (demoTx4 [] [7, 8] [5, 6, 1] [9]) = .ok [5, 6, 1] ∧
    (GetBulletinID demoEnv (demoTx4 [] [7] [5, 6, 1] [9])).map (fun id => id.take 32) ≠
      .ok (demoEnv.sha256 (([7] : Bytes).take 2 ++ ([5, 6, 1] : Bytes).take 2)) ∧
    (GetBulletinID demoEnv (demoTx4 [] [7, 8] [5, 6, 1] [9])).map (fun id => id.take 32) ≠
      .ok (demoEnv.sha256 (([7, 8] : Bytes).take 2 ++ ([5, 6, 1] : Bytes).take 2)) := by
  have ha : ∀ env : Env, GetBulletinID env (demoTx4 [] [7] [5, 6, 1] [9]) =
      .ok (env.sha256 [5, 6] ++ env.sha256 [9]) := by
    intro env
    have h : GetBulletinBytes (demoTx4 [] [7] [5, 6, 1] [9]) = .ok [7] := rfl
    have h2 : GetAuthProofBytes (demoTx4 [] [7] [5, 6, 1] [9]) = .ok [5, 6, 1] := rfl
    have h3 : GetAuthChanllengeBytes (demoTx4 [] [7] [5, 6, 1] [9]) = .ok [9] := rfl
    rw [GetBulletinID_eq h h2 h3]
    rfl
  have hb : ∀ env : Env, GetBulletinID env (demoTx4 [] [7, 8] [5, 6, 1] [9]) =
      .ok (env.sha256 [5, 6] ++ env.sha256 [9]) := by
    intro env
    have h : GetBulletinBytes (demoTx4 [] [7, 8] [5, 6, 1] [9]) = .ok [7, 8] := rfl
    have h2 : GetAuthProofBytes (demoTx4 [] [7, 8] [5, 6, 1] [9]) = .ok [5, 6, 1] := rfl
    have h3 : GetAuthChanllengeBytes (demoTx4 [] [7, 8] [5, 6, 1] [9]) = .ok [9] := rfl
    rw [GetBulletinID_eq h h2 h3]
    rfl
  refine ⟨ha, hb, rfl, rfl, rfl, rfl, ?_, ?_⟩
  · intro h
    have h2 := congrArg (fun r => match r with
      | Except.ok (v : Bytes) => v
      | Except.error (_ : Err) => []) h
    revert h2
    decide
  · intro h
    have h2 := congrArg (fun r => match r with
      | Except.ok (v : Bytes) => v
      | Except.error (_ : Err) => []) h
    revert h2
    decide

/-- C21 (amended): for every envelope whose three payloads can be sliced and
whose bulletin and auth-proof payloads are not exactly two bytes long, the ID is
64 bytes: the SHA-256 digest of the first two bytes of the bulletin payload
(none when it is shorter than two bytes) followed by the first two bytes of the
auth-proof payload (none when it is shorter than two bytes), then the SHA-256
digest of the whole auth-challenge payload (of the empty input when absent). -/
theorem C21_bulletin_id_layout (env : Env) (tx bul ap ac : Bytes)
    (hb : GetBulletinBytes tx = .ok bul) (hap : GetAuthProofBytes tx = .ok ap)
    (hac : GetAuthChanllengeBytes tx = .ok ac)
    (hb2 : bul.length ≠ 2) (hap2 : ap.length ≠ 2) :
    ∃ id, GetBulletinID env tx = .ok id ∧ id.length = 64 ∧
      id.take 32 = env.sha256 ((if 2 ≤ bul.length then bul.take 2 else []) ++
        (if 2 ≤ ap.length then ap.take 2 else [])) ∧
      id.drop 32 = env.sha256 ac := by
  have e1 : (if bul.length > 2 then bul.take 2 else []) =
      (if 2 ≤ bul.length then bul.take 2 else []) := by
    by_cases h : bul.length > 2
    · rw [if_pos h, if_pos (by omega)]
    · rw [if_neg h, if_neg (by omega)]
  have e2 : (if ap.length > 2 then ap.take 2 else []) =
      (if 2 ≤ ap.length then ap.take 2 else []) := by
    by_cases h : ap.length > 2
    · rw [if_pos h, if_pos (by omega)]
    · rw [if_neg h, if_neg (by omega)]
  refine ⟨_, GetBulletinID_eq hb hap hac, ?_, ?_, ?_⟩
  · rw [List.length_append, env.sha256_len, env.sha256_len]
  · rw [List.take_left' (env.sha256_len _), e1, e2]
  · rw [List.drop_left' (env.sha256_len _)]

theorem C21_bulletin_id_layout_witness :
    GetBulletinBytes (demoTx4 [] [7, 8, 3] [5] [9]) = .ok [7, 8, 3] ∧
    GetAuthProofBytes (demoTx4 [] [7, 8, 3] [5] [9]) = .ok [5] ∧
    GetAuthChanllengeBytes (demoTx4 [] [7, 8, 3] [5] [9]) = .ok [9] ∧
    ∃ id, GetBulletinID demoEnv (demoTx4 [] [7, 8, 3] [5] [9]) = .ok id ∧ id.length = 64 ∧
      id.take 32 = demoEnv.sha256 ((if 2 ≤ ([7, 8, 3] : Bytes).length then
          ([7, 8, 3] : Bytes).take 2 else []) ++
        (if 2 ≤ ([5] : Bytes).length then ([5] : Bytes).take 2 else [])) ∧
      id.drop 32 = demoEnv.sha256 [9] :=
  ⟨rfl, rfl, rfl,
    C21_bulletin_id_layout demoEnv _ [7, 8, 3] [5] [9] (by rfl) (by rfl) (by rfl)
      (by decide) (by decide)⟩

/-! ## Envelope offsets, malformed envelopes -/

/-- C30 (evaluation of the code at the failing input): on the 17-byte envelope
`demoWrapTx`, whose header declares `L_sp = 2^32 - 1`, `L_bul = 1`, `L_ap = 1`,
`GetAuthProofBytes` succeeds with the non-empty result `[42]`, the slice
`tx[16:17]`, although the exact offset `16 + L_sp + L_bul` lies past the end of
the envelope, where no slice exists and where `GetBulletinBytes`, adding without
wrap-around, reports `ErrInvalidTxBytes`. `GetAuthChanllengeBytes` does the same
on `demoWrapTx2` (`L_sp = 2^32 - 1`, `L_bul = 0`, `L_ap = 1`, `L_ac = 1`). -/
theorem C30_offsets_wrap_around :
    16 ≤ demoWrapTx.length ∧
    uint32 (demoWrapTx.take 4) = 2 ^ 32 - 1 ∧ uint32 ((demoWrapTx.take 8).drop 4) = 1 ∧
    uint32 ((demoWrapTx.take 12).drop 8) = 1 ∧
    GetAuthProofBytes demoWrapTx = .ok [42] ∧
    slice demoWrapTx 16 17 = .ok [42] ∧
    slice demoWrapTx (16 + (2 ^ 32 - 1) + 1) (16 + (2 ^ 32 - 1) + 1 + 1) = .error .panic ∧
    GetBulletinBytes demoWrapTx = .error .ErrInvalidTxBytes ∧
    16 ≤ demoWrapTx2.length ∧
    uint32 (demoWrapTx2.take 4) = 2 ^ 32 - 1 ∧ uint32 ((demoWrapTx2.take 8).drop 4) = 0 ∧
    uint32 ((demoWrapTx2.take 12).drop 8) = 1 ∧ uint32 ((demoWrapTx2.take 16).drop 12) = 1 ∧
    GetAuthChanllengeBytes demoWrapTx2 = .ok [42] ∧
    slice demoWrapTx2 (16 + (2 ^ 32 - 1) + 0 + 1) (16 + (2 ^ 32 - 1) + 0 + 1 + 1) =
      .error .panic := by
  refine ⟨by decide, by rfl, by rfl, by rfl, by rfl, by rfl, by rfl, by rfl, by decide, by rfl,
    by rfl, by rfl, by rfl, by rfl, by rfl⟩

/-- C26: an envelope of at most 16 bytes, and an envelope whose header declares a
non-zero stochastic-payment length that reaches past its end, is rejected by
`IsValid` with `ErrInvalidTxBytes`; `CheckTx` answers with code 1, not with the
bulletin code 2 or the payment code 3. -/
theorem C26_malformed_envelope_is_invalid_tx_bytes (env : Env) (tx : Bytes)
    (h : tx.length ≤ 16 ∨
      (uint32 (tx.take 4) ≠ 0 ∧ tx.length < 16 + uint32 (tx.take 4))) :
    IsValid env tx = some .ErrInvalidTxBytes ∧ CheckTx env tx = 1 ∧
    CheckTx env tx ≠ 2 ∧ CheckTx env tx ≠ 3 := by
  have hv : IsValid env tx = some .ErrInvalidTxBytes := by
    unfold IsValid
    by_cases hl : tx.length ≤ TxFieldLengthsLen
    · rw [if_pos hl]
    · rw [if_neg hl]
      rcases h with h | ⟨hnz, hpast⟩
      · exact absurd h hl
      · have hsp : GetStochasticPayment env tx = .error .ErrInvalidTxBytes := by
          unfold GetStochasticPayment GetStochasticPaymentBytes
          have h16 : ¬ tx.length < TxFieldLengthsLen := by
            intro hlt
            exact hl (Nat.le_of_lt hlt)
          rw [if_neg h16]
          simp only
          rw [if_neg hnz]
          unfold GetBytesSlice
          have hpast2 : tx.length < TxFieldLengthsLen + uint32 (tx.take 4) := hpast
          rw [if_pos hpast2]
        rw [hsp]
  have hc : CheckTx env tx = 1 := by
    unfold CheckTx validateGanyTxBz
    rw [hv]
    rfl
  refine ⟨hv, hc, ?_, ?_⟩
  · rw [hc]
    decide
  · rw [hc]
    decide

theorem C26_malformed_envelope_is_invalid_tx_bytes_witness :
    (((demoTx4 [1, 2, 3] [1, 100, 50, 9, 18, 6] [] []).drop 1).length ≤ 16 ∨
      (uint32 (((demoTx4 [1, 2, 3] [1, 100, 50, 9, 18, 6] [] []).drop 1).take 4) ≠ 0 ∧
        ((demoTx4 [1, 2, 3] [1, 100, 50, 9, 18, 6] [] []).drop 1).length <
          16 + uint32 (((demoTx4 [1, 2, 3] [1, 100, 50, 9, 18, 6] [] []).drop 1).take 4))) ∧
    IsValid demoEnv ((demoTx4 [1, 2, 3] [1, 100, 50, 9, 18, 6] [] []).drop 1) =
      some .ErrInvalidTxBytes ∧
    CheckTx demoEnv ((demoTx4 [1, 2, 3] [1, 100, 50, 9, 18, 6] [] []).drop 1) = 1 ∧
    CheckTx demoEnv ((demoTx4 [1, 2, 3] [1, 100, 50, 9, 18, 6] [] []).drop 1) ≠ 2 ∧
    CheckTx demoEnv ((demoTx4 [1, 2, 3] [1, 100, 50, 9, 18, 6] [] []).drop 1) ≠ 3 :=
  ⟨by decide,
    C26_malformed_envelope_is_invalid_tx_bytes demoEnv
      ((demoTx4 [1, 2, 3] [1, 100, 50, 9, 18, 6] [] []).drop 1) (by decide)⟩

/-! ## URL resolution -/

/-- The seven bytes `url[4:11]` of a URL of at least eleven bytes are its
`BlockTime5` followed by the two high bytes of its `TxIndex3`. -/
theorem url_bucket_bytes (url : Bytes) :
    (url.take 11).drop 4 = (url.drop 4).take 5 ++ ((url.drop 4).drop 5).take 2 := by
  have h : (url.take 11).drop 4 = (url.drop 4).take 7 := by
    rw [List.drop_take]
  rw [h]
  exact List.take_add (url.drop 4) 5 2

/-- C27: for a 12-byte URL whose slot-range bucket key
`220 || url.BlockTime5 || url.TxIndexHi2` is absent from the store, `getGanyTx`
fails with `ErrKeyNotFound`; it returns no envelope. -/
theorem C27_absent_bucket_is_key_not_found (now : Int) (txn : Txn) (url : Bytes)
    (hlen : url.length = 12)
    (habsent : rawLookup
      ([MainKeyHeadByte] ++ ((url.drop 4).take 5 ++ ((url.drop 4).drop 5).take 2))
      txn.entries = none) :
    getGanyTx now txn url = .error .ErrKeyNotFound ∧
    ∀ tx : Bytes, getGanyTx now txn url ≠ .ok tx := by
  have h : getGanyTx now txn url = .error .ErrKeyNotFound := by
    unfold getGanyTx
    rw [slice_of_le (by decide) (by rw [hlen]; decide), url_bucket_bytes]
    simp only
    have hget : txn.Get now
        ([MainKeyHeadByte] ++ ((url.drop 4).take 5 ++ ((url.drop 4).drop 5).take 2)) =
        .error .badgerErrKeyNotFound := by
      unfold Txn.Get
      rw [habsent]
    rw [hget]
  refine ⟨h, ?_⟩
  intro tx htx
  rw [h] at htx
  cases htx

theorem C27_absent_bucket_is_key_not_found_witness :
    (ganyUrl demoEnv [18] 111 0).length = 12 ∧
    rawLookup ([MainKeyHeadByte] ++ (((ganyUrl demoEnv [18] 111 0).drop 4).take 5 ++
      (((ganyUrl demoEnv [18] 111 0).drop 4).drop 5).take 2)) demoTxn1.entries = none ∧
    getGanyTx 100 demoTxn1 (ganyUrl demoEnv [18] 111 0) = .error .ErrKeyNotFound ∧
    ∀ tx : Bytes, getGanyTx 100 demoTxn1 (ganyUrl demoEnv [18] 111 0) ≠ .ok tx :=
  ⟨by decide, by decide,
    C27_absent_bucket_is_key_not_found 100 demoTxn1 (ganyUrl demoEnv [18] 111 0)
      (by decide) (by decide)⟩

/-- C28: two 12-byte URLs that agree on their bytes 4..11 resolve alike:
`getGanyTx` returns the same envelope or the same error for both, whatever
their first four bytes are. -/
theorem C28_resolution_ignores_topic_hash (now : Int) (txn : Txn) (u1 u2 : Bytes)
    (h1 : u1.length = 12) (h2 : u2.length = 12) (h : u1.drop 4 = u2.drop 4) :
    getGanyTx now txn u1 = getGanyTx now txn u2 := by
  have e1 : slice u1 4 11 = slice u2 4 11 := by
    rw [slice_of_le (by decide) (by rw [h1]; decide),
      slice_of_le (by decide) (by rw [h2]; decide), List.drop_take, List.drop_take, h]
  have e2 : u1.get? 11 = u2.get? 11 := by
    have a1 : (u1.drop 4).get? 7 = u1.get? 11 := by
      rw [List.get?_eq_getElem?, List.get?_eq_getElem?, List.getElem?_drop]
    have a2 : (u2.drop 4).get? 7 = u2.get? 11 := by
      rw [List.get?_eq_getElem?, List.get?_eq_getElem?, List.getElem?_drop]
    rw [← a1, ← a2, h]
  unfold getGanyTx
  rw [e1, e2, h]

set_option maxRecDepth 100000 in
theorem C28_resolution_ignores_topic_hash_witness :
    (ganyUrl demoEnv [18] 110 0).length = 12 ∧
    ([9, 9, 9, 9] ++ mintSn 110 0).length = 12 ∧
    (ganyUrl demoEnv [18] 110 0).take 4 ≠ ([9, 9, 9, 9] ++ mintSn 110 0).take 4 ∧
    getGanyTx 100 demoTxn1 ([9, 9, 9, 9] ++ mintSn 110 0) =
      .ok (demoTx [1, 100, 50, 9, 18, 6]) ∧
    getGanyTx 100 demoTxn1 (ganyUrl demoEnv [18] 110 0) =
      getGanyTx 100 demoTxn1 ([9, 9, 9, 9] ++ mintSn 110 0) :=
  ⟨by decide, by decide, by decide, by rfl,
    C28_resolution_ignores_topic_hash 100 demoTxn1 (ganyUrl demoEnv [18] 110 0)
      ([9, 9, 9, 9] ++ mintSn 110 0) (by decide) (by decide) (by decide)⟩

/-! ## The caps of the range query, the short hash -/

/-- Entered with as many results as counted and at most 255 of them, the loop of
`queryBulletins` returns as many results as it counts and at most 256. -/
theorem queryLoop_bound (env : Env) (topicHash : Bytes) (excludeSNs : List String)
    (keyStart : Bytes) (items : List (Bytes × Entry)) :
    ∀ (acc : List Bulletin) (num : Nat) (res : List Bulletin) (n : Nat),
      acc.length = num → num ≤ 255 →
      queryLoop env topicHash excludeSNs keyStart items acc num = .ok (res, n) →
      n = res.length ∧ res.length ≤ 256 := by
  induction items with
  | nil =>
    intro acc num res n hacc hnum h
    unfold queryLoop at h
    injection h with h
    injection h with h1 h2
    subst h1 h2
    exact ⟨hacc.symm, by omega⟩
  | cons kv rest ih =>
    obtain ⟨key, item⟩ := kv
    intro acc num res n hacc hnum h
    unfold queryLoop at h
    split at h
    · injection h with h
      injection h with h1 h2
      subst h1 h2
      exact ⟨hacc.symm, by omega⟩
    · split at h
      · cases h
      · split at h
        · exact ih acc num res n hacc hnum h
        · split at h
          · cases h
          · split at h
            · injection h with h
              injection h with h1 h2
              subst h1 h2
              exact ⟨hacc.symm, by omega⟩
            · split at h
              · injection h with h
                injection h with h1 h2
                subst h1 h2
                exact ⟨hacc.symm, by omega⟩
              · exact ih acc num res n hacc hnum h
          · rename_i b _
            have hl : (acc ++ [b]).length = num + 1 := by
              rw [List.length_append, hacc]
              rfl
            split at h
            · injection h with h
              injection h with h1 h2
              subst h1 h2
              exact ⟨hl.symm, by rw [hl]; omega⟩
            · split at h
              · injection h with h
                injection h with h1 h2
                subst h1 h2
                exact ⟨hl.symm, by rw [hl]; omega⟩
              · rename_i hcap
                have hcap2 : ¬ num + 1 > 255 := hcap
                exact ih _ (num + 1) res n hl (by omega) h

/-- C24: whenever `queryBulletins` returns, it returns at most 256 bulletins,
and the count it reports is the length of the list it returns. -/
theorem C24_query_returns_at_most_256 (env : Env) (now : Int) (txn : Txn) (typ : Nat)
    (topicHash : Bytes) (startTime endTime : Int) (excludeSNs : List String)
    (results : List Bulletin) (n : Nat)
    (hq : queryBulletins env now txn typ topicHash startTime endTime excludeSNs =
      .ok (results, n)) :
    n = results.length ∧ results.length ≤ 256 := by
  unfold queryBulletins at hq
  exact queryLoop_bound env topicHash excludeSNs _ _ [] 0 results n rfl (by omega) hq

set_option maxRecDepth 100000 in
theorem C24_query_returns_at_most_256_witness :
    queryBulletins demoEnv 100 demoThree 1 (demoSha [18]) 50 150 [hexEncode (mintSn 110 1)] =
      .ok ([{ demoBulletin with Duration := 202, ContentList := [[3]] },
            { demoBulletin with Duration := 200, ContentList := [[1]] }], 2) ∧
    2 = ([{ demoBulletin with Duration := 202, ContentList := [[3]] },
          { demoBulletin with Duration := 200, ContentList := [[1]] }] : List Bulletin).length ∧
    ([{ demoBulletin with Duration := 202, ContentList := [[3]] },
      { demoBulletin with Duration := 200, ContentList := [[1]] }] : List Bulletin).length ≤ 256 :=
  ⟨by rfl,
    C24_query_returns_at_most_256 demoEnv 100 demoThree 1 (demoSha [18]) 50 150
      [hexEncode (mintSn 110 1)] _ 2 (by rfl)⟩

/-- The 14-byte head of a main key: the type byte, the leading eight bytes of
the topic hash, and the low five bytes of the timestamp. -/
theorem getMainKeyHead_eq (env : Env) (b : Bulletin) :
    getMainKeyHead env b =
      [toUint64 b.Typ % 256] ++ (env.sha256 b.Topic).take 8 ++
        (putUint64 (toUint64 b.Timestamp)).drop 3 := by
  have hth : (env.sha256 b.Topic).length = 32 := env.sha256_len _
  have hs : (sum64 env (env.sha256 b.Topic)).length = 40 := by rw [sum64_length, hth]
  have hs8 : (sum64 env (env.sha256 b.Topic)).take 8 = (env.sha256 b.Topic).take 8 := by
    unfold sum64
    rw [List.take_append_of_le_length (by rw [hth]; decide)]
  unfold getMainKeyHead Bulletin.GetTopicHash
  dsimp only
  rw [← hs8]
  generalize sum64 env (env.sha256 b.Topic) = s at hs
  have e1 : copyAt (zeros MainKeyHeadLen) 0 1 [toUint64 b.Typ % 256] =
      [toUint64 b.Typ % 256] ++ zeros 13 := rfl
  have e2 : copyAt ([toUint64 b.Typ % 256] ++ zeros 13) 1 MainKeyHeadLen s =
      [toUint64 b.Typ % 256] ++ s.take 13 := by
    have := copyAt_mid [toUint64 b.Typ % 256] (zeros 13) [] s 14
      (by rw [zeros_length, hs]; rfl)
    rw [zeros_length, List.append_nil, List.append_nil] at this
    exact this
  have hA : (s.take 8).length = 8 := by rw [List.length_take, hs]; rfl
  have hB : ((s.drop 8).take 5).length = 5 := by
    rw [List.length_take, List.length_drop, hs]; rfl
  have h13 : s.take 13 = s.take 8 ++ (s.drop 8).take 5 := List.take_add s 8 5
  have e3 : copyAt ([toUint64 b.Typ % 256] ++ s.take 13) 9 MainKeyHeadLen
      ((putUint64 (toUint64 b.Timestamp)).drop 3) =
      [toUint64 b.Typ % 256] ++ s.take 8 ++ (putUint64 (toUint64 b.Timestamp)).drop 3 := by
    have := copyAt_mid ([toUint64 b.Typ % 256] ++ s.take 8) ((s.drop 8).take 5) []
      ((putUint64 (toUint64 b.Timestamp)).drop 3) 14
      (by rw [List.length_append, hA, hB, take5_drop3_length]; rfl)
    rw [List.length_append, hA, hB, List.append_nil, List.append_nil] at this
    rw [h13, ← List.append_assoc]
    exact this
  simp only [e1, e2, e3]

/-- C25 (what the code computes instead): for every input, `sum64` returns the
input followed by the eight bytes of the digest of the empty input, so
`len(input) + 8` bytes, which is 8 bytes only for the empty input; the
`TopicHashXX8` field of a main key is the leading eight bytes of the topic hash
itself and the `FromHashXX8` field the leading eight bytes of the from address
followed by that digest, whatever the 64-bit hash function is. -/
theorem C25_sum64_returns_input_and_empty_digest (env : Env) (bz : Bytes) (b : Bulletin)
    (t i : Int) :
    sum64 env bz = bz ++ putUint64 (env.xxhash []) ∧
    (sum64 env bz).length = bz.length + 8 ∧
    ((sum64 env bz).length = 8 ↔ bz = []) ∧
    ((createKey env b (mintSn t i)).take 9).drop 1 = (env.sha256 b.Topic).take 8 ∧
    (createKey env b (mintSn t i)).drop 22 =
      (b.From ++ putUint64 (env.xxhash [])).take 8 ∧
    sum64 demoEnv (demoSha [18]) ≠ putUint64 (demoEnv.xxhash (demoSha [18])) := by
  have hl : (sum64 env bz).length = bz.length + 8 := sum64_length env bz
  have hk := createKey_eq env b (mintSn t i) (mintSn_length t i)
  have hh := getMainKeyHead_eq env b
  have h8 : ((env.sha256 b.Topic).take 8).length = 8 := by
    rw [List.length_take, env.sha256_len]
    rfl
  refine ⟨rfl, hl, ?_, ?_, ?_, by decide⟩
  · rw [hl]
    constructor
    · intro h
      exact List.length_eq_zero.mp (by omega)
    · intro h
      rw [h]
      rfl
  · rw [hk, hh]
    have e : [toUint64 b.Typ % 256] ++ (env.sha256 b.Topic).take 8 ++
        (putUint64 (toUint64 b.Timestamp)).drop 3 ++ mintSn t i ++ (sum64 env b.From).take 8 =
        ([toUint64 b.Typ % 256] ++ (env.sha256 b.Topic).take 8) ++
          ((putUint64 (toUint64 b.Timestamp)).drop 3 ++ mintSn t i ++
            (sum64 env b.From).take 8) := by
      simp only [List.append_assoc]
    rw [e, List.take_left' (by rw [List.length_append, h8]; rfl)]
    rfl
  · rw [hk]
    have hlen : (getMainKeyHead env b ++ mintSn t i).length = 22 := by
      rw [List.length_append, getMainKeyHead_length, mintSn_length]
    rw [List.drop_left' hlen]
    rfl

/-! ## The records a call writes -/

theorem mem_insertEntry {k : Bytes} {e : Entry} {l : List (Bytes × Entry)} {x : Bytes × Entry}
    (h : x ∈ insertEntry k e l) : x = (k, e) ∨ x ∈ l := by
  induction l with
  | nil =>
    simp only [insertEntry, List.mem_singleton] at h
    exact Or.inl h
  | cons hd rest ih =>
    obtain ⟨k0, e0⟩ := hd
    unfold insertEntry at h
    split at h
    · rcases List.mem_cons.mp h with h | h
      · exact Or.inl h
      · exact Or.inr (List.mem_cons_of_mem _ h)
    · split at h
      · rcases List.mem_cons.mp h with h | h
        · exact Or.inl h
        · exact Or.inr h
      · rcases List.mem_cons.mp h with h | h
        · exact Or.inr (by rw [h]; exact List.mem_cons_self _ _)
        · rcases ih h with h | h
          · exact Or.inl h
          · exact Or.inr (List.mem_cons_of_mem _ h)

theorem mem_eraseEntry {k : Bytes} {l : List (Bytes × Entry)} {x : Bytes × Entry}
    (h : x ∈ eraseEntry k l) : x ∈ l := by
  induction l with
  | nil => exact h
  | cons hd rest ih =>
    obtain ⟨k0, e0⟩ := hd
    unfold eraseEntry at h
    split at h
    · exact List.mem_cons_of_mem _ (ih h)
    · rcases List.mem_cons.mp h with h | h
      · rw [h]; exact List.mem_cons_self _ _
      · exact List.mem_cons_of_mem _ (ih h)

theorem rawLookup_mem {k : Bytes} {e : Entry} {l : List (Bytes × Entry)}
    (h : rawLookup k l = some e) : (k, e) ∈ l := by
  induction l with
  | nil => cases h
  | cons hd rest ih =>
    obtain ⟨k0, e0⟩ := hd
    unfold rawLookup at h
    split at h
    · rename_i hk
      injection h with h
      rw [← h, ← hk]
      exact List.mem_cons_self _ _
    · exact List.mem_cons_of_mem _ (ih h)

/-- The entries after a write that may have been refused. -/
theorem afterWrite_SetEntry_entries (txn : Txn) (now : Int) (key value : Bytes) (ttl : Int) :
    (afterWrite txn (txn.SetEntry now key value ttl)).1.entries = txn.entries ∨
    (afterWrite txn (txn.SetEntry now key value ttl)).1.entries =
      insertEntry key ⟨value, withTTL now ttl⟩ txn.entries := by
  unfold Txn.SetEntry
  split
  · exact Or.inl rfl
  · exact Or.inr rfl

/-- The records of the transaction after `createGanyTx`, whatever it returned:
those before the call, or those with the main record written and then at most
the by-SN index record (a 9-byte key) and the slot-range bucket (an 8-byte
key). -/
theorem createGanyTx_entries (env : Env) (now : Int) (txn : Txn) (ganyTx : Bytes)
    (blockTimestamp txIndex : Int) :
    (createGanyTx env now txn ganyTx blockTimestamp txIndex).1.entries = txn.entries ∨
    ∃ b id, GetBulletin env ganyTx = .ok b ∧ GetBulletinID env ganyTx = .ok id ∧
      ∃ tail : List (Bytes × Entry), (∀ w ∈ tail, w.1.length = 9 ∨ w.1.length = 8) ∧
        (createGanyTx env now txn ganyTx blockTimestamp txIndex).1.entries =
          tail.foldr (fun w l => insertEntry w.1 w.2 l)
            (insertEntry (createKey env b (mintSn blockTimestamp txIndex))
              ⟨b.GetTopicHash env ++ [0, 0, 0, 1] ++ id ++ ganyTx,
                withTTL now (toValidTTL now b.Duration)⟩ txn.entries) := by
  unfold createGanyTx
  split
  · exact Or.inl rfl
  · rename_i b hb
    split
    · exact Or.inl rfl
    · simp only
      split
      · exact Or.inl rfl
      · split
        · exact Or.inl rfl
        · rename_i id hid
          split
          · exact Or.inl rfl
          · rename_i txn1 h1
            have e1 := (SetEntry_ok h1).1
            refine Or.inr ⟨b, id, hb, hid, ?_⟩
            split
            · exact ⟨[], by simp, e1⟩
            · rename_i txn2 h2
              have e2 := (SetEntry_ok h2).1
              have hslot : ∀ r, r = txn2.entries ∨ (∃ v x, r = insertEntry
                  ([MainKeyHeadByte] ++ (putUint64 (toUint64 blockTimestamp)).drop 3 ++
                    ((putUint64 (toUint64 txIndex)).take 7).drop 5) ⟨v, x⟩ txn2.entries) →
                  ∃ tail : List (Bytes × Entry),
                    (∀ w ∈ tail, w.1.length = 9 ∨ w.1.length = 8) ∧
                    r = tail.foldr (fun w l => insertEntry w.1 w.2 l)
                      (insertEntry (createKey env b (mintSn blockTimestamp txIndex))
                        ⟨b.GetTopicHash env ++ [0, 0, 0, 1] ++ id ++ ganyTx,
                          withTTL now (toValidTTL now b.Duration)⟩ txn.entries) := by
                intro r hr
                rcases hr with hr | ⟨v, x, hr⟩
                · refine ⟨[(([MainKeyHeadByte] ++ (putUint64 (toUint64 blockTimestamp)).drop 3 ++
                    (putUint64 (toUint64 txIndex)).drop 5),
                    (⟨(createKey env b (mintSn blockTimestamp txIndex)).take MainKeyHeadLen,
                      withTTL now (toValidTTL now b.Duration)⟩ : Entry))], ?_, ?_⟩
                  rotate_left
                  · rw [hr, e2, e1]
                    rfl
                  · intro w hw
                    rw [List.mem_singleton] at hw
                    rw [hw]
                    exact Or.inl rfl
                · refine ⟨[(([MainKeyHeadByte] ++ (putUint64 (toUint64 blockTimestamp)).drop 3 ++
                    ((putUint64 (toUint64 txIndex)).take 7).drop 5), (⟨v, x⟩ : Entry)),
                    (([MainKeyHeadByte] ++ (putUint64 (toUint64 blockTimestamp)).drop 3 ++
                    (putUint64 (toUint64 txIndex)).drop 5),
                    (⟨(createKey env b (mintSn blockTimestamp txIndex)).take MainKeyHeadLen,
                      withTTL now (toValidTTL now b.Duration)⟩ : Entry))], ?_, ?_⟩
                  rotate_left
                  · rw [hr, e2, e1]
                    rfl
                  · intro w hw
                    rcases List.mem_cons.mp hw with hw | hw
                    · rw [hw]
                      exact Or.inr rfl
                    · rw [List.mem_singleton] at hw
                      rw [hw]
                      exact Or.inl rfl
              split
              · apply hslot
                rcases afterWrite_SetEntry_entries txn2 now
                  ([MainKeyHeadByte] ++ (putUint64 (toUint64 blockTimestamp)).drop 3 ++
                    ((putUint64 (toUint64 txIndex)).take 7).drop 5)
                  ((createKey env b (mintSn blockTimestamp txIndex)).take MainKeyHeadLen)
                  (toValidTTL now b.Duration) with h | h
                · exact Or.inl h
                · exact Or.inr ⟨_, _, h⟩
              · exact hslot _ (Or.inl rfl)
              · rename_i item _
                split
                · apply hslot
                  rcases afterWrite_SetEntry_entries txn2 now
                    ([MainKeyHeadByte] ++ (putUint64 (toUint64 blockTimestamp)).drop 3 ++
                      ((putUint64 (toUint64 txIndex)).take 7).drop 5)
                    (copyAt [] 0 0 item.value ++
                      (createKey env b (mintSn blockTimestamp txIndex)).take MainKeyHeadLen)
                    (toValidTTL now b.Duration) with h | h
                  · exact Or.inl h
                  · exact Or.inr ⟨_, _, h⟩
                · apply hslot
                  rcases afterWrite_SetEntry_entries txn2 now
                    ([MainKeyHeadByte] ++ (putUint64 (toUint64 blockTimestamp)).drop 3 ++
                      ((putUint64 (toUint64 txIndex)).take 7).drop 5)
                    (copyAt [] 0 0 item.value ++
                      (createKey env b (mintSn blockTimestamp txIndex)).take MainKeyHeadLen)
                    (wrap64 (toInt64 item.expiresAt - now)) with h | h
                  · exact Or.inl h
                  · exact Or.inr ⟨_, _, h⟩

theorem rawLookup_foldr_insert (q : Bytes) (tail base : List (Bytes × Entry))
    (h : ∀ w ∈ tail, q ≠ w.1) :
    rawLookup q (tail.foldr (fun w l => insertEntry w.1 w.2 l) base) = rawLookup q base := by
  induction tail with
  | nil => rfl
  | cons w rest ih =>
    rw [List.foldr_cons, rawLookup_insertEntry_ne _ _ _ _ (h w (List.mem_cons_self _ _))]
    exact ih (fun w hw => h w (List.mem_cons_of_mem _ hw))

theorem mem_foldr_insert {x : Bytes × Entry} {tail base : List (Bytes × Entry)}
    (h : x ∈ tail.foldr (fun w l => insertEntry w.1 w.2 l) base) : x ∈ tail ∨ x ∈ base := by
  induction tail with
  | nil => exact Or.inr h
  | cons w rest ih =>
    rw [List.foldr_cons] at h
    rcases mem_insertEntry h with h | h
    · left
      rw [h]
      exact List.mem_cons_self _ _
    · rcases ih h with h | h
      · exact Or.inl (List.mem_cons_of_mem _ h)
      · exact Or.inr h

/-- C22: in a store from which the main key recovered for an overwrite is absent,
after the creation of the original (whatever it wrote), an overwrite that names
the serial number of that creation but whose from address has another
fingerprint recovers a key that is still not in the store: `putGanyTx` returns
the store's own key-not-found error, which is none of the errors of the state
machine and which `DeliverTx` reports as code 104, and the transaction, the
original record included, is as it was. -/
theorem C22_overwrite_by_another_author (env : Env) (now now2 : Int) (txn : Txn)
    (origTx newTx : Bytes) (bt ti bt2 ti2 : Int) (a b : Bulletin)
    (ha : GetBulletin env origTx = .ok a) (hanew : a.OldSn = [])
    (hb : GetBulletin env newTx = .ok b) (hsn : b.OldSn = mintSn bt ti)
    (hfp : (sum64 env b.From).take 8 ≠ (sum64 env a.From).take 8)
    (habsent : rawLookup (overwriteKey env b) txn.entries = none) :
    putGanyTx env now2 (putGanyTx env now txn origTx bt ti).1 newTx bt2 ti2 =
      ((putGanyTx env now txn origTx bt ti).1, some .badgerErrKeyNotFound) ∧
    Err.badgerErrKeyNotFound ∉ [Err.ErrTimestampTooLong, Err.ErrInvalidOldSN,
      Err.ErrCantFindOldBulletin, Err.ErrCantOverwriteBulletin, Err.ErrKeyNotFound,
      Err.ErrMainKeyHeadNotFound] ∧
    deliverCode .badgerErrKeyNotFound = 104 ∧
    ∀ k, (putGanyTx env now2 (putGanyTx env now txn origTx bt ti).1 newTx bt2 ti2).1.Get now2 k =
      (putGanyTx env now txn origTx bt ti).1.Get now2 k := by
  have hc : putGanyTx env now txn origTx bt ti = createGanyTx env now txn origTx bt ti :=
    putGanyTx_create ha hanew
  have hsn8 : b.OldSn.length = 8 := by rw [hsn]; rfl
  have hold : b.OldSn ≠ [] := by
    intro h0
    rw [h0] at hsn8
    cases hsn8
  have hne : overwriteKey env b ≠ createKey env a (mintSn bt ti) := by
    intro heq
    rw [overwriteKey_eq env b hsn8, createKey_eq env a _ (mintSn_length bt ti), hsn] at heq
    have hd := congrArg (List.drop 22) heq
    rw [List.drop_left' (by rw [List.length_append, getMainKeyHead_length, mintSn_length]),
      List.drop_left' (by rw [List.length_append, getMainKeyHead_length, mintSn_length])] at hd
    exact hfp hd
  have hraw : rawLookup (overwriteKey env b) (putGanyTx env now txn origTx bt ti).1.entries =
      none := by
    rw [hc]
    rcases createGanyTx_entries env now txn origTx bt ti with h | ⟨a2, id, ha2, _, tail, htail, h⟩
    · rw [h]
      exact habsent
    · rw [ha] at ha2
      injection ha2 with ha2
      subst ha2
      rw [h, rawLookup_foldr_insert, rawLookup_insertEntry_ne _ _ _ _ hne, habsent]
      intro w hw heq
      have hl := overwriteKey_length env b
      rw [heq] at hl
      rcases htail w hw with h9 | h8
      · omega
      · omega
  have hget : (putGanyTx env now txn origTx bt ti).1.Get now2 (overwriteKey env b) =
      .error .badgerErrKeyNotFound := by
    unfold Txn.Get
    rw [hraw]
  have hput : putGanyTx env now2 (putGanyTx env now txn origTx bt ti).1 newTx bt2 ti2 =
      ((putGanyTx env now txn origTx bt ti).1, some .badgerErrKeyNotFound) := by
    rw [putGanyTx_overwrite hb hold]
    unfold overwriteBulletin getOldVersionOfGanyTx
    rw [hb]
    simp only [hget]
  refine ⟨hput, by decide, rfl, ?_⟩
  intro k
  rw [hput]

set_option maxRecDepth 100000 in
theorem C22_overwrite_by_another_author_witness :
    GetBulletin demoEnv (demoTx [1, 100, 50, 9, 18, 6]) = .ok demoBulletin ∧
    GetBulletin demoEnv (demoTx demoIntruderBz) = .ok demoIntruder ∧
    demoTxn1.Get 100 (createKey demoEnv demoBulletin (mintSn 110 0)) = .ok demoItem ∧
    putGanyTx demoEnv 100 demoTxn1 (demoTx demoIntruderBz) 110 1 =
      (demoTxn1, some .badgerErrKeyNotFound) ∧
    putGanyTx demoEnv 100 (putGanyTx demoEnv 100 demoTxn (demoTx [1, 100, 50, 9, 18, 6]) 110 0).1
        (demoTx demoIntruderBz) 110 1 =
      ((putGanyTx demoEnv 100 demoTxn (demoTx [1, 100, 50, 9, 18, 6]) 110 0).1,
        some .badgerErrKeyNotFound) ∧
    Err.badgerErrKeyNotFound ∉ [Err.ErrTimestampTooLong, Err.ErrInvalidOldSN,
      Err.ErrCantFindOldBulletin, Err.ErrCantOverwriteBulletin, Err.ErrKeyNotFound,
      Err.ErrMainKeyHeadNotFound] ∧
    deliverCode .badgerErrKeyNotFound = 104 ∧
    ∀ k, (putGanyTx demoEnv 100
        (putGanyTx demoEnv 100 demoTxn (demoTx [1, 100, 50, 9, 18, 6]) 110 0).1
        (demoTx demoIntruderBz) 110 1).1.Get 100 k =
      (putGanyTx demoEnv 100 demoTxn (demoTx [1, 100, 50, 9, 18, 6]) 110 0).1.Get 100 k :=
  ⟨by rfl, by rfl, by rfl, by rfl,
    C22_overwrite_by_another_author demoEnv 100 100 demoTxn (demoTx [1, 100, 50, 9, 18, 6])
      (demoTx demoIntruderBz) 110 0 110 1 demoBulletin demoIntruder (by rfl) (by rfl) (by rfl)
      (by rfl) (by decide) (by rfl)⟩

/-! ## Main values stay well formed -/

theorem Get_ok_mem {txn : Txn} {now : Int} {key : Bytes} {e : Entry}
    (h : txn.Get now key = .ok e) : (key, e) ∈ txn.entries := by
  unfold Txn.Get at h
  split at h
  · cases h
  · rename_i e0 hr
    split at h
    · cases h
    · injection h with h
      subst h
      exact rawLookup_mem hr

/-- The records of the transaction after `overwriteBulletin`, whatever it
returned: those before the call, or those with the record of the recovered key
deleted, or those with that record replaced by the topic hash, the history
count raised by one, the old IDs, the new ID and the new envelope. -/
theorem overwriteBulletin_entries (env : Env) (now : Int) (txn : Txn) (newTx : Bytes) :
    (overwriteBulletin env now txn newTx).1.entries = txn.entries ∨
    (∃ key, (overwriteBulletin env now txn newTx).1.entries = eraseEntry key txn.entries) ∨
    ∃ b item newId ttl,
      txn.Get now (overwriteKey env b) = .ok item ∧ newId.length = 64 ∧
      36 + uint32 ((item.value.take 36).drop 32) * 64 ≤ item.value.length ∧
      (overwriteBulletin env now txn newTx).1.entries =
        insertEntry (overwriteKey env b)
          ⟨b.GetTopicHash env ++
              putUint32 (toUint32 (uint32 ((item.value.take 36).drop 32) + 1)) ++
              (item.value.take (36 + uint32 ((item.value.take 36).drop 32) * 64)).drop 36 ++
              newId ++ newTx, ttl⟩ txn.entries := by
  cases hb : GetBulletin env newTx with
  | error e =>
    left
    unfold overwriteBulletin getOldVersionOfGanyTx
    rw [hb]
  | ok b =>
    cases hr : overwriteBulletin env now txn newTx with
    | mk t o =>
      cases o with
      | some e =>
        left
        rw [overwriteBulletin_err hr]
      | none =>
        obtain ⟨idHis, key, oldTx, old, hold, _, _, _, hset, hdel⟩ := overwriteBulletin_ok hb hr
        obtain ⟨item, id, hkey, hget, _, _, hlen, _, hidHis, _⟩ :=
          getOldVersionOfGanyTx_ok hb hold
        by_cases hc : b.ContentList.length = 0
        · right
          left
          exact ⟨key, (Delete_ok (hdel hc)).1⟩
        · right
          right
          obtain ⟨newId, hnewId, hs⟩ := hset hc
          have hget2 : txn.Get now (overwriteKey env b) = .ok item := by
            rw [← hkey]
            exact hget
          refine ⟨b, item, newId, withTTL now (toValidTTL now b.Duration), hget2,
            GetBulletinID_length hnewId, hlen, ?_⟩
          have hil : idHis.length = uint32 ((item.value.take 36).drop 32) * 64 := by
            rw [hidHis, List.length_drop, List.length_take]
            omega
          have hdiv : idHis.length / BulletinIdLen = uint32 ((item.value.take 36).drop 32) := by
            rw [hil]
            exact Nat.mul_div_cancel _ (by decide)
          rw [value_head (b.GetTopicHash env) _ (env.sha256_len b.Topic) (putUint32_length _),
            hdiv, hidHis, hkey] at hs
          exact (SetEntry_ok hs).1

/-- One call of `putGanyTx` keeps every value under a 30-byte key well formed,
with a history count that is at most the number of calls made. -/
theorem putGanyTx_keeps_main_values (env : Env) (now : Int) (txn : Txn) (tx : Bytes)
    (bt ti : Int) (n : Nat) (hn : n + 1 < 2 ^ 32)
    (hinv : ∀ kv ∈ txn.entries, kv.1.length = 30 →
      mainValueWellFormed kv.2.value ∧ uint32 ((kv.2.value.take 36).drop 32) ≤ n) :
    ∀ kv ∈ (putGanyTx env now txn tx bt ti).1.entries, kv.1.length = 30 →
      mainValueWellFormed kv.2.value ∧ uint32 ((kv.2.value.take 36).drop 32) ≤ n + 1 := by
  have hold : ∀ kv ∈ txn.entries, kv.1.length = 30 →
      mainValueWellFormed kv.2.value ∧ uint32 ((kv.2.value.take 36).drop 32) ≤ n + 1 := by
    intro kv hkv hl
    obtain ⟨h1, h2⟩ := hinv kv hkv hl
    exact ⟨h1, by omega⟩
  unfold putGanyTx
  split
  · exact hold
  · split
    · rcases createGanyTx_entries env now txn tx bt ti with h | ⟨b, id, _, hid, tail, htail, h⟩
      · rw [h]
        exact hold
      · rw [h]
        intro kv hkv hl
        rcases mem_foldr_insert hkv with hkv | hkv
        · rcases htail kv hkv with h9 | h8
          · omega
          · omega
        · rcases mem_insertEntry hkv with hkv | hkv
          · rw [hkv]
            have hc : (((b.GetTopicHash env ++ [0, 0, 0, 1] ++ id ++ tx).take 36).drop 32) =
                [0, 0, 0, 1] :=
              header_count _ _ _ _ (env.sha256_len _) rfl
            have hth : (b.GetTopicHash env).length = 32 := env.sha256_len _
            have hidl := GetBulletinID_length hid
            unfold mainValueWellFormed
            simp only [hc]
            refine ⟨⟨by decide, ?_⟩, ?_⟩
            · simp only [List.length_append, hth, hidl, List.length_cons, List.length_nil]
              have : uint32 [0, 0, 0, 1] = 1 := rfl
              omega
            · have : uint32 [0, 0, 0, 1] = 1 := rfl
              omega
          · exact hold kv hkv hl
    · rcases overwriteBulletin_entries env now txn tx with h | ⟨key, h⟩ |
        ⟨b, item, newId, ttl, hget, hidl, hlen, h⟩
      · rw [h]
        exact hold
      · rw [h]
        intro kv hkv hl
        exact hold kv (mem_eraseEntry hkv) hl
      · rw [h]
        intro kv hkv hl
        rcases mem_insertEntry hkv with hkv | hkv
        · rw [hkv]
          obtain ⟨_, hcn⟩ := hinv _ (Get_ok_mem hget) (overwriteKey_length env b)
          have hcn2 : uint32 ((item.value.take 36).drop 32) ≤ n := hcn
          have hth : (b.GetTopicHash env).length = 32 := env.sha256_len _
          have hc := header_count (b.GetTopicHash env)
            (putUint32 (toUint32 (uint32 ((item.value.take 36).drop 32) + 1)))
            ((item.value.take (36 + uint32 ((item.value.take 36).drop 32) * 64)).drop 36)
            (newId ++ tx) hth (putUint32_length _)
          have hu : uint32 (putUint32 (toUint32 (uint32 ((item.value.take 36).drop 32) + 1))) =
              uint32 ((item.value.take 36).drop 32) + 1 := by
            rw [putUint32_toUint32, uint32_putUint32 _ (by omega)]
          have hil : ((item.value.take (36 + uint32 ((item.value.take 36).drop 32) * 64)).drop
              36).length = uint32 ((item.value.take 36).drop 32) * 64 := by
            rw [List.length_drop, List.length_take]
            omega
          unfold mainValueWellFormed
          simp only [List.append_assoc] at hc ⊢
          simp only [hc, hu]
          refine ⟨⟨by omega, ?_⟩, by omega⟩
          simp only [List.length_append, hth, hidl, hil, putUint32_length]
          omega
        · exact hold kv hkv hl

/-- After a sequence of calls on a store whose values under 30-byte keys are
well formed with counts at most `n`, they are well formed with counts at most
`n` plus the number of calls. -/
theorem putAll_keeps_main_values (env : Env) (calls : List PutCall) :
    ∀ (txn : Txn) (n : Nat), n + calls.length < 2 ^ 32 →
      (∀ kv ∈ txn.entries, kv.1.length = 30 →
        mainValueWellFormed kv.2.value ∧ uint32 ((kv.2.value.take 36).drop 32) ≤ n) →
      ∀ kv ∈ (putAll env txn calls).entries, kv.1.length = 30 →
        mainValueWellFormed kv.2.value ∧
          uint32 ((kv.2.value.take 36).drop 32) ≤ n + calls.length := by
  induction calls with
  | nil =>
    intro txn n _ hinv
    exact hinv
  | cons c rest ih =>
    intro txn n hn hinv
    rw [List.length_cons] at hn ⊢
    unfold putAll
    have hstep := putGanyTx_keeps_main_values env c.now
      (if c.newTxn then ⟨txn.entries, 0, txn.maxBatchCount⟩ else txn) c.tx c.blockTimestamp
      c.txIndex n (by omega)
      (by
        have he : (if c.newTxn then (⟨txn.entries, 0, txn.maxBatchCount⟩ : Txn) else txn).entries =
            txn.entries := by
          split <;> rfl
        rw [he]
        exact hinv)
    have := ih _ (n + 1) (by omega) hstep
    rw [show n + (rest.length + 1) = n + 1 + rest.length by omega]
    exact this

/-- In a value that holds its declared history, the loop of `historyContainsId`
stays in bounds. -/
theorem historyLoop_total (value id : Bytes) :
    ∀ (n start : Nat), start + n * 64 ≤ value.length →
      ∃ found, historyLoop value id n start = .ok found := by
  intro n
  induction n with
  | zero =>
    intro start _
    exact ⟨false, rfl⟩
  | succ m ih =>
    intro start h
    unfold historyLoop
    rw [slice_of_le (Nat.le_add_right _ _) (by show start + 64 ≤ value.length; omega)]
    simp only
    split
    · exact ⟨true, rfl⟩
    · exact ih (start + BulletinIdLen) (by show start + 64 + m * 64 ≤ value.length; omega)

/-- C29: starting from an empty store, after any sequence of fewer than `2^32`
calls of `putGanyTx` (in one transaction or in several), every record stored
under a 30-byte key has a value of length at least `36 + 64·HistoryCount` with
`HistoryCount ≥ 1`; so the slices `value[32:36]`, `value[36:36+64·count]` and
`value[36+64·count:]` exist, and `historyContainsId` runs through the stored
IDs without leaving the value. -/
theorem C29_main_values_well_formed (env : Env) (maxBatchCount : Nat) (calls : List PutCall)
    (hcalls : calls.length < 2 ^ 32) :
    ∀ kv ∈ (putAll env ⟨[], 0, maxBatchCount⟩ calls).entries, kv.1.length = 30 →
      mainValueWellFormed kv.2.value ∧
      slice kv.2.value TopicHashEnd HistoryCountEnd = .ok ((kv.2.value.take 36).drop 32) ∧
      slice kv.2.value HistoryCountEnd
          (HistoryCountEnd + uint32 ((kv.2.value.take 36).drop 32) * BulletinIdLen) =
        .ok ((kv.2.value.take (36 + uint32 ((kv.2.value.take 36).drop 32) * 64)).drop 36) ∧
      sliceFrom kv.2.value
          (HistoryCountEnd + uint32 ((kv.2.value.take 36).drop 32) * BulletinIdLen) =
        .ok (envelopeOf kv.2.value) ∧
      ∀ id, ∃ found, historyContainsId kv.2.value id =
        .ok (found, 36 + uint32 ((kv.2.value.take 36).drop 32) * 64) := by
  intro kv hkv hl
  obtain ⟨hwf, _⟩ := putAll_keeps_main_values env calls ⟨[], 0, maxBatchCount⟩ 0
    (by omega) (by intro kv hkv; cases hkv) kv hkv hl
  obtain ⟨h1, h2⟩ := hwf
  have h36 : 36 ≤ kv.2.value.length := by omega
  have hend : 36 + uint32 ((kv.2.value.take 36).drop 32) * 64 ≤ kv.2.value.length := by omega
  have hs1 : slice kv.2.value TopicHashEnd HistoryCountEnd =
      .ok ((kv.2.value.take 36).drop 32) := slice_of_le (by decide) h36
  refine ⟨⟨h1, h2⟩, hs1, slice_of_le (Nat.le_add_right _ _) hend, ?_, ?_⟩
  · have hsl := slice_of_le hend (Nat.le_refl kv.2.value.length)
    rw [List.take_length] at hsl
    exact hsl
  · intro id
    obtain ⟨found, hf⟩ := historyLoop_total kv.2.value id
      (uint32 ((kv.2.value.take 36).drop 32)) 36 hend
    refine ⟨found, ?_⟩
    unfold historyContainsId
    rw [hs1]
    simp only
    have hf2 : historyLoop kv.2.value id (uint32 ((kv.2.value.take 36).drop 32))
        HistoryCountEnd = .ok found := hf
    rw [hf2]
    rfl

set_option maxRecDepth 100000 in
theorem C29_main_values_well_formed_witness :
    demoCalls.length < 2 ^ 32 ∧
    (putAll demoEnv ⟨[], 0, 1000⟩ demoCalls).entries.any
      (fun kv => kv.1.length == 30 && uint32 ((kv.2.value.take 36).drop 32) == 2) = true ∧
    ∀ kv ∈ (putAll demoEnv ⟨[], 0, 1000⟩ demoCalls).entries, kv.1.length = 30 →
      mainValueWellFormed kv.2.value ∧
      slice kv.2.value TopicHashEnd HistoryCountEnd = .ok ((kv.2.value.take 36).drop 32) ∧
      slice kv.2.value HistoryCountEnd
          (HistoryCountEnd + uint32 ((kv.2.value.take 36).drop 32) * BulletinIdLen) =
        .ok ((kv.2.value.take (36 + uint32 ((kv.2.value.take 36).drop 32) * 64)).drop 36) ∧
      sliceFrom kv.2.value
          (HistoryCountEnd + uint32 ((kv.2.value.take 36).drop 32) * BulletinIdLen) =
        .ok (envelopeOf kv.2.value) ∧
      ∀ id, ∃ found, historyContainsId kv.2.value id =
        .ok (found, 36 + uint32 ((kv.2.value.take 36).drop 32) * 64) :=
  ⟨by decide, by rfl, C29_main_values_well_formed demoEnv 1000 demoCalls (by decide)⟩

/-! ## Serial numbers of a session -/

end Gany
